import Mathlib

/-!
Verification of the reading-pipeline core of the `theveil` repository:
the text sanitizer, schema normalizer, strict validator, deterministic
stub generator and the orchestrating pipeline, shallowly embedded from
the TypeScript sources (`src/domain/dashboard.ts` as shipped in the
repository snapshot, `src/adapters/stubAdapter.ts`,
`src/pipeline/readingPipeline.ts`, `src/repository/horoscopeRepository.ts`,
`src/pipeline/dashboardPrompt.ts`).

Modelling conventions:
* JavaScript strings are embedded as `List Char`; `charCodeAt` is the
  character's code point (all inputs of interest live in the BMP, where
  UTF-16 code units and code points agree).
* JSON numbers are modelled as integers (`Int`).  Every numeric field of
  the dashboard schema is an integer; the embedded `JSON.parse` rejects
  fractional or exponent syntax, which no theorem below depends on.
* 32-bit JavaScript integer arithmetic (`>>> 0`, `Math.imul`, `<<`) is
  modelled as arithmetic modulo 2^32 on `Nat`, which is congruent to the
  source's mixed signed/unsigned arithmetic.
* The pseudo-random generator of the stub adapter returns
  `((state >>> 0) % 10000) / 10000`; every use site has the shape
  `Math.floor(rng() * k)`, embedded exactly as `(m * k) / 10000` in `Nat`
  where `m = (state >>> 0) % 10000`.
* `new Date().toISOString()`, `toLocaleDateString` and the missing
  `domain/zodiac.ts` are ambient inputs: they enter the embedding as
  explicit parameters (`generatedAtISO`, `localeDateLabel`, `sign`).
-/

abbrev Str := List Char

/-- Backtick character (written numerically). -/
def backtick : Char := Char.ofNat 96

/-- JavaScript regexp `\s` / `String.prototype.trim` whitespace class. -/
def isJsWs (c : Char) : Bool :=
  c = ' ' || c = '\t' || c = '\n' || c = '\r' ||
  c.val = 11 || c.val = 12 ||
  c.val = 0xa0 || c.val = 0x1680 ||
  (0x2000 ≤ c.val && c.val ≤ 0x200a) ||
  c.val = 0x2028 || c.val = 0x2029 || c.val = 0x202f ||
  c.val = 0x205f || c.val = 0x3000 || c.val = 0xfeff

/-- JSON (RFC 8259) whitespace, as accepted by `JSON.parse`. -/
def isJsonWs (c : Char) : Bool :=
  c = ' ' || c = '\t' || c = '\n' || c = '\r'

/-- `/[A-Za-z_$]/` of `quoteUnquotedKeys`. -/
def isIdentStart (c : Char) : Bool :=
  ('A' ≤ c && c ≤ 'Z') || ('a' ≤ c && c ≤ 'z') || c = '_' || c = '$'

/-- `/[A-Za-z0-9_$]/` of `quoteUnquotedKeys`. -/
def isIdentChar (c : Char) : Bool :=
  isIdentStart c || ('0' ≤ c && c ≤ '9')

/-- ASCII lower-casing, the fragment of `String.prototype.toLowerCase`
exercised by the sources (section titles and tone words are ASCII). -/
def jsToLower (c : Char) : Char :=
  if 'A' ≤ c && c ≤ 'Z' then Char.ofNat (c.val.toNat + 32) else c

def strToLower (s : Str) : Str := s.map jsToLower

/-- `String.prototype.trim`. -/
def jsTrim (s : Str) : Str :=
  ((s.dropWhile isJsWs).reverse.dropWhile isJsWs).reverse

/-- Prefix test used to implement substring search. -/
def strStarts : Str → Str → Bool
  | _, [] => true
  | [], _ :: _ => false
  | c :: cs, p :: ps => c = p && strStarts cs ps

/-- Substring test (`String.prototype.includes`). -/
def strIncludes : Str → Str → Bool
  | [], pat => pat.isEmpty
  | c :: cs, pat => strStarts (c :: cs) pat || strIncludes cs pat

mutual
/-- The JavaScript value universe reachable from `JSON.parse`:
`null`, booleans, (integer) numbers, strings, arrays and plain objects.
Object members are kept in insertion order, as JavaScript does. -/
inductive Json where
  | nul : Json
  | bool (b : Bool) : Json
  | num (n : Int) : Json
  | str (s : Str) : Json
  | arr (items : JsonL) : Json
  | obj (fields : JsonF) : Json
inductive JsonL where
  | nil : JsonL
  | cons (hd : Json) (tl : JsonL) : JsonL
inductive JsonF where
  | nil : JsonF
  | cons (key : Str) (val : Json) (tl : JsonF) : JsonF
end

mutual
def Json.beq : Json → Json → Bool
  | .nul, .nul => true
  | .bool a, .bool b => a == b
  | .num a, .num b => a == b
  | .str a, .str b => a == b
  | .arr a, .arr b => JsonL.beq a b
  | .obj a, .obj b => JsonF.beq a b
  | _, _ => false
def JsonL.beq : JsonL → JsonL → Bool
  | .nil, .nil => true
  | .cons x xs, .cons y ys => Json.beq x y && JsonL.beq xs ys
  | _, _ => false
def JsonF.beq : JsonF → JsonF → Bool
  | .nil, .nil => true
  | .cons k v fs, .cons l w gs => k == l && Json.beq v w && JsonF.beq fs gs
  | _, _ => false
end

mutual
def Json.decEq : (a b : Json) → Decidable (a = b)
  | .nul, .nul => isTrue rfl
  | .nul, .bool _ => isFalse nofun
  | .nul, .num _ => isFalse nofun
  | .nul, .str _ => isFalse nofun
  | .nul, .arr _ => isFalse nofun
  | .nul, .obj _ => isFalse nofun
  | .bool _, .nul => isFalse nofun
  | .bool x, .bool y =>
    if h : x = y then isTrue (by rw [h]) else isFalse (fun hh => h (Json.bool.inj hh))
  | .bool _, .num _ => isFalse nofun
  | .bool _, .str _ => isFalse nofun
  | .bool _, .arr _ => isFalse nofun
  | .bool _, .obj _ => isFalse nofun
  | .num _, .nul => isFalse nofun
  | .num _, .bool _ => isFalse nofun
  | .num x, .num y =>
    if h : x = y then isTrue (by rw [h]) else isFalse (fun hh => h (Json.num.inj hh))
  | .num _, .str _ => isFalse nofun
  | .num _, .arr _ => isFalse nofun
  | .num _, .obj _ => isFalse nofun
  | .str _, .nul => isFalse nofun
  | .str _, .bool _ => isFalse nofun
  | .str _, .num _ => isFalse nofun
  | .str x, .str y =>
    if h : x = y then isTrue (by rw [h]) else isFalse (fun hh => h (Json.str.inj hh))
  | .str _, .arr _ => isFalse nofun
  | .str _, .obj _ => isFalse nofun
  | .arr _, .nul => isFalse nofun
  | .arr _, .bool _ => isFalse nofun
  | .arr _, .num _ => isFalse nofun
  | .arr _, .str _ => isFalse nofun
  | .arr x, .arr y =>
    match JsonL.decEq x y with
    | isTrue h => isTrue (by rw [h])
    | isFalse h => isFalse (fun hh => h (Json.arr.inj hh))
  | .arr _, .obj _ => isFalse nofun
  | .obj _, .nul => isFalse nofun
  | .obj _, .bool _ => isFalse nofun
  | .obj _, .num _ => isFalse nofun
  | .obj _, .str _ => isFalse nofun
  | .obj _, .arr _ => isFalse nofun
  | .obj x, .obj y =>
    match JsonF.decEq x y with
    | isTrue h => isTrue (by rw [h])
    | isFalse h => isFalse (fun hh => h (Json.obj.inj hh))
def JsonL.decEq : (a b : JsonL) → Decidable (a = b)
  | .nil, .nil => isTrue rfl
  | .nil, .cons _ _ => isFalse nofun
  | .cons _ _, .nil => isFalse nofun
  | .cons x xs, .cons y ys =>
    match Json.decEq x y with
    | isTrue h1 =>
      match JsonL.decEq xs ys with
      | isTrue h2 => isTrue (by rw [h1, h2])
      | isFalse h2 => isFalse (fun hh => h2 (JsonL.cons.inj hh).2
        )
    | isFalse h1 => isFalse (fun hh => h1 (JsonL.cons.inj hh).1)
def JsonF.decEq : (a b : JsonF) → Decidable (a = b)
  | .nil, .nil => isTrue rfl
  | .nil, .cons _ _ _ => isFalse nofun
  | .cons _ _ _, .nil => isFalse nofun
  | .cons k v fs, .cons l w gs =>
    if hk : k = l then
      match Json.decEq v w with
      | isTrue h1 =>
        match JsonF.decEq fs gs with
        | isTrue h2 => isTrue (by rw [hk, h1, h2])
        | isFalse h2 => isFalse (fun hh => h2 (JsonF.cons.inj hh).2.2)
      | isFalse h1 => isFalse (fun hh => h1 (JsonF.cons.inj hh).2.1)
    else isFalse (fun hh => hk (JsonF.cons.inj hh).1)
end

instance : DecidableEq Json := Json.decEq

instance : DecidableEq JsonL := JsonL.decEq

instance : DecidableEq JsonF := JsonF.decEq

/-- List-literal convenience constructor for `JsonL`. -/
def jl : List Json → JsonL
  | [] => .nil
  | x :: xs => .cons x (jl xs)

/-- List-literal convenience constructor for `JsonF`. -/
def jf : List (Str × Json) → JsonF
  | [] => .nil
  | (k, v) :: fs => .cons k v (jf fs)

def JsonL.toList : JsonL → List Json
  | .nil => []
  | .cons x xs => x :: xs.toList

def JsonF.toList : JsonF → List (Str × Json)
  | .nil => []
  | .cons k v fs => (k, v) :: fs.toList

def JsonL.length : JsonL → Nat
  | .nil => 0
  | .cons _ xs => xs.length + 1

def JsonF.length : JsonF → Nat
  | .nil => 0
  | .cons _ _ fs => fs.length + 1

/-- `Array.prototype.slice(0, n)`. -/
def JsonL.take : JsonL → Nat → JsonL
  | _, 0 => .nil
  | .nil, _ => .nil
  | .cons x xs, n + 1 => .cons x (xs.take n)

def JsonL.append : JsonL → JsonL → JsonL
  | .nil, ys => ys
  | .cons x xs, ys => .cons x (xs.append ys)

/-- Property read `o[k]`; `none` plays the role of `undefined`.
JavaScript objects after `JSON.parse` have unique keys, so first match
equals last-write-wins. -/
def JsonF.get : JsonF → Str → Option Json
  | .nil, _ => none
  | .cons k v fs, key => if k = key then some v else fs.get key

/-- Property write `o[k] = v`: updates in place, appends when absent
(JavaScript keeps the original insertion position on update). -/
def JsonF.set : JsonF → Str → Json → JsonF
  | .nil, key, v => .cons key v .nil
  | .cons k w fs, key, v =>
    if k = key then .cons k v fs else .cons k w (fs.set key v)

/-- Field read on a `Json` value: `undefined` on non-objects (arrays have
no named members of interest here). -/
def Json.get : Json → Str → Option Json
  | .obj fs, key => fs.get key
  | _, _ => none

/-- `typeof value === "object" && value !== null` (arrays included). -/
def isRecord : Json → Bool
  | .obj _ => true
  | .arr _ => true
  | _ => false

/-- `isRecord` restricted to plain objects; property reads on arrays all
yield `undefined`, so guards of the form `isRecord x && isString x.f`
behave identically — the sources never read named fields off arrays. -/
def isObjRecord : Json → Bool
  | .obj _ => true
  | _ => false

def isString : Json → Bool
  | .str _ => true
  | _ => false

/-- `typeof value === "number" && Number.isFinite(value)`; all embedded
numbers are finite integers. -/
def isNumber : Json → Bool
  | .num _ => true
  | _ => false

/-- `Number.isInteger` on an embedded (integer) number. -/
def isInteger : Json → Bool
  | .num _ => true
  | _ => false

def isArray : Json → Bool
  | .arr _ => true
  | _ => false

/-- Decimal digits of a natural number (fuel-structural so that it
reduces in the kernel); `natChars` below fixes the fuel. -/
def natCharsF : Nat → Nat → Str
  | 0, _ => []
  | fuel + 1, n =>
    if n < 10 then [Char.ofNat (48 + n)]
    else natCharsF fuel (n / 10) ++ [Char.ofNat (48 + n % 10)]

/-- `String(n)` for a natural number. -/
def natChars (n : Nat) : Str := natCharsF (n + 1) n

/-- `String(n)` / `JSON.stringify(n)` for an integer. -/
def intChars (n : Int) : Str :=
  if n < 0 then '-' :: natChars n.natAbs else natChars n.natAbs

def hexDigit (n : Nat) : Char :=
  if n < 10 then Char.ofNat (48 + n) else Char.ofNat (87 + n)

/-- The string-escaping of `JSON.stringify`: quote, backslash and the
named control escapes, `\u00xx` for the remaining control characters. -/
def escapeChar (c : Char) : Str :=
  if c = '"' then ['\\', '"']
  else if c = '\\' then ['\\', '\\']
  else if c.val = 8 then ['\\', 'b']
  else if c = '\t' then ['\\', 't']
  else if c = '\n' then ['\\', 'n']
  else if c.val = 12 then ['\\', 'f']
  else if c = '\r' then ['\\', 'r']
  else if c.val < 0x20 then
    ['\\', 'u', '0', '0', hexDigit (c.val.toNat / 16), hexDigit (c.val.toNat % 16)]
  else [c]

def escapeStr : Str → Str
  | [] => []
  | c :: cs => escapeChar c ++ escapeStr cs

mutual
/-- `JSON.stringify(value)` (compact form, no indentation), restricted to
the embedded value universe. -/
def serializeJson : Json → Str
  | .nul => ("null").data
  | .bool true => ("true").data
  | .bool false => ("false").data
  | .num n => intChars n
  | .str s => '"' :: escapeStr s ++ ['"']
  | .arr xs => '[' :: serializeItems xs ++ [']']
  | .obj fs => '{' :: serializeFields fs ++ ['}']
def serializeItems : JsonL → Str
  | .nil => []
  | .cons x .nil => serializeJson x
  | .cons x (.cons y tl) => serializeJson x ++ ',' :: serializeItems (.cons y tl)
def serializeFields : JsonF → Str
  | .nil => []
  | .cons k v .nil => '"' :: escapeStr k ++ '"' :: ':' :: serializeJson v
  | .cons k v (.cons l w tl) =>
    '"' :: escapeStr k ++ '"' :: ':' :: serializeJson v ++ ',' :: serializeFields (.cons l w tl)
end

def skipJsonWs (s : Str) : Str := s.dropWhile isJsonWs

/-- Decode a hex digit, `none` on other characters. -/
def hexVal (c : Char) : Option Nat :=
  if '0' ≤ c && c ≤ '9' then some (c.val.toNat - 48)
  else if 'a' ≤ c && c ≤ 'f' then some (c.val.toNat - 87)
  else if 'A' ≤ c && c ≤ 'F' then some (c.val.toNat - 55)
  else none

/-- String body after the opening quote, per the JSON grammar: raw
control characters are rejected, the standard escapes are decoded.
`\uXXXX` escapes denoting surrogate halves are rejected (they have no
`Char` counterpart); no theorem below exercises them. -/
def parseStrBody : Str → Option (Str × Str)
  | [] => none
  | '"' :: rest => some ([], rest)
  | '\\' :: 'u' :: h1 :: h2 :: h3 :: h4 :: rest => do
    let a ← hexVal h1
    let b ← hexVal h2
    let c ← hexVal h3
    let d ← hexVal h4
    let code := ((a * 16 + b) * 16 + c) * 16 + d
    if h : code < 0xd800 then
      let (cs, r) ← parseStrBody rest
      pure (Char.ofNatAux code (by omega) :: cs, r)
    else if h2 : 0xdfff < code ∧ code < 0x110000 then
      let (cs, r) ← parseStrBody rest
      pure (Char.ofNatAux code (by omega) :: cs, r)
    else none
  | '\\' :: e :: rest => do
    let c ←
      if e = '"' then some '"'
      else if e = '\\' then some '\\'
      else if e = '/' then some '/'
      else if e = 'b' then some (Char.ofNat 8)
      else if e = 'f' then some (Char.ofNat 12)
      else if e = 'n' then some '\n'
      else if e = 'r' then some '\r'
      else if e = 't' then some '\t'
      else none
    let (cs, r) ← parseStrBody rest
    pure (c :: cs, r)
  | c :: rest =>
    if c.val < 0x20 then none
    else do
      let (cs, r) ← parseStrBody rest
      pure (c :: cs, r)

def digitsToNat (ds : Str) : Nat :=
  ds.foldl (fun acc c => acc * 10 + (c.val.toNat - 48)) 0

/-- JSON number syntax, restricted to integers: a fraction or exponent
part makes the embedded parse fail (see the header notes). -/
def parseNum (s : Str) : Option (Json × Str) :=
  let neg := s.headD ' ' = '-'
  let s1 := if neg then s.tail else s
  let ds := s1.takeWhile Char.isDigit
  let rest := s1.drop ds.length
  if ds.isEmpty then none
  else if 1 < ds.length && ds.headD '0' = '0' then none
  else
    match rest with
    | '.' :: _ => none
    | 'e' :: _ => none
    | 'E' :: _ => none
    | _ =>
      let v : Int := digitsToNat ds
      some (.num (if neg then -v else v), rest)

mutual
/-- `JSON.parse`, fuel-structural recursive descent; `jsonParse` below
supplies sufficient fuel. -/
def parseVal : Nat → Str → Option (Json × Str)
  | 0, _ => none
  | fuel + 1, s =>
    let s := skipJsonWs s
    if strStarts s (("null").data) then some (.nul, s.drop 4)
    else if strStarts s (("true").data) then some (.bool true, s.drop 4)
    else if strStarts s (("false").data) then some (.bool false, s.drop 5)
    else
      match s with
      | '"' :: rest => do
        let (cs, r) ← parseStrBody rest
        pure (.str cs, r)
      | '{' :: rest =>
        let r1 := skipJsonWs rest
        (match r1 with
         | '}' :: r2 => some (.obj .nil, r2)
         | _ => parseObjMembers fuel r1 .nil)
      | '[' :: rest =>
        let r1 := skipJsonWs rest
        (match r1 with
         | ']' :: r2 => some (.arr .nil, r2)
         | _ => parseArrItems fuel r1 .nil)
      | _ => parseNum s
def parseObjMembers : Nat → Str → JsonF → Option (Json × Str)
  | 0, _, _ => none
  | fuel + 1, s, acc => do
    match s with
    | '"' :: rest => do
      let (key, r1) ← parseStrBody rest
      match skipJsonWs r1 with
      | ':' :: r2 => do
        let (v, r3) ← parseVal fuel r2
        let acc := acc.set key v
        match skipJsonWs r3 with
        | ',' :: r4 => parseObjMembers fuel (skipJsonWs r4) acc
        | '}' :: r4 => some (.obj acc, r4)
        | _ => none
      | _ => none
    | _ => none
def parseArrItems : Nat → Str → JsonL → Option (Json × Str)
  | 0, _, _ => none
  | fuel + 1, s, acc => do
    let (v, r1) ← parseVal fuel s
    let acc := acc.append (.cons v .nil)
    match skipJsonWs r1 with
    | ',' :: r2 => parseArrItems fuel r2 acc
    | ']' :: r2 => some (.arr acc, r2)
    | _ => none
end

/-- `JSON.parse`: a single value with only whitespace around it. -/
def jsonParse (s : Str) : Option Json :=
  match parseVal (s.length + 1) s with
  | some (v, rest) => if (skipJsonWs rest).isEmpty then some v else none
  | none => none

/-- Case-insensitive prefix test (regexp `i` flag). -/
def strStartsCI : Str → Str → Bool
  | _, [] => true
  | [], _ :: _ => false
  | c :: cs, p :: ps => jsToLower c = jsToLower p && strStartsCI cs ps

/-- One global pass of ``text.replace(/``​`(?:json)?\s*/gi, "")`` (with
`allowJson = true`), resp. of the second fence regexp without the `json`
group (`allowJson = false`).  The scan advances one character per step;
a match is consumed through the `skip` counter, reproducing the
left-to-right non-overlapping global-replace semantics. -/
def fenceGo (allowJson : Bool) (skip : Nat) : Str → Str
  | [] => []
  | c :: cs =>
    if skip ≠ 0 then fenceGo allowJson (skip - 1) cs
    else if c = backtick && strStarts cs [backtick, backtick] then
      let afterTicks := cs.drop 2
      let jlen := if allowJson && strStartsCI afterTicks (("json").data) then 4 else 0
      let wlen := ((afterTicks.drop jlen).takeWhile isJsWs).length
      fenceGo allowJson (2 + jlen + wlen) cs
    else c :: fenceGo allowJson 0 cs

/-- `stripCodeFences` of `dashboard.ts`: both fence regexps, then a
trailing `trim()`. -/
def stripCodeFences (text : Str) : Str :=
  jsTrim (fenceGo false 0 (fenceGo true 0 text))

/-- `String.prototype.indexOf` for a single character. -/
def indexOfChar (s : Str) (c : Char) : Option Nat :=
  s.findIdx? (fun x => x = c)

/-- `String.prototype.lastIndexOf` for a single character. -/
def lastIndexOfChar (s : Str) (c : Char) : Option Nat :=
  match s.reverse.findIdx? (fun x => x = c) with
  | some i => some (s.length - 1 - i)
  | none => none

/-- `extractJsonSlice`: raw first-`{` / last-`}` slice (not string-aware,
not depth-aware — faithful to the source). -/
def extractJsonSlice (text : Str) : Option Str × Bool :=
  match indexOfChar text '{', lastIndexOfChar text '}' with
  | some si, some ei =>
    if ei ≤ si then (none, false)
    else
      let slice := (text.drop si).take (ei + 1 - si)
      (some slice, slice.length ≠ text.length)
  | _, _ => (none, false)

/-- `removeTrailingCommas`: string-aware scan dropping commas whose next
non-whitespace character is `}` or `]`.  Second component: `removed`. -/
def rtcGo (inS esc : Bool) : Str → Str × Bool
  | [] => ([], false)
  | c :: cs =>
    if inS then
      let esc' := if esc then false else decide (c = '\\')
      let inS' := if esc then true else decide (c ≠ '"')
      let r := rtcGo inS' esc' cs
      (c :: r.1, r.2)
    else if c = '"' then
      let r := rtcGo true esc cs
      (c :: r.1, r.2)
    else if c = ',' then
      let ws := cs.takeWhile isJsWs
      match cs.drop ws.length with
      | '}' :: _ => ((rtcGo inS esc cs).1, true)
      | ']' :: _ => ((rtcGo inS esc cs).1, true)
      | _ =>
        let r := rtcGo inS esc cs
        (c :: r.1, r.2)
    else
      let r := rtcGo inS esc cs
      (c :: r.1, r.2)

def removeTrailingCommas (text : Str) : Str × Bool := rtcGo false false text

/-- Scanner state of `quoteUnquotedKeys`; `stack` entries: `true` for
`"object"`, `false` for `"array"`.  `skip` consumes the remainder of a
just-quoted bare key together with the whitespace before its colon
(the source jumps the loop index instead). -/
structure QukSt where
  stack : List Bool
  inS : Bool
  esc : Bool
  expectKey : Bool
  skip : Nat

/-- `quoteUnquotedKeys`: quotes bare identifiers standing where an
object key is expected (identifier followed, after whitespace, by `:`). -/
def qukGo (st : QukSt) : Str → Str
  | [] => []
  | c :: cs =>
    if st.skip ≠ 0 then qukGo { st with skip := st.skip - 1 } cs
    else if st.inS then
      let esc' := if st.esc then false else decide (c = '\\')
      let inS' := if st.esc then true else decide (c ≠ '"')
      c :: qukGo { st with inS := inS', esc := esc' } cs
    else if c = '"' then c :: qukGo { st with inS := true } cs
    else if c = '{' then
      c :: qukGo { st with stack := true :: st.stack, expectKey := true } cs
    else if c = '[' then
      c :: qukGo { st with stack := false :: st.stack, expectKey := false } cs
    else if c = '}' || c = ']' then
      let stack' := st.stack.tail
      c :: qukGo { st with stack := stack', expectKey := stack'.headD false } cs
    else if c = ',' then
      c :: qukGo { st with expectKey := st.stack.headD false } cs
    else if c = ':' then
      c :: qukGo { st with expectKey := false } cs
    else if st.expectKey then
      if isJsWs c then c :: qukGo st cs
      else if isIdentStart c then
        let key := c :: cs.takeWhile isIdentChar
        let afterKey := cs.drop (key.length - 1)
        let ws := afterKey.takeWhile isJsWs
        match afterKey.drop ws.length with
        | ':' :: _ =>
          '"' :: (key ++ '"' :: qukGo { st with expectKey := false, skip := (key.length - 1) + ws.length } cs)
        | _ => c :: qukGo st cs
      else c :: qukGo st cs
    else c :: qukGo st cs

def quoteUnquotedKeys (text : Str) : Str :=
  qukGo ⟨[], false, false, false, 0⟩ text

/-- Scanner state of `mergeRootObjects`. -/
structure MrgSt where
  inS : Bool
  esc : Bool
  depth : Int
  skip : Nat

/-- `mergeRootObjects`: on a root-closing `}` followed (modulo
whitespace) by `,` and `{`, the source jumps its index past the `{`,
dropping the brace pair, the comma and the whitespace in between.
Second component: `applied`. -/
def mrgGo (st : MrgSt) : Str → Str × Bool
  | [] => ([], false)
  | c :: cs =>
    if st.skip ≠ 0 then mrgGo { st with skip := st.skip - 1 } cs
    else if st.inS then
      let esc' := if st.esc then false else decide (c = '\\')
      let inS' := if st.esc then true else decide (c ≠ '"')
      let r := mrgGo { st with inS := inS', esc := esc' } cs
      (c :: r.1, r.2)
    else if c = '"' then
      let r := mrgGo { st with inS := true } cs
      (c :: r.1, r.2)
    else if c = '{' then
      let r := mrgGo { st with depth := st.depth + 1 } cs
      (c :: r.1, r.2)
    else if c = '}' then
      if st.depth = 1 then
        let ws1 := cs.takeWhile isJsWs
        match cs.drop ws1.length with
        | ',' :: cs2 =>
          let ws2 := cs2.takeWhile isJsWs
          (match cs2.drop ws2.length with
           | '{' :: _ =>
             ((mrgGo { st with skip := ws1.length + 1 + ws2.length + 1 } cs).1, true)
           | _ =>
             let r := mrgGo { st with depth := st.depth - 1 } cs
             (c :: r.1, r.2))
        | _ =>
          let r := mrgGo { st with depth := st.depth - 1 } cs
          (c :: r.1, r.2)
      else
        let r := mrgGo { st with depth := st.depth - 1 } cs
        (c :: r.1, r.2)
    else if c = '[' then
      let r := mrgGo { st with depth := st.depth + 1 } cs
      (c :: r.1, r.2)
    else if c = ']' then
      let r := mrgGo { st with depth := st.depth - 1 } cs
      (c :: r.1, r.2)
    else
      let r := mrgGo st cs
      (c :: r.1, r.2)

def mergeRootObjects (text : Str) : Str × Bool :=
  mrgGo ⟨false, false, 0, 0⟩ text

/-- Scanner state of `unwrapAnonymousRootObjects`; `pending` counts down
the whitespace characters between a root-level comma and the anonymous
wrapper `{` the source recorded by absolute position. -/
structure UnwSt where
  inS : Bool
  esc : Bool
  depth : Int
  pending : Option Nat
  skipping : Bool
  endDepth : Int

/-- Countdown bookkeeping for `pending` on each consumed character. -/
def unwTick : Option Nat → Option Nat
  | some (n + 1) => some n
  | _ => none

/-- `unwrapAnonymousRootObjects` (the `part_018` variant): drops the
brace pair of an anonymous `{...}` that follows a comma at root depth,
keeping the comma.  Second component: `applied`. -/
def unwGo (st : UnwSt) : Str → Str × Bool
  | [] => ([], false)
  | c :: cs =>
    if st.inS then
      let esc' := if st.esc then false else decide (c = '\\')
      let inS' := if st.esc then true else decide (c ≠ '"')
      let r := unwGo { st with inS := inS', esc := esc', pending := unwTick st.pending } cs
      (c :: r.1, r.2)
    else if c = '"' then
      let r := unwGo { st with inS := true, pending := unwTick st.pending } cs
      (c :: r.1, r.2)
    else if c = ',' && st.depth = 1 then
      let ws := cs.takeWhile isJsWs
      (match cs.drop ws.length with
       | '{' :: _ =>
         let r := unwGo { st with pending := some ws.length } cs
         (c :: r.1, true)
       | _ =>
         let r := unwGo { st with pending := unwTick st.pending } cs
         (c :: r.1, r.2))
    else if st.pending = some 0 && c = '{' then
      let r := unwGo { st with depth := st.depth + 1, pending := none,
                               skipping := true, endDepth := st.depth + 1 } cs
      (r.1, r.2)
    else if c = '{' then
      let r := unwGo { st with depth := st.depth + 1, pending := unwTick st.pending } cs
      (c :: r.1, r.2)
    else if c = '}' then
      if st.skipping && st.depth = st.endDepth then
        let r := unwGo { st with depth := st.depth - 1, skipping := false,
                                 pending := unwTick st.pending } cs
        (r.1, r.2)
      else
        let r := unwGo { st with depth := st.depth - 1, pending := unwTick st.pending } cs
        (c :: r.1, r.2)
    else if c = '[' then
      let r := unwGo { st with depth := st.depth + 1, pending := unwTick st.pending } cs
      (c :: r.1, r.2)
    else if c = ']' then
      let r := unwGo { st with depth := st.depth - 1, pending := unwTick st.pending } cs
      (c :: r.1, r.2)
    else
      let r := unwGo { st with pending := unwTick st.pending } cs
      (c :: r.1, r.2)

def unwrapAnonymousRootObjects (text : Str) : Str × Bool :=
  unwGo ⟨false, false, 0, none, false, 0⟩ text

/-- The brace/string scan of `closeMissingFinalBrace`: final
`(inString, depth)` state (only `{`/`}` are counted, brackets are not —
faithful to the source). -/
def closeScan (inS esc : Bool) (d : Int) : Str → Bool × Int
  | [] => (inS, d)
  | c :: cs =>
    if inS then
      let esc' := if esc then false else decide (c = '\\')
      let inS' := if esc then true else decide (c ≠ '"')
      closeScan inS' esc' d cs
    else if c = '"' then closeScan true esc d cs
    else
      let d1 := if c = '{' then d + 1 else d
      let d2 := if c = '}' then d1 - 1 else d1
      closeScan inS esc d2 cs

/-- `closeMissingFinalBrace`: appends exactly one `}` when the scan ends
outside a string with positive depth.  Second component: `added`. -/
def closeMissingFinalBrace (text : Str) : Str × Bool :=
  let r := closeScan false false 0 text
  if r.1 || r.2 ≤ 0 then (text, false)
  else (text ++ ['}'], true)

/-- `Number(string)` restricted to integer syntax: JavaScript also
accepts fractional/exponent/hex forms, which no embedded value produces
(see the header notes); blank strings convert to `0` as in JavaScript. -/
def jsNumberOfString (s : Str) : Option Int :=
  let t := jsTrim s
  if t.isEmpty then some 0
  else
    let neg := t.headD ' ' = '-'
    let t1 := if t.headD ' ' = '-' || t.headD ' ' = '+' then t.tail else t
    if !t1.isEmpty && t1.all Char.isDigit then
      some (if neg then -(digitsToNat t1 : Int) else (digitsToNat t1 : Int))
    else none

/-- `coerceNumber` of `dashboard.ts` on a property read (`none` stands
for `undefined`). -/
def coerceNumberO : Option Json → Option Int
  | some (.num n) => some n
  | some (.str s) => jsNumberOfString s
  | _ => none

/-- `clampInt` (`Math.round` is the identity on embedded integers). -/
def clampIntO (v : Option Json) (lo hi : Int) : Option Int :=
  (coerceNumberO v).map (fun n => min hi (max lo n))

/-- `isString(x) ? x : ""` on a property read. -/
def strOrEmpty : Option Json → Str
  | some (.str s) => s
  | _ => []

def isStringO : Option Json → Bool
  | some (.str _) => true
  | _ => false

/-- `normalizeTransitTone`. -/
def normalizeTransitTone : Json → Option Str
  | .str s =>
    let n := strToLower s
    if n = ("soft").data || n = ("neutral").data || n = ("intense").data then some n
    else if strIncludes n (("soft").data) || strIncludes n (("gentle").data) ||
            strIncludes n (("hope").data) || strIncludes n (("uplift").data) then
      some (("soft").data)
    else if strIncludes n (("intense").data) || strIncludes n (("strong").data) ||
            strIncludes n (("volatile").data) || strIncludes n (("disrupt").data) then
      some (("intense").data)
    else some (("neutral").data)
  | _ => none

/-- `normalizeTitle` of the sections normalizer. -/
def normalizeTitle : Option Json → Option Str
  | some (.str s) =>
    let t := strToLower (jsTrim s)
    if t = ("focus").data then some (("Focus").data)
    else if t = ("relationships").data then some (("Relationships").data)
    else if t = ("action").data then some (("Action").data)
    else if t = ("reflection").data then some (("Reflection").data)
    else none
  | _ => none

/-- Insertion-ordered map update (`Map.prototype.set`). -/
def mapSet (m : List (Str × Str)) (k v : Str) : List (Str × Str) :=
  match m with
  | [] => [(k, v)]
  | (k1, v1) :: rest => if k1 = k then (k1, v) :: rest else (k1, v1) :: mapSet rest k v

/-- `Map.prototype.get` (keys are unique by construction). -/
def mapGet (m : List (Str × Str)) (k : Str) : Option Str :=
  match m with
  | [] => none
  | (k1, v1) :: rest => if k1 = k then some v1 else mapGet rest k

/-- The `byTitle` accumulation loop of the sections normalizer. -/
def sectionsByTitle (m : List (Str × Str)) : JsonL → List (Str × Str)
  | .nil => m
  | .cons e rest =>
    if isRecord e then
      match normalizeTitle (e.get (("title").data)) with
      | some title => sectionsByTitle (mapSet m title (strOrEmpty (e.get (("body").data)))) rest
      | none => sectionsByTitle m rest
    else sectionsByTitle m rest

def JsonL.map (f : Json → Json) : JsonL → JsonL
  | .nil => .nil
  | .cons x xs => .cons (f x) (xs.map f)

def JsonL.all (p : Json → Bool) : JsonL → Bool
  | .nil => true
  | .cons x xs => p x && xs.all p

/-- Repeat a `Json` value n times (the placeholder-padding
`Array.from({length: n}, () => ...)` loops). -/
def jlReplicate : Nat → Json → JsonL
  | 0, _ => .nil
  | n + 1, v => .cons v (jlReplicate n v)

/-- `today.bestHours` entry normalization. -/
def normBestHour (e : Json) : Json :=
  if isRecord e then
    .obj (jf [(("label").data, .str (strOrEmpty (e.get (("label").data)))),
              (("start").data, .str (strOrEmpty (e.get (("start").data)))),
              (("end").data, .str (strOrEmpty (e.get (("end").data))))])
  else
    .obj (jf [(("label").data, .str []), (("start").data, .str []), (("end").data, .str [])])

/-- `normalizeTransitTone` applied to a property read. -/
def normalizeTransitToneO : Option Json → Option Str
  | some t => normalizeTransitTone t
  | none => none

/-- `cosmicWeather.transits` entry normalization. -/
def normTransit (e : Json) : Json :=
  if isRecord e then
    .obj (jf [(("title").data, .str (strOrEmpty (e.get (("title").data)))),
              (("tone").data,
                .str ((normalizeTransitToneO (e.get (("tone").data))).getD (("neutral").data))),
              (("meaning").data, .str (strOrEmpty (e.get (("meaning").data))))])
  else
    .obj (jf [(("title").data, .str []), (("tone").data, .str (("neutral").data)),
              (("meaning").data, .str [])])

/-- `month.keyDates` entry normalization. -/
def normKeyDate (e : Json) : Json :=
  if isRecord e then
    .obj (jf [(("dateLabel").data, .str (strOrEmpty (e.get (("dateLabel").data)))),
              (("title").data, .str (strOrEmpty (e.get (("title").data)))),
              (("note").data, .str (strOrEmpty (e.get (("note").data))))])
  else
    .obj (jf [(("dateLabel").data, .str []), (("title").data, .str []),
              (("note").data, .str [])])

/-- `isString(entry) ? entry : ""` on an array element. -/
def strOrEmptyJ : Json → Str
  | .str s => s
  | _ => []

/-- Field update on an object value (no-op on other values; the sources
only reach it under an `isRecord` guard where a non-object receives no
writable property of interest). -/
def objSet (o : Json) (k : Str) (v : Json) : Json :=
  match o with
  | .obj fs => .obj (fs.set k v)
  | _ => o

/-- Insertion-ordered map with `Json` values (`byLabel`). -/
def jmapSet (m : List (Str × Json)) (k : Str) (v : Json) : List (Str × Json) :=
  match m with
  | [] => [(k, v)]
  | (k1, v1) :: rest => if k1 = k then (k1, v) :: rest else (k1, v1) :: jmapSet rest k v

def jmapGet (m : List (Str × Json)) (k : Str) : Option Json :=
  match m with
  | [] => none
  | (k1, v1) :: rest => if k1 = k then some v1 else jmapGet rest k

/-- The `ratings` block of the normalizer: clamp each of the four keys
into 0–5 when coercible. -/
def normalizeRatings (r : Json) : Json :=
  let r1 := match clampIntO (r.get (("love").data)) 0 5 with
            | some n => objSet r (("love").data) (.num n)
            | none => r
  let r2 := match clampIntO (r1.get (("work").data)) 0 5 with
            | some n => objSet r1 (("work").data) (.num n)
            | none => r1
  let r3 := match clampIntO (r2.get (("money").data)) 0 5 with
            | some n => objSet r2 (("money").data) (.num n)
            | none => r2
  match clampIntO (r3.get (("health").data)) 0 5 with
  | some n => objSet r3 (("health").data) (.num n)
  | none => r3

/-- The empty `bestHours` placeholder entry. -/
def fallbackBestHour : Json :=
  .obj (jf [(("label").data, .str []), (("start").data, .str []), (("end").data, .str [])])

/-- The empty `keyDates` placeholder entry. -/
def fallbackKeyDate : Json :=
  .obj (jf [(("dateLabel").data, .str []), (("title").data, .str []), (("note").data, .str [])])

/-- The `today` block of `normalizeDashboard`. -/
def normalizeToday (today : Json) : Json :=
  let t1 := match clampIntO (today.get (("energyScore").data)) 0 100 with
            | some n => objSet today (("energyScore").data) (.num n)
            | none => today
  let t2 := match t1.get (("ratings").data) with
            | some r => if isRecord r then objSet t1 (("ratings").data) (normalizeRatings r) else t1
            | none => t1
  let t3 := match t2.get (("lucky").data) with
            | some l =>
              if isRecord l then
                match clampIntO (l.get (("number").data)) 0 999 with
                | some n => objSet t2 (("lucky").data) (objSet l (("number").data) (.num n))
                | none => t2
              else t2
            | none => t2
  let t4 := match t3.get (("bestHours").data) with
            | some (.arr bh) =>
              let normalized := (bh.take 2).map normBestHour
              objSet t3 (("bestHours").data)
                (.arr (normalized.append (jlReplicate (2 - normalized.length) fallbackBestHour)))
            | _ => t3
  match t4.get (("sections").data) with
  | some (.arr sec) =>
    let m := sectionsByTitle [] sec
    objSet t4 (("sections").data)
      (.arr (jl ([("Focus").data, ("Relationships").data, ("Action").data, ("Reflection").data].map
        (fun ttl => .obj (jf [(("title").data, .str ttl),
                              (("body").data, .str ((mapGet m ttl).getD []))])))))
  | _ => t4

/-- The `cosmicWeather` block of `normalizeDashboard`. -/
def normCosmicSlot (d : Json) : Json :=
  match d.get (("cosmicWeather").data) with
  | some cw =>
    if isRecord cw then
      match cw.get (("transits").data) with
      | some (.arr ts) =>
        objSet d (("cosmicWeather").data)
          (objSet cw (("transits").data) (.arr ((ts.take 2).map normTransit)))
      | _ => d
    else d
  | none => d

/-- The `compatibility` block of `normalizeDashboard` (the padding uses
the original array length, as the source does). -/
def normCompatSlot (d : Json) : Json :=
  match d.get (("compatibility").data) with
  | some comp =>
    if isRecord comp then
      let c1 := match comp.get (("bestFlowWith").data) with
                | some (.arr xs) =>
                  objSet comp (("bestFlowWith").data)
                    (.arr (((xs.take 2).map (fun e => .str (strOrEmptyJ e))).append
                      (jlReplicate (2 - xs.length) (.str []))))
                | _ => comp
      let c2 := match c1.get (("handleGentlyWith").data) with
                | some (.arr xs) =>
                  objSet c1 (("handleGentlyWith").data)
                    (.arr (((xs.take 1).map (fun e => .str (strOrEmptyJ e))).append
                      (jlReplicate (1 - xs.length) (.str []))))
                | _ => c1
      objSet d (("compatibility").data) c2
    else d
  | none => d

/-- The `journalRitual.starters` block of `normalizeDashboard`. -/
def normJournalSlot (d : Json) : Json :=
  match d.get (("journalRitual").data) with
  | some jr =>
    if isRecord jr then
      match jr.get (("starters").data) with
      | some (.arr xs) =>
        objSet d (("journalRitual").data)
          (objSet jr (("starters").data)
            (.arr (((xs.take 3).map (fun e => .str (strOrEmptyJ e))).append
              (jlReplicate (3 - xs.length) (.str [])))))
      | _ => d
    else d
  | none => d

/-- The `month.keyDates` block of `normalizeDashboard`. -/
def normMonthSlot (d : Json) : Json :=
  match d.get (("month").data) with
  | some mo =>
    if isRecord mo then
      match mo.get (("keyDates").data) with
      | some (.arr kd) =>
        objSet d (("month").data)
          (objSet mo (("keyDates").data)
            (.arr (((kd.take 3).map normKeyDate).append
              (jlReplicate (3 - kd.length) fallbackKeyDate))))
      | _ => d
    else d
  | none => d

/-- The `byLabel` accumulation loop of the quarters normalizer. -/
def quartersByLabel (m : List (Str × Json)) : JsonL → List (Str × Json)
  | .nil => m
  | .cons e rest =>
    if isRecord e then
      match e.get (("label").data), e.get (("focus").data) with
      | some (.str l), some (.str f) =>
        quartersByLabel
          (jmapSet m l (.obj (jf [(("label").data, .str l), (("focus").data, .str f)]))) rest
      | _, _ => quartersByLabel m rest
    else quartersByLabel m rest

/-- The `year` block of `normalizeDashboard`. -/
def normYearSlot (d : Json) : Json :=
  match d.get (("year").data) with
  | some y =>
    if isRecord y then
      let y1 := match y.get (("quarters").data) with
                | some (.arr qs) =>
                  let m := quartersByLabel [] qs
                  objSet y (("quarters").data)
                    (.arr (jl ([("Q1").data, ("Q2").data, ("Q3").data, ("Q4").data].map
                      (fun lbl => (jmapGet m lbl).getD
                        (.obj (jf [(("label").data, .str lbl), (("focus").data, .str [])]))))))
                | _ => y
      let y2 := match y1.get (("powerMonths").data) with
                | some (.arr pm) =>
                  objSet y1 (("powerMonths").data)
                    (.arr ((pm.take 2).append (jlReplicate (2 - pm.length) (.str []))))
                | _ => y1
      objSet d (("year").data) y2
    else d
  | none => d

/-- The `today` slot wrapper of `normalizeDashboard`. -/
def normTodaySlot (d : Json) : Json :=
  match d.get (("today").data) with
  | some today => if isRecord today then objSet d (("today").data) (normalizeToday today) else d
  | none => d

/-- `normalizeDashboard` of `dashboard.ts` (`part_018` variant): tolerant
shape repair of a parsed candidate.  On a non-object root (including an
array root, on which every property read is `undefined`) nothing
changes, as in the source. -/
def normalizeDashboard (raw : Json) : Json :=
  match raw with
  | .obj _ =>
    normYearSlot (normMonthSlot (normJournalSlot (normCompatSlot (normCosmicSlot (normTodaySlot raw)))))
  | _ => raw

/-- `validateDashboardPayload` result (`ValidationResult` in the
source). -/
inductive VResult where
  | valid (payload : Json)
  | invalid (error : Str)
deriving DecidableEq

def VResult.isValid : VResult → Bool
  | .valid _ => true
  | .invalid _ => false

/-- The `__FILL` marker of the prompt template placeholders. -/
def placeholderToken : Str := ("__FILL").data

mutual
/-- `containsUnresolvedPlaceholders`: a `__FILL` marker anywhere in a
string of the candidate tree. -/
def containsUnresolvedPlaceholders : Json → Bool
  | .str s => strIncludes s placeholderToken
  | .arr xs => cupL xs
  | .obj fs => cupF fs
  | _ => false
def cupL : JsonL → Bool
  | .nil => false
  | .cons x xs => containsUnresolvedPlaceholders x || cupL xs
def cupF : JsonF → Bool
  | .nil => false
  | .cons _ v fs => containsUnresolvedPlaceholders v || cupF fs
end

def isRecordO : Option Json → Bool
  | some v => isRecord v
  | none => false

def isIntegerO : Option Json → Bool
  | some (.num _) => true
  | _ => false

/-- `isNumber(x) && inRange(x, lo, hi)` on a property read (every
embedded number is an integer, see the header notes). -/
def numInRangeO (o : Option Json) (lo hi : Int) : Bool :=
  match o with
  | some (.num n) => lo ≤ n && n ≤ hi
  | _ => false

def Json.get2 (v : Json) (k1 k2 : Str) : Option Json :=
  (v.get k1).bind (fun w => w.get k2)

def sectionTitleSet (s : Str) : Bool :=
  s = ("Focus").data || s = ("Relationships").data || s = ("Action").data ||
  s = ("Reflection").data

def transitToneSet (s : Str) : Bool :=
  s = ("soft").data || s = ("neutral").data || s = ("intense").data

def quarterLabelSet (s : Str) : Bool :=
  s = ("Q1").data || s = ("Q2").data || s = ("Q3").data || s = ("Q4").data

def isBestHourEntry (e : Json) : Bool :=
  isRecord e && isStringO (e.get (("label").data)) && isStringO (e.get (("start").data)) &&
  isStringO (e.get (("end").data))

def isSectionEntry (e : Json) : Bool :=
  isRecord e && isStringO (e.get (("title").data)) && isStringO (e.get (("body").data))

def isTransitEntry (e : Json) : Bool :=
  isRecord e && isStringO (e.get (("title").data)) && isStringO (e.get (("tone").data)) &&
  isStringO (e.get (("meaning").data))

def isKeyDateEntry (e : Json) : Bool :=
  isRecord e && isStringO (e.get (("dateLabel").data)) && isStringO (e.get (("title").data)) &&
  isStringO (e.get (("note").data))

def isQuarterEntry (e : Json) : Bool :=
  isRecord e && isStringO (e.get (("label").data)) && isStringO (e.get (("focus").data))

/-- Section title read as a string (`""` cannot occur for entries that
passed `isSectionEntry`). -/
def entryStr (e : Json) (k : Str) : Str := strOrEmpty (e.get k)

/-- The `meta` guard of the validator. -/
def vMetaOk (raw : Json) : Bool :=
  isRecordO (raw.get (("meta").data)) &&
  isStringO (raw.get2 (("meta").data) (("dateISO").data)) &&
  isStringO (raw.get2 (("meta").data) (("localeDateLabel").data)) &&
  isStringO (raw.get2 (("meta").data) (("generatedAtISO").data)) &&
  isStringO (raw.get2 (("meta").data) (("sign").data)) &&
  isStringO (raw.get2 (("meta").data) (("name").data))

/-- The `tabs` guard: `isRecord(tabs) && tabs.activeDefault === "today"`. -/
def vTabsOk (raw : Json) : Bool :=
  isRecordO (raw.get (("tabs").data)) &&
  raw.get2 (("tabs").data) (("activeDefault").data) == some (.str (("today").data))

/-- The scalar `today` field guard. -/
def vTodayFieldsOk (raw : Json) : Bool :=
  isStringO (raw.get2 (("today").data) (("headline").data)) &&
  isStringO (raw.get2 (("today").data) (("subhead").data)) &&
  isStringO (raw.get2 (("today").data) (("theme").data)) &&
  numInRangeO (raw.get2 (("today").data) (("energyScore").data)) 0 100

/-- The `today.bestHours` guard: well-shaped entries, exactly 2. -/
def vBestHoursOk (raw : Json) : Bool :=
  match raw.get2 (("today").data) (("bestHours").data) with
  | some (.arr xs) => xs.all isBestHourEntry && xs.length = 2
  | _ => false

/-- The `today.ratings` guard. -/
def vRatingsOk (raw : Json) : Bool :=
  let r := raw.get2 (("today").data) (("ratings").data)
  isRecordO r &&
  (match r with
   | some rv =>
     numInRangeO (rv.get (("love").data)) 0 5 && numInRangeO (rv.get (("work").data)) 0 5 &&
     numInRangeO (rv.get (("money").data)) 0 5 && numInRangeO (rv.get (("health").data)) 0 5
   | none => false)

/-- The `today.lucky` guard. -/
def vLuckyOk (raw : Json) : Bool :=
  isRecordO (raw.get2 (("today").data) (("lucky").data)) &&
  isStringO ((raw.get2 (("today").data) (("lucky").data)).bind (fun l => l.get (("color").data))) &&
  isIntegerO ((raw.get2 (("today").data) (("lucky").data)).bind (fun l => l.get (("number").data))) &&
  isStringO ((raw.get2 (("today").data) (("lucky").data)).bind (fun l => l.get (("symbol").data)))

/-- The `today.doDont` guard. -/
def vDoDontOk (raw : Json) : Bool :=
  isRecordO (raw.get2 (("today").data) (("doDont").data)) &&
  isStringO ((raw.get2 (("today").data) (("doDont").data)).bind (fun x => x.get (("do").data))) &&
  isStringO ((raw.get2 (("today").data) (("doDont").data)).bind (fun x => x.get (("dont").data)))

/-- The `today.sections` guard of the source validator: a nonempty array
of `title`/`body` string records whose titles all come from the
canonical title set.  Count, order and duplication are NOT checked
here. -/
def vSectionsOk (raw : Json) : Bool :=
  match raw.get2 (("today").data) (("sections").data) with
  | some (.arr xs) =>
    xs.all isSectionEntry && xs.length ≠ 0 &&
    xs.all (fun e => sectionTitleSet (entryStr e (("title").data)))
  | _ => false

/-- The `cosmicWeather.moon` guard. -/
def vMoonOk (raw : Json) : Bool :=
  isRecordO (raw.get2 (("cosmicWeather").data) (("moon").data)) &&
  isStringO ((raw.get2 (("cosmicWeather").data) (("moon").data)).bind
    (fun m => m.get (("phase").data))) &&
  isStringO ((raw.get2 (("cosmicWeather").data) (("moon").data)).bind
    (fun m => m.get (("sign").data)))

/-- The `cosmicWeather.transits` guard: at most 2 entries, closed tone
set. -/
def vTransitsOk (raw : Json) : Bool :=
  match raw.get2 (("cosmicWeather").data) (("transits").data) with
  | some (.arr xs) =>
    xs.all isTransitEntry && xs.length ≤ 2 &&
    xs.all (fun e => transitToneSet (entryStr e (("tone").data)))
  | _ => false

/-- The `compatibility` sign-array guard: exactly 2 / exactly 1. -/
def vCompatSignsOk (raw : Json) : Bool :=
  (match raw.get2 (("compatibility").data) (("bestFlowWith").data) with
   | some (.arr xs) => xs.all isString && xs.length = 2
   | _ => false) &&
  (match raw.get2 (("compatibility").data) (("handleGentlyWith").data) with
   | some (.arr xs) => xs.all isString && xs.length = 1
   | _ => false)

/-- The `compatibility.tips` guard. -/
def vTipsOk (raw : Json) : Bool :=
  isRecordO (raw.get2 (("compatibility").data) (("tips").data)) &&
  isStringO ((raw.get2 (("compatibility").data) (("tips").data)).bind
    (fun t => t.get (("conflict").data))) &&
  isStringO ((raw.get2 (("compatibility").data) (("tips").data)).bind
    (fun t => t.get (("affection").data)))

/-- The `journalRitual` guard (`starters` has no length check in the
source). -/
def vJournalOk (raw : Json) : Bool :=
  isRecordO (raw.get (("journalRitual").data)) &&
  isStringO (raw.get2 (("journalRitual").data) (("prompt").data)) &&
  (match raw.get2 (("journalRitual").data) (("starters").data) with
   | some (.arr xs) => xs.all isString
   | _ => false) &&
  isStringO (raw.get2 (("journalRitual").data) (("mantra").data)) &&
  isStringO (raw.get2 (("journalRitual").data) (("ritual").data))

/-- The `journalRitual.bestDayForDecisions` guard. -/
def vBestDayOk (raw : Json) : Bool :=
  isRecordO (raw.get2 (("journalRitual").data) (("bestDayForDecisions").data)) &&
  isStringO ((raw.get2 (("journalRitual").data) (("bestDayForDecisions").data)).bind
    (fun b => b.get (("dayLabel").data))) &&
  isStringO ((raw.get2 (("journalRitual").data) (("bestDayForDecisions").data)).bind
    (fun b => b.get (("reason").data)))

/-- The `week.arc` guard. -/
def vArcOk (raw : Json) : Bool :=
  isRecordO (raw.get2 (("week").data) (("arc").data)) &&
  isStringO ((raw.get2 (("week").data) (("arc").data)).bind (fun a => a.get (("start").data))) &&
  isStringO ((raw.get2 (("week").data) (("arc").data)).bind (fun a => a.get (("midweek").data))) &&
  isStringO ((raw.get2 (("week").data) (("arc").data)).bind (fun a => a.get (("weekend").data)))

/-- The `week` key-item guard. -/
def vWeekKeysOk (raw : Json) : Bool :=
  isStringO (raw.get2 (("week").data) (("keyOpportunity").data)) &&
  isStringO (raw.get2 (("week").data) (("keyCaution").data))

/-- The `week.bestDayFor` guard. -/
def vBestDayForOk (raw : Json) : Bool :=
  isRecordO (raw.get2 (("week").data) (("bestDayFor").data)) &&
  isStringO ((raw.get2 (("week").data) (("bestDayFor").data)).bind
    (fun b => b.get (("decisions").data))) &&
  isStringO ((raw.get2 (("week").data) (("bestDayFor").data)).bind
    (fun b => b.get (("conversations").data))) &&
  isStringO ((raw.get2 (("week").data) (("bestDayFor").data)).bind
    (fun b => b.get (("rest").data)))

/-- The scalar `month` guard. -/
def vMonthOk (raw : Json) : Bool :=
  isRecordO (raw.get (("month").data)) &&
  isStringO (raw.get2 (("month").data) (("theme").data)) &&
  isStringO (raw.get2 (("month").data) (("oneThing").data))

/-- The `month.keyDates` guard: exactly 3 entries. -/
def vKeyDatesOk (raw : Json) : Bool :=
  match raw.get2 (("month").data) (("keyDates").data) with
  | some (.arr xs) => xs.all isKeyDateEntry && xs.length = 3
  | _ => false

/-- The `month` moon-entry guard. -/
def vMoonsOk (raw : Json) : Bool :=
  isRecordO (raw.get2 (("month").data) (("newMoon").data)) &&
  isStringO ((raw.get2 (("month").data) (("newMoon").data)).bind
    (fun m => m.get (("dateLabel").data))) &&
  isStringO ((raw.get2 (("month").data) (("newMoon").data)).bind
    (fun m => m.get (("intention").data))) &&
  isRecordO (raw.get2 (("month").data) (("fullMoon").data)) &&
  isStringO ((raw.get2 (("month").data) (("fullMoon").data)).bind
    (fun m => m.get (("dateLabel").data))) &&
  isStringO ((raw.get2 (("month").data) (("fullMoon").data)).bind
    (fun m => m.get (("release").data)))

/-- The scalar `year` guard. -/
def vYearOk (raw : Json) : Bool :=
  isRecordO (raw.get (("year").data)) &&
  isStringO (raw.get2 (("year").data) (("headline").data))

/-- The `year.quarters` guard: exactly 4 entries, closed label set. -/
def vQuartersOk (raw : Json) : Bool :=
  match raw.get2 (("year").data) (("quarters").data) with
  | some (.arr xs) =>
    xs.all isQuarterEntry && xs.length = 4 &&
    xs.all (fun e => quarterLabelSet (entryStr e (("label").data)))
  | _ => false

/-- The `year.powerMonths` guard: a nonempty string array (the source
checks only `length === 0`). -/
def vPowerMonthsOk (raw : Json) : Bool :=
  match raw.get2 (("year").data) (("powerMonths").data) with
  | some (.arr xs) => xs.all isString && xs.length ≠ 0
  | _ => false

/-- The `year.challengeMonth` guard. -/
def vChallengeOk (raw : Json) : Bool :=
  isRecordO (raw.get2 (("year").data) (("challengeMonth").data)) &&
  isStringO ((raw.get2 (("year").data) (("challengeMonth").data)).bind
    (fun c => c.get (("month").data))) &&
  isStringO ((raw.get2 (("year").data) (("challengeMonth").data)).bind
    (fun c => c.get (("guidance").data)))

/-- The early-return chain of the validator: the first failing check
wins; all checks passing accepts the candidate unchanged. -/
def runChecks (raw : Json) : List (Bool × Str) → VResult
  | [] => .valid raw
  | (ok, msg) :: rest => if ok then runChecks raw rest else .invalid msg

/-- The checks of `validateDashboardPayload`, in source order, each with
the source's error message. -/
def vChecks (raw : Json) : List (Bool × Str) :=
  [(isRecord raw, ("Payload root must be an object.").data),
   (!containsUnresolvedPlaceholders raw,
    ("Payload contains unresolved placeholders.").data),
   (vMetaOk raw, ("Payload meta is missing required fields.").data),
   (vTabsOk raw, ("Payload tabs.activeDefault must be \"today\".").data),
   (isRecordO (raw.get (("today").data)), ("Payload today is missing.").data),
   (vTodayFieldsOk raw, ("Payload today fields are invalid.").data),
   (vBestHoursOk raw, ("Payload today.bestHours must contain exactly 2 items.").data),
   (vRatingsOk raw, ("Payload today.ratings must be 0–5 integers.").data),
   (vLuckyOk raw, ("Payload today.lucky is invalid.").data),
   (vDoDontOk raw, ("Payload today.doDont is invalid.").data),
   (vSectionsOk raw, ("Payload today.sections is invalid.").data),
   (isRecordO (raw.get (("cosmicWeather").data)), ("Payload cosmicWeather is missing.").data),
   (vMoonOk raw, ("Payload cosmicWeather.moon is invalid.").data),
   (vTransitsOk raw, ("Payload cosmicWeather.transits is invalid.").data),
   (isStringO (raw.get2 (("cosmicWeather").data) (("affectsToday").data)),
    ("Payload cosmicWeather.affectsToday is invalid.").data),
   (isRecordO (raw.get (("compatibility").data)), ("Payload compatibility is missing.").data),
   (vCompatSignsOk raw, ("Payload compatibility signs are invalid.").data),
   (vTipsOk raw, ("Payload compatibility.tips is invalid.").data),
   (vJournalOk raw, ("Payload journalRitual is invalid.").data),
   (vBestDayOk raw, ("Payload journalRitual.bestDayForDecisions is invalid.").data),
   (isRecordO (raw.get (("week").data)), ("Payload week is missing.").data),
   (vArcOk raw, ("Payload week.arc is invalid.").data),
   (vWeekKeysOk raw, ("Payload week key items are invalid.").data),
   (vBestDayForOk raw, ("Payload week.bestDayFor is invalid.").data),
   (vMonthOk raw, ("Payload month is invalid.").data),
   (vKeyDatesOk raw, ("Payload month.keyDates must contain 3 items.").data),
   (vMoonsOk raw, ("Payload month moon entries are invalid.").data),
   (vYearOk raw, ("Payload year is invalid.").data),
   (vQuartersOk raw, ("Payload year.quarters must contain 4 labeled items.").data),
   (vPowerMonthsOk raw, ("Payload year.powerMonths is invalid.").data),
   (vChallengeOk raw, ("Payload year.challengeMonth is invalid.").data)]

/-- `validateDashboardPayload` of `dashboard.ts` (`part_018` variant):
the strict acceptance gate — the source's early-return `if` chain,
expressed as the ordered check list above. -/
def validateDashboardPayload (raw : Json) : VResult :=
  runChecks raw (vChecks raw)

/-- Transformation report of `sanitizeDashboardPayload`. -/
structure SanitizationInfo where
  changed : Bool
  codeFencesRemoved : Bool
  extractedJson : Bool
  trailingCommasRemoved : Bool
  unquotedKeysFixed : Bool
  rootMergeApplied : Bool
  wrapperFixApplied : Bool
  missingBraceAdded : Bool

/-- `sanitizeDashboardPayload`: the seven-step sanitizer pipeline of
`dashboard.ts` (`part_018` variant), in source order. -/
def sanitizeDashboardPayload (raw : Str) : Str × SanitizationInfo :=
  let trimmed := jsTrim raw
  let noFences := stripCodeFences trimmed
  let ex := extractJsonSlice noFences
  let extractedJson := ex.1.getD noFences
  let rtc := removeTrailingCommas extractedJson
  let quotedKeys := quoteUnquotedKeys rtc.1
  let merged := mergeRootObjects quotedKeys
  let unwrapped := unwrapAnonymousRootObjects merged.1
  let braceFixed := closeMissingFinalBrace unwrapped.1
  (braceFixed.1,
   { changed := braceFixed.1 != raw,
     codeFencesRemoved := noFences != trimmed,
     extractedJson := ex.2,
     trailingCommasRemoved := rtc.2,
     unquotedKeysFixed := quotedKeys != rtc.1,
     rootMergeApplied := merged.2,
     wrapperFixApplied := unwrapped.2,
     missingBraceAdded := braceFixed.2 })

/-- `sanitizeAndParseDashboardPayload`: sanitize, `JSON.parse`,
normalize, validate.  A `JSON.parse` failure carries an engine-specific
message in the source; it is modelled by the source's own fallback
constant, which no theorem inspects. -/
def sanitizeAndParseDashboardPayload (json : Str) : Except Str Json × SanitizationInfo :=
  let s := sanitizeDashboardPayload json
  match jsonParse s.1 with
  | none => (.error (("Invalid JSON returned by model.").data), s.2)
  | some parsed =>
    let normalized := normalizeDashboard parsed
    if !(isRecord normalized) then
      (.error (("Payload root must be an object.").data), s.2)
    else
      match validateDashboardPayload normalized with
      | .valid p => (.ok p, s.2)
      | .invalid e => (.error e, s.2)

/-- `ProfileDraft` of `domain/types.ts`. -/
structure ProfileDraft where
  name : Str
  birthdate : Str
  mood : Str
  personality : Str

/-- `hashSeed` of `stubAdapter.ts`: `h ^= c` followed by
`h += (h<<1)+(h<<4)+(h<<7)+(h<<8)+(h<<24)`, i.e. multiplication by
16777619 — FNV-1a — carried out modulo 2^32 (the JavaScript int32/float
mix is congruent to this, and the final `>>> 0` reduces mod 2^32). -/
def stubHashGo : Nat → Str → Nat
  | h, [] => h
  | h, c :: cs => stubHashGo (((h ^^^ c.val.toNat % 4294967296) * 16777619) % 4294967296) cs

def stubHashSeed (s : Str) : Nat := stubHashGo 2166136261 s

/-- One call of the xorshift closure returned by `seeded`: the new state
and the draw `(state >>> 0) % 10000` (the source divides the draw by
10000; every use site multiplies back and floors, embedded as exact
natural arithmetic — see the header notes). -/
def seededNext (st : Nat) : Nat × Nat :=
  let s0 := st % 4294967296
  let s1 := s0 ^^^ (s0 * 8192 % 4294967296)
  let s2 := s1 ^^^ (s1 / 131072)
  let s3 := s2 ^^^ (s2 * 32 % 4294967296)
  (s3, s3 % 10000)

/-- `pick(rng, values)`: `values[Math.floor(rng() * len) % len]` for the
draw `m`. -/
def pickFrom (m : Nat) (values : List Str) : Str :=
  values.getD ((m * values.length / 10000) % values.length) []

/-- Swap two positions of a list (`[a[i], a[j]] = [a[j], a[i]]`). -/
def swapAt (l : List Str) (i j : Nat) : List Str :=
  (l.set i (l.getD j [])).set j (l.getD i [])

/-- The Fisher–Yates loop of `shuffle`; the argument `i + 1` plays the
source's loop variable `i`, counting down to 1. -/
def shuffleGo (st : Nat) (l : List Str) : Nat → Nat × List Str
  | 0 => (st, l)
  | i + 1 =>
    let d := seededNext st
    let j := d.2 * (i + 2) / 10000
    shuffleGo d.1 (swapAt l (i + 1) j) i

/-- `shuffle(rng, values)`. -/
def jsShuffle (st : Nat) (l : List Str) : Nat × List Str :=
  match l.length with
  | 0 => (st, l)
  | n + 1 => shuffleGo st l n

/-- ASCII apostrophe (written numerically). -/
def apoChar : Char := Char.ofNat 39

/-- `StubAdapter.generate`'s payload before `JSON.stringify`.  The
ambient inputs `new Date().toISOString()`, the locale-formatted date
label and the sign computed by the (absent) `domain/zodiac.ts` enter as
the parameters `t`, `ll` and `sign`. -/
def stubPayload (p : ProfileDraft) (dateISO t ll sign : Str) : Json :=
  let seed := stubHashSeed
    (p.name ++ '-' :: dateISO ++ '-' :: sign ++ '-' :: p.mood ++ '-' :: p.personality)
  let moodL := strToLower p.mood
  let persL := strToLower p.personality
  let st0 := seed + 2654435769
  let d1 := seededNext st0
  let title := pickFrom d1.2
    [("Soft focus, clear intention").data,
     ("The hush before a bright idea").data,
     ("A horizon you can trust").data,
     ("The spark beneath stillness").data,
     ("A graceful return to center").data]
  let openings :=
    [("The day opens with a ").data ++ moodL ++ (" current that invites gentler choices.").data,
     ("A ").data ++ moodL ++ (" undertone guides your timing and attention.").data,
     ("You move through a ").data ++ moodL ++ (" rhythm that rewards patience.").data]
  let middles :=
    [("As ").data ++ sign ++ (", your ").data ++ persL ++ (" nature notices subtle shifts first.").data,
     ("Your ").data ++ persL ++ (" instincts highlight what wants to soften.").data,
     ("The ").data ++ persL ++ (" in you translates intuition into one clear step.").data]
  let closers :=
    [("Let small rituals ground you, and let clarity arrive in layers.").data,
     ("Pause before replying and your best phrasing will surface.").data,
     ("Choose one gentle action that honors your energy, and let that be enough.").data]
  let d2 := seededNext d1.1
  let d3 := seededNext d2.1
  let d4 := seededNext d3.1
  let message := jsTrim
    (pickFrom d2.2 openings ++ ' ' :: pickFrom d3.2 middles ++ ' ' :: pickFrom d4.2 closers)
  let d5 := seededNext d4.1
  let theme := pickFrom d5.2
    [("Clarity").data, ("Patience").data, ("Warmth").data, ("Alignment").data, ("Ease").data]
  let d6 := seededNext d5.1
  let energyScore : Int := (d6.2 * 45 / 10000 : Nat) + 55
  let d7 := seededNext d6.1
  let love : Int := (d7.2 * 3 / 10000 : Nat) + 3
  let d8 := seededNext d7.1
  let work : Int := (d8.2 * 3 / 10000 : Nat) + 3
  let d9 := seededNext d8.1
  let money : Int := (d9.2 * 3 / 10000 : Nat) + 2
  let d10 := seededNext d9.1
  let health : Int := (d10.2 * 3 / 10000 : Nat) + 3
  let d11 := seededNext d10.1
  let color := pickFrom d11.2
    [("Gold").data, ("Moonlit Indigo").data, ("Soft Lavender").data, ("Sea-glass Teal").data]
  let d12 := seededNext d11.1
  let luckyNumber : Int := (d12.2 * 9 / 10000 : Nat) + 1
  let d13 := seededNext d12.1
  let symbol := pickFrom d13.2 [("★").data, ("☾").data, ("✦").data]
  let d14 := seededNext d13.1
  let moonPhase := pickFrom d14.2
    [("First Quarter").data, ("Waxing Crescent").data, ("Full Moon").data, ("New Moon").data]
  let d15 := seededNext d14.1
  let moonSign := pickFrom d15.2
    [("Cancer").data, ("Libra").data, ("Scorpio").data, ("Taurus").data]
  let sh := jsShuffle d15.1
    [("Aries").data, ("Gemini").data, ("Libra").data, ("Sagittarius").data]
  let bestFlow := sh.2.take 2
  let d19 := seededNext sh.1
  let gently := pickFrom d19.2 [("Taurus").data, ("Scorpio").data, ("Capricorn").data]
  .obj (jf
    [(("meta").data, .obj (jf
       [(("dateISO").data, .str dateISO),
        (("localeDateLabel").data, .str ll),
        (("generatedAtISO").data, .str t),
        (("sign").data, .str sign),
        (("name").data, .str p.name)])),
     (("tabs").data, .obj (jf [(("activeDefault").data, .str (("today").data))])),
     (("today").data, .obj (jf
       [(("headline").data, .str title),
        (("subhead").data, .str message),
        (("theme").data, .str theme),
        (("energyScore").data, .num energyScore),
        (("bestHours").data, .arr (jl
          [.obj (jf [(("label").data, .str (("Morning").data)),
                     (("start").data, .str (("9:00 AM").data)),
                     (("end").data, .str (("11:00 AM").data))]),
           .obj (jf [(("label").data, .str (("Evening").data)),
                     (("start").data, .str (("5:00 PM").data)),
                     (("end").data, .str (("7:00 PM").data))])])),
        (("ratings").data, .obj (jf
          [(("love").data, .num love), (("work").data, .num work),
           (("money").data, .num money), (("health").data, .num health)])),
        (("lucky").data, .obj (jf
          [(("color").data, .str color), (("number").data, .num luckyNumber),
           (("symbol").data, .str symbol)])),
        (("doDont").data, .obj (jf
          [(("do").data, .str (("Trust your instincts and keep plans simple.").data)),
           (("dont").data, .str (("Overshare or rush to fill quiet moments.").data))])),
        (("sections").data, .arr (jl
          [.obj (jf [(("title").data, .str (("Focus").data)),
                     (("body").data, .str (("Pick one clear priority and let the rest soften.").data))]),
           .obj (jf [(("title").data, .str (("Relationships").data)),
                     (("body").data, .str (("Lead with warmth and give others space to respond.").data))]),
           .obj (jf [(("title").data, .str (("Action").data)),
                     (("body").data, .str (("Take one grounded step that supports your long view.").data))]),
           .obj (jf [(("title").data, .str (("Reflection").data)),
                     (("body").data, .str (("Notice what feels steady and keep returning to it.").data))])]))])),
     (("cosmicWeather").data, .obj (jf
       [(("moon").data, .obj (jf
          [(("phase").data, .str moonPhase), (("sign").data, .str moonSign)])),
        (("transits").data, .arr (jl
          [.obj (jf [(("title").data, .str (("Mercury review cycle").data)),
                     (("tone").data, .str (("neutral").data)),
                     (("meaning").data, .str (("Double-check details before committing.").data))]),
           .obj (jf [(("title").data, .str (("Venus harmony").data)),
                     (("tone").data, .str (("soft").data)),
                     (("meaning").data, .str (("Gentle conversations land with ease.").data))])])),
        (("affectsToday").data,
         .str (("Emotional tides rise and fall; choose calm responses.").data))])),
     (("compatibility").data, .obj (jf
       [(("bestFlowWith").data, .arr (jl (bestFlow.map Json.str))),
        (("handleGentlyWith").data, .arr (jl [.str gently])),
        (("tips").data, .obj (jf
          [(("conflict").data, .str (("Pause before replying to keep things kind.").data)),
           (("affection").data, .str (("Playful honesty keeps the mood light.").data))]))])),
     (("journalRitual").data, .obj (jf
       [(("prompt").data, .str (("What feels most important to protect today?").data)),
        (("starters").data, .arr (jl
          [.str (("I feel…").data), .str (("I need…").data),
           .str (('I' :: apoChar :: ("m avoiding…").data))])),
        (("mantra").data, .str (("I move with grace and clear intention.").data)),
        (("ritual").data, .str (("Light a candle and name one priority out loud.").data)),
        (("bestDayForDecisions").data, .obj (jf
          [(("dayLabel").data, .str (("Thursday").data)),
           (("reason").data, .str (("Clarity peaks in the afternoon.").data))]))])),
     (("week").data, .obj (jf
       [(("arc").data, .obj (jf
          [(("start").data, .str (("Settle into a calm, focused rhythm.").data)),
           (("midweek").data, .str (("Tune inward before making changes.").data)),
           (("weekend").data, .str (("Conversations flow and ease returns.").data))])),
        (("keyOpportunity").data, .str (("Strengthen a bond through simple honesty.").data)),
        (("keyCaution").data, .str (("Avoid overcommitting before you feel ready.").data)),
        (("bestDayFor").data, .obj (jf
          [(("decisions").data, .str (("Thursday").data)),
           (("conversations").data, .str (("Wednesday").data)),
           (("rest").data, .str (("Sunday").data))]))])),
     (("month").data, .obj (jf
       [(("theme").data, .str (("Clarity through gentle structure.").data)),
        (("keyDates").data, .arr (jl
          [.obj (jf [(("dateLabel").data, .str (("Jan 9–10").data)),
                     (("title").data, .str (("New Moon").data)),
                     (("note").data, .str (("Set intentions around focus.").data))]),
           .obj (jf [(("dateLabel").data, .str (("Jan 17").data)),
                     (("title").data, .str (("Personal reset").data)),
                     (("note").data, .str (("Simplify a lingering task.").data))]),
           .obj (jf [(("dateLabel").data, .str (("Jan 25").data)),
                     (("title").data, .str (("Full Moon").data)),
                     (("note").data, .str (("Release what feels heavy.").data))])])),
        (("newMoon").data, .obj (jf
          [(("dateLabel").data, .str (("Jan 9–10").data)),
           (("intention").data, .str (("Commit to one steady practice.").data))])),
        (("fullMoon").data, .obj (jf
          [(("dateLabel").data, .str (("Jan 25").data)),
           (("release").data, .str (("Let go of scattered priorities.").data))])),
        (("oneThing").data,
         .str (("If you do one thing, choose the gentlest next step.").data))])),
     (("year").data, .obj (jf
       [(("headline").data,
         .str (("A year to trust your timing and refine your craft.").data)),
        (("quarters").data, .arr (jl
          [.obj (jf [(("label").data, .str (("Q1").data)),
                     (("focus").data, .str (("Grounded beginnings and clearing space.").data))]),
           .obj (jf [(("label").data, .str (("Q2").data)),
                     (("focus").data, .str (("Momentum builds through collaboration.").data))]),
           .obj (jf [(("label").data, .str (("Q3").data)),
                     (("focus").data, .str (("Visibility grows with steady effort.").data))]),
           .obj (jf [(("label").data, .str (("Q4").data)),
                     (("focus").data, .str (("Integration and graceful completion.").data))])])),
        (("powerMonths").data, .arr (jl [.str (("March").data), .str (("July").data)])),
        (("challengeMonth").data, .obj (jf
          [(("month").data, .str (("October").data)),
           (("guidance").data, .str (("Slow down and streamline.").data))]))]))])

/-- `StubAdapter.generate`: the serialized payload text. -/
def stubGenerate (p : ProfileDraft) (dateISO t ll sign : Str) : Str :=
  serializeJson (stubPayload p dateISO t ll sign)

/-- `hashSeed` of `readingPipeline.ts`: FNV-1a with `Math.imul`,
congruent to multiplication modulo 2^32, with a final `>>> 0`. -/
def hashSeedGo : Nat → Str → Nat
  | h, [] => h
  | h, c :: cs => hashSeedGo (((h ^^^ c.val.toNat) * 16777619) % 4294967296) cs

def hashSeed (s : Str) : Nat := hashSeedGo 2166136261 s

/-- `SamplingParams` of `domain/types.ts`; the fractional fields are
embedded as rationals. -/
structure SamplingParams where
  temperature : ℚ
  topP : ℚ
  topK : Nat
  repeatPenalty : ℚ
  maxTokens : Nat
  seed : Option Nat
  stop : List Str
deriving DecidableEq

/-- The pipeline-local `DEFAULT_SAMPLING_PARAMS` copy of
`readingPipeline.ts`. -/
def DEFAULT_SAMPLING_PARAMS : SamplingParams :=
  { temperature := 0.45, topP := 0.9, topK := 50, repeatPenalty := 1.1,
    maxTokens := 3600, seed := none, stop := [] }

/-- `ModelStatus` of `domain/types.ts`. -/
inductive ModelStatus where
  | unloaded
  | loading (progress : Int)
  | loaded (modelPath : Str) (modelSizeMb : Int) (modelSizeBytes : Int)
  | error (message : Str)

/-- The `reading` slice of `AppState` (`current` and `history` hold
accepted `DashboardPayload` objects, embedded as `Json`). -/
structure ReadingSlice where
  current : Option Json
  history : List Json

/-- The fragment of `AppState` read by the pipeline. -/
structure AppState where
  model : ModelStatus
  reading : ReadingSlice

/-- `buildSamplingParams` of `readingPipeline.ts`: FNV-1a over
`dateISO|name|birthdate`, salted by the number of history readings with
the same date plus one when the current reading has that date; all other
fields are the defaults. -/
def buildSamplingParams (p : ProfileDraft) (dateISO : Str) (state : AppState) :
    SamplingParams :=
  let base := dateISO ++ '|' :: p.name ++ '|' :: p.birthdate
  let baseSeed := hashSeed base
  let historySalt := (state.reading.history.filter
    (fun r => r.get2 (("meta").data) (("dateISO").data) == some (.str dateISO))).length
  let currentSalt :=
    match state.reading.current with
    | some r =>
      if r.get2 (("meta").data) (("dateISO").data) == some (.str dateISO) then 1 else 0
    | none => 0
  { DEFAULT_SAMPLING_PARAMS with
      seed := some ((baseSeed + historySalt + currentSalt) % 4294967296) }

/-- `HoroscopeRepository.generate` (the variant of the snapshot whose
`ValidatePayloadStep` spans lines 334–392): when the model is loaded the
embedded adapter is invoked; a rejection of that call is caught and
silently answered with the stub adapter's output; with any other status
the stub streams immediately.  The backend call itself is abstracted as
`modelOutcome` (its `Except.error` case is the adapter call throwing,
e.g. a transport failure or the 3-minute timeout).  Second component:
how many times the embedded model adapter was invoked. -/
def repositoryGenerate (status : ModelStatus) (modelOutcome : Except Str Str)
    (stubText : Str) : Str × Nat :=
  match status with
  | .loaded _ _ _ =>
    (match modelOutcome with
     | .ok payloadJson => (payloadJson, 1)
     | .error _ => (stubText, 1))
  | _ => (stubText, 0)

/-- `ValidatePayloadStep.run`: an empty `payloadJson` is falsy and the
step returns leaving `context.payload` unset; otherwise parse, falling
back to the stub adapter on failure; a stub that fails to parse throws
(`throw new Error(stubResult.error.message)`). -/
def validatePayloadStep (payloadJson : Str) (stubText : Str) : Except Str (Option Json) :=
  if payloadJson.isEmpty then .ok none
  else
    match (sanitizeAndParseDashboardPayload payloadJson).1 with
    | .ok v => .ok (some v)
    | .error _ =>
      match (sanitizeAndParseDashboardPayload stubText).1 with
      | .ok v => .ok (some v)
      | .error e => .error e

/-- `runReadingPipeline`: build-prompt (which only prepares the prompt
handed to the backend, abstracted into `modelOutcome`), invoke,
validate; an unset `context.payload` at the end throws.  `tR`/`tV` are
the wall-clock timestamps of the repository's resp. the validate step's
stub invocation, `ll` the locale date label and `sign` the zodiac sign
of the profile's birthdate.  Second component: number of backend (model
adapter) invocations. -/
def runReadingPipeline (p : ProfileDraft) (dateISO : Str) (state : AppState)
    (modelOutcome : Except Str Str) (tR tV ll sign : Str) :
    Except Str Json × Nat :=
  let _sampling := buildSamplingParams p dateISO state
  let invoke := repositoryGenerate state.model modelOutcome (stubGenerate p dateISO tR ll sign)
  match validatePayloadStep invoke.1 (stubGenerate p dateISO tV ll sign) with
  | .error e => (.error e, invoke.2)
  | .ok none => (.error (("Unable to generate dashboard payload.").data), invoke.2)
  | .ok (some v) => (.ok v, invoke.2)

/-- The `__FILL__` string placeholder of the template. -/
def fillStr : Json := .str (("__FILL__").data)

/-- `buildDashboardTemplate` of `dashboardPrompt.ts` (compact variant):
the template object embedded into every prompt; `-1` is the numeric
sentinel. -/
def buildDashboardTemplate (name birthdate sign ll dateISO t : Str) : Json :=
  .obj (jf
    [(("meta").data, .obj (jf
       [(("dateISO").data, .str dateISO),
        (("localeDateLabel").data, .str ll),
        (("generatedAtISO").data, .str t),
        (("sign").data, .str sign),
        (("name").data, .str name)])),
     (("tabs").data, .obj (jf [(("activeDefault").data, .str (("today").data))])),
     (("today").data, .obj (jf
       [(("headline").data, fillStr),
        (("subhead").data, fillStr),
        (("theme").data, fillStr),
        (("energyScore").data, .num (-1)),
        (("bestHours").data, .arr (jl
          [.obj (jf [(("label").data, fillStr), (("start").data, fillStr),
                     (("end").data, fillStr)]),
           .obj (jf [(("label").data, fillStr), (("start").data, fillStr),
                     (("end").data, fillStr)])])),
        (("ratings").data, .obj (jf
          [(("love").data, .num (-1)), (("work").data, .num (-1)),
           (("money").data, .num (-1)), (("health").data, .num (-1))])),
        (("lucky").data, .obj (jf
          [(("color").data, fillStr), (("number").data, .num (-1)),
           (("symbol").data, fillStr)])),
        (("doDont").data, .obj (jf [(("do").data, fillStr), (("dont").data, fillStr)])),
        (("sections").data, .arr (jl
          [.obj (jf [(("title").data, .str (("Focus").data)), (("body").data, fillStr)]),
           .obj (jf [(("title").data, .str (("Relationships").data)), (("body").data, fillStr)]),
           .obj (jf [(("title").data, .str (("Action").data)), (("body").data, fillStr)]),
           .obj (jf [(("title").data, .str (("Reflection").data)), (("body").data, fillStr)])]))])),
     (("cosmicWeather").data, .obj (jf
       [(("moon").data, .obj (jf [(("phase").data, fillStr), (("sign").data, fillStr)])),
        (("transits").data, .arr (jl
          [.obj (jf [(("title").data, fillStr), (("tone").data, fillStr),
                     (("meaning").data, fillStr)]),
           .obj (jf [(("title").data, fillStr), (("tone").data, fillStr),
                     (("meaning").data, fillStr)])])),
        (("affectsToday").data, fillStr)])),
     (("compatibility").data, .obj (jf
       [(("bestFlowWith").data, .arr (jl [fillStr, fillStr])),
        (("handleGentlyWith").data, .arr (jl [fillStr])),
        (("tips").data, .obj (jf
          [(("conflict").data, fillStr), (("affection").data, fillStr)]))])),
     (("journalRitual").data, .obj (jf
       [(("prompt").data, fillStr),
        (("starters").data, .arr (jl [fillStr, fillStr, fillStr])),
        (("mantra").data, fillStr),
        (("ritual").data, fillStr),
        (("bestDayForDecisions").data, .obj (jf
          [(("dayLabel").data, fillStr), (("reason").data, fillStr)]))])),
     (("week").data, .obj (jf
       [(("arc").data, .obj (jf
          [(("start").data, fillStr), (("midweek").data, fillStr),
           (("weekend").data, fillStr)])),
        (("keyOpportunity").data, fillStr),
        (("keyCaution").data, fillStr),
        (("bestDayFor").data, .obj (jf
          [(("decisions").data, fillStr), (("conversations").data, fillStr),
           (("rest").data, fillStr)]))])),
     (("month").data, .obj (jf
       [(("theme").data, fillStr),
        (("keyDates").data, .arr (jl
          [.obj (jf [(("dateLabel").data, fillStr), (("title").data, fillStr),
                     (("note").data, fillStr)]),
           .obj (jf [(("dateLabel").data, fillStr), (("title").data, fillStr),
                     (("note").data, fillStr)]),
           .obj (jf [(("dateLabel").data, fillStr), (("title").data, fillStr),
                     (("note").data, fillStr)])])),
        (("newMoon").data, .obj (jf
          [(("dateLabel").data, fillStr), (("intention").data, fillStr)])),
        (("fullMoon").data, .obj (jf
          [(("dateLabel").data, fillStr), (("release").data, fillStr)])),
        (("oneThing").data, fillStr)])),
     (("year").data, .obj (jf
       [(("headline").data, fillStr),
        (("quarters").data, .arr (jl
          [.obj (jf [(("label").data, .str (("Q1").data)), (("focus").data, fillStr)]),
           .obj (jf [(("label").data, .str (("Q2").data)), (("focus").data, fillStr)]),
           .obj (jf [(("label").data, .str (("Q3").data)), (("focus").data, fillStr)]),
           .obj (jf [(("label").data, .str (("Q4").data)), (("focus").data, fillStr)])])),
        (("powerMonths").data, .arr (jl [fillStr, fillStr])),
        (("challengeMonth").data, .obj (jf
          [(("month").data, fillStr), (("guidance").data, fillStr)]))]))])

/-- The `templateJson` text handed to the backend
(`JSON.stringify(template)`). -/
def buildDashboardTemplateJson (name birthdate sign ll dateISO t : Str) : Str :=
  serializeJson (buildDashboardTemplate name birthdate sign ll dateISO t)

/-- Plain text characters: printable, no quote, no backslash, no
backtick, no underscore.  Strings of such characters serialize without
escapes, never form a code fence and never contain the `__FILL`
placeholder marker. -/
def plainChar (c : Char) : Bool :=
  0x20 ≤ c.val && c ≠ '"' && c ≠ '\\' && c ≠ backtick && c ≠ '_'

def plainStr (s : Str) : Bool := s.all plainChar

def JsonF.hasKey : JsonF → Str → Bool
  | .nil, _ => false
  | .cons k _ fs, key => k = key || fs.hasKey key

mutual
/-- Plain values: every string (and key) is plain text and object keys
are unique — the shape of every payload the stub generator and the
template builder emit for plain profile/date inputs. -/
def plainJson : Json → Bool
  | .nul => true
  | .bool _ => true
  | .num _ => true
  | .str s => plainStr s
  | .arr xs => plainL xs
  | .obj fs => plainF fs
def plainL : JsonL → Bool
  | .nil => true
  | .cons x xs => plainJson x && plainL xs
def plainF : JsonF → Bool
  | .nil => true
  | .cons k v fs => plainStr k && !(fs.hasKey k) && plainJson v && plainF fs
end

/-- The characters a string-literal-aware scan processes in-string (the
string bodies together with their closing quotes), with the exact
`inString`/`escaped` update discipline shared by `removeTrailingCommas`,
`quoteUnquotedKeys`, `mergeRootObjects`, `unwrapAnonymousRootObjects`
and `closeMissingFinalBrace`. -/
def stringChars (inS esc : Bool) : Str → Str
  | [] => []
  | c :: cs =>
    if inS then
      let esc' := if esc then false else decide (c = '\\')
      let inS' := if esc then true else decide (c ≠ '"')
      c :: stringChars inS' esc' cs
    else if c = '"' then stringChars true esc cs
    else stringChars inS esc cs

/-- The 32-bit FNV-1a hash as the specification describes it
("a hash of (date, user name, birthdate)", "FNV-1a-style"): offset
basis 2166136261, prime 16777619, xor-then-multiply, modulo 2^32.
Stated from the specification's words, to be compared with the source's
`hashSeed`. -/
def fnv1a32 (s : Str) : Nat :=
  s.foldl (fun h c => ((h ^^^ c.val.toNat) * 16777619) % 4294967296) 2166136261

/-- The specification's sections requirement, stated from its words:
`today.sections` is exactly four entries titled Focus, Relationships,
Action, Reflection in exactly that order. -/
def specSectionsExact (raw : Json) : Bool :=
  match raw.get2 (("today").data) (("sections").data) with
  | some (.arr (.cons a (.cons b (.cons c (.cons d .nil))))) =>
    entryStr a (("title").data) = ("Focus").data &&
    entryStr b (("title").data) = ("Relationships").data &&
    entryStr c (("title").data) = ("Action").data &&
    entryStr d (("title").data) = ("Reflection").data
  | _ => false

/-- A well-shaped `today` block with the given sections array; every
text field is a short plain string, all numerics in range. -/
def mkToday (sections : JsonL) : Json :=
  .obj (jf
    [(("headline").data, .str (("h").data)),
     (("subhead").data, .str (("s").data)),
     (("theme").data, .str (("t").data)),
     (("energyScore").data, .num 70),
     (("bestHours").data, .arr (jl
       [.obj (jf [(("label").data, .str (("Morning").data)),
                  (("start").data, .str (("9").data)),
                  (("end").data, .str (("11").data))]),
        .obj (jf [(("label").data, .str (("Evening").data)),
                  (("start").data, .str (("5").data)),
                  (("end").data, .str (("7").data))])])),
     (("ratings").data, .obj (jf
       [(("love").data, .num 3), (("work").data, .num 4),
        (("money").data, .num 2), (("health").data, .num 5)])),
     (("lucky").data, .obj (jf
       [(("color").data, .str (("Gold").data)), (("number").data, .num 7),
        (("symbol").data, .str (("star").data))])),
     (("doDont").data, .obj (jf
       [(("do").data, .str (("do").data)), (("dont").data, .str (("dont").data))])),
     (("sections").data, .arr sections)])

/-- A candidate payload satisfying every validator guard except possibly
the two of interest: `withTabs` controls the presence of the `tabs` key
and `sections` is plugged in as given. -/
def mkCandidate (withTabs : Bool) (sections : JsonL) : Json :=
  .obj (jf
    ([(("meta").data, .obj (jf
        [(("dateISO").data, .str (("2024-05-01").data)),
         (("localeDateLabel").data, .str (("May 1").data)),
         (("generatedAtISO").data, .str (("2024-05-01T10:00:00.000Z").data)),
         (("sign").data, .str (("Taurus").data)),
         (("name").data, .str (("Ana").data))]))] ++
     (if withTabs then
        [(("tabs").data, .obj (jf [(("activeDefault").data, .str (("today").data))]))]
      else []) ++
     [(("today").data, mkToday sections),
      (("cosmicWeather").data, .obj (jf
        [(("moon").data, .obj (jf
           [(("phase").data, .str (("Full Moon").data)),
            (("sign").data, .str (("Libra").data))])),
         (("transits").data, .arr .nil),
         (("affectsToday").data, .str (("calm").data))])),
      (("compatibility").data, .obj (jf
        [(("bestFlowWith").data, .arr (jl [.str (("Aries").data), .str (("Libra").data)])),
         (("handleGentlyWith").data, .arr (jl [.str (("Scorpio").data)])),
         (("tips").data, .obj (jf
           [(("conflict").data, .str (("pause").data)),
            (("affection").data, .str (("play").data))]))])),
      (("journalRitual").data, .obj (jf
        [(("prompt").data, .str (("p").data)),
         (("starters").data, .arr (jl [.str (("a").data), .str (("b").data), .str (("c").data)])),
         (("mantra").data, .str (("m").data)),
         (("ritual").data, .str (("r").data)),
         (("bestDayForDecisions").data, .obj (jf
           [(("dayLabel").data, .str (("Thu").data)),
            (("reason").data, .str (("clarity").data))]))])),
      (("week").data, .obj (jf
        [(("arc").data, .obj (jf
           [(("start").data, .str (("a").data)), (("midweek").data, .str (("b").data)),
            (("weekend").data, .str (("c").data))])),
         (("keyOpportunity").data, .str (("o").data)),
         (("keyCaution").data, .str (("c").data)),
         (("bestDayFor").data, .obj (jf
           [(("decisions").data, .str (("Thu").data)),
            (("conversations").data, .str (("Wed").data)),
            (("rest").data, .str (("Sun").data))]))])),
      (("month").data, .obj (jf
        [(("theme").data, .str (("t").data)),
         (("keyDates").data, .arr (jl
           [.obj (jf [(("dateLabel").data, .str (("Jan 9").data)),
                      (("title").data, .str (("New Moon").data)),
                      (("note").data, .str (("n").data))]),
            .obj (jf [(("dateLabel").data, .str (("Jan 17").data)),
                      (("title").data, .str (("Reset").data)),
                      (("note").data, .str (("n").data))]),
            .obj (jf [(("dateLabel").data, .str (("Jan 25").data)),
                      (("title").data, .str (("Full Moon").data)),
                      (("note").data, .str (("n").data))])])),
         (("newMoon").data, .obj (jf
           [(("dateLabel").data, .str (("Jan 9").data)),
            (("intention").data, .str (("i").data))])),
         (("fullMoon").data, .obj (jf
           [(("dateLabel").data, .str (("Jan 25").data)),
            (("release").data, .str (("r").data))])),
         (("oneThing").data, .str (("one").data))])),
      (("year").data, .obj (jf
        [(("headline").data, .str (("y").data)),
         (("quarters").data, .arr (jl
           [.obj (jf [(("label").data, .str (("Q1").data)), (("focus").data, .str (("f1").data))]),
            .obj (jf [(("label").data, .str (("Q2").data)), (("focus").data, .str (("f2").data))]),
            .obj (jf [(("label").data, .str (("Q3").data)), (("focus").data, .str (("f3").data))]),
            .obj (jf [(("label").data, .str (("Q4").data)), (("focus").data, .str (("f4").data))])])),
         (("powerMonths").data, .arr (jl [.str (("March").data), .str (("July").data)])),
         (("challengeMonth").data, .obj (jf
           [(("month").data, .str (("October").data)),
            (("guidance").data, .str (("slow").data))]))]))]))

/-- The canonical four-section array. -/
def canonicalSections : JsonL :=
  jl [.obj (jf [(("title").data, .str (("Focus").data)), (("body").data, .str (("f").data))]),
      .obj (jf [(("title").data, .str (("Relationships").data)), (("body").data, .str (("r").data))]),
      .obj (jf [(("title").data, .str (("Action").data)), (("body").data, .str (("a").data))]),
      .obj (jf [(("title").data, .str (("Reflection").data)), (("body").data, .str (("re").data))])]

/-- A fully canonical, valid candidate. -/
def goodCandidate : Json := mkCandidate true canonicalSections

/-- A candidate whose `sections` array has a single entry (title from
the canonical set, but wrong count, order trivially broken). -/
def weakSectionsCandidate : Json :=
  mkCandidate true
    (jl [.obj (jf [(("title").data, .str (("Action").data)),
                   (("body").data, .str (("only").data))])])

/-- `goodCandidate` with the `tabs` key removed. -/
def noTabsCandidate : Json := mkCandidate false canonicalSections

/-- Replace `meta.name` (what code-fence stripping effectively does to a
serialized payload whose name contains a fence). -/
def withMetaName (p : Json) (n : Str) : Json :=
  match p.get (("meta").data) with
  | some m => objSet p (("meta").data) (objSet m (("name").data) (.str n))
  | none => p

/-- A concrete plain profile. -/
def pAna : ProfileDraft :=
  { name := ("Ana").data, birthdate := ("1990-04-20").data,
    mood := ("Calm").data, personality := ("Dreamer").data }

/-- A profile whose name carries a code fence followed by a space. -/
def pFence : ProfileDraft :=
  { name := 'x' :: backtick :: backtick :: backtick :: (" y").data,
    birthdate := ("1990-04-20").data,
    mood := ("Calm").data, personality := ("Dreamer").data }

/-- Replace `meta.generatedAtISO` of a payload. -/
def withMetaGeneratedAt (p : Json) (t : Str) : Json :=
  match p.get (("meta").data) with
  | some m => objSet p (("meta").data) (objSet m (("generatedAtISO").data) (.str t))
  | none => p

/-- A concrete application state: model loaded, no prior readings. -/
def freshLoadedState : AppState :=
  { model := .loaded [] 0 0, reading := { current := none, history := [] } }

/-- The C2 test input: two comma-separated objects at the root. -/
def c2input : Str :=
  '\x7b' :: ("\"a\":1").data ++ '\x7d' :: ',' :: '\x7b' :: ("\"b\":2").data ++ ['\x7d']

/-- What the sanitizer actually produces for `c2input`. -/
def c2output : Str := '\x7b' :: ("\"a\":1\"b\":2").data ++ ['\x7d']

/-- The C9 test input: a string literal containing a code fence. -/
def c9input : Str :=
  '\x7b' :: ("\"a\":\"x").data ++ backtick :: backtick :: backtick :: ("y\"").data ++ ['\x7d']

instance : DecidableEq (Except Str Json) := fun a b =>
  match a, b with
  | .ok x, .ok y =>
    if h : x = y then isTrue (by rw [h]) else isFalse (fun hh => h (Except.ok.inj hh))
  | .ok _, .error _ => isFalse nofun
  | .error _, .ok _ => isFalse nofun
  | .error x, .error y =>
    if h : x = y then isTrue (by rw [h]) else isFalse (fun hh => h (Except.error.inj hh))

/-- The characters that may legally follow a serialized JSON value
inside a larger document: end of input, `,`, `\x7d` or `]`.  Exactly the
contexts in which the recursive-descent parser is invoked on a value. -/
def SepRest : Str → Prop
  | [] => True
  | c :: _ => c = ',' ∨ c = '\x7d' ∨ c = ']'

mutual
/-- Recursion fuel needed by `parseVal` on the serialization of a value
(each `parseVal`/`parseObjMembers`/`parseArrItems` call consumes one
unit). -/
def serFuel : Json → Nat
  | .obj fs => 1 + serFuelF fs
  | .arr xs => 1 + serFuelL xs
  | _ => 1
def serFuelL : JsonL → Nat
  | .nil => 0
  | .cons x xs => 1 + max (serFuel x) (serFuelL xs)
def serFuelF : JsonF → Nat
  | .nil => 0
  | .cons _ v fs => 1 + max (serFuel v) (serFuelF fs)
end

/-- Field-list concatenation (no key deduplication); the shape in which
`parseObjMembers` accumulates an object with pairwise-fresh keys. -/
def JsonF.catF : JsonF → JsonF → JsonF
  | .nil, gs => gs
  | .cons k v fs, gs => .cons k v (fs.catF gs)

/-- A chunk the `removeTrailingCommas` scan copies verbatim from the
out-of-string start state, leaving the scan of whatever follows
unchanged. -/
def RtcInert (s : Str) : Prop :=
  ∀ rest : Str, rtcGo false false (s ++ rest) =
    (s ++ (rtcGo false false rest).1, (rtcGo false false rest).2)

/-- A chunk the `quoteUnquotedKeys` scan copies verbatim when entered
out-of-string with no pending skip: scanning it from stack `S` and a
key-free position leaves some `expectKey` flag `e` and continues the
rest from the same stack.  Every character that can follow a JSON value
(`,`, `\x7d`, `]`, end of input) treats all values of `e` alike. -/
def QukInertVal (s : Str) : Prop :=
  ∀ (S : List Bool) (rest : Str), ∃ e : Bool,
    qukGo ⟨S, false, false, false, 0⟩ (s ++ rest) =
      s ++ qukGo ⟨S, false, false, e, 0⟩ rest

/-- A chunk the `mergeRootObjects` scan copies verbatim at any depth
`d ≥ 1` (so that no `\x7d` inside it closes depth 1), leaving the scan
of whatever follows unchanged. -/
def MrgInert (s : Str) : Prop :=
  ∀ d : Int, 1 ≤ d → ∀ rest : Str,
    mrgGo ⟨false, false, d, 0⟩ (s ++ rest) =
      (s ++ (mrgGo ⟨false, false, d, 0⟩ rest).1, (mrgGo ⟨false, false, d, 0⟩ rest).2)

/-- A chunk the `unwrapAnonymousRootObjects` scan copies verbatim at any
depth `d ≥ lo` with no pending wrapper bookkeeping (array item lists
need `lo = 2`: their commas must sit strictly below the root level). -/
def UnwInertFrom (lo : Int) (s : Str) : Prop :=
  ∀ d : Int, lo ≤ d → ∀ rest : Str,
    unwGo ⟨false, false, d, none, false, 0⟩ (s ++ rest) =
      (s ++ (unwGo ⟨false, false, d, none, false, 0⟩ rest).1,
       (unwGo ⟨false, false, d, none, false, 0⟩ rest).2)

/-- A chunk through which the `closeMissingFinalBrace` scan passes
without changing its (out-of-string, any depth) state. -/
def CloseInert (s : Str) : Prop :=
  ∀ (d : Int) (rest : Str),
    closeScan false false d (s ++ rest) = closeScan false false d rest

/-- The rng state of the stub generator after `n` draws. -/
def stubSt (p : ProfileDraft) (dateISO sign : Str) : Nat → Nat
  | 0 => stubHashSeed
      (p.name ++ '-' :: dateISO ++ '-' :: sign ++ '-' :: p.mood ++ '-' :: p.personality) +
      2654435769
  | n + 1 => (seededNext (stubSt p dateISO sign n)).1

/-- The `n + 1`-st draw of the stub generator. -/
def stubDraw (p : ProfileDraft) (dateISO sign : Str) (n : Nat) : Nat :=
  (seededNext (stubSt p dateISO sign n)).2

def stubTitles : List Str :=
  [("Soft focus, clear intention").data,
   ("The hush before a bright idea").data,
   ("A horizon you can trust").data,
   ("The spark beneath stillness").data,
   ("A graceful return to center").data]

def stubOpenings (moodL : Str) : List Str :=
  [("The day opens with a ").data ++ moodL ++ (" current that invites gentler choices.").data,
   ("A ").data ++ moodL ++ (" undertone guides your timing and attention.").data,
   ("You move through a ").data ++ moodL ++ (" rhythm that rewards patience.").data]

def stubMiddles (sign persL : Str) : List Str :=
  [("As ").data ++ sign ++ (", your ").data ++ persL ++ (" nature notices subtle shifts first.").data,
   ("Your ").data ++ persL ++ (" instincts highlight what wants to soften.").data,
   ("The ").data ++ persL ++ (" in you translates intuition into one clear step.").data]

def stubClosers : List Str :=
  [("Let small rituals ground you, and let clarity arrive in layers.").data,
   ("Pause before replying and your best phrasing will surface.").data,
   ("Choose one gentle action that honors your energy, and let that be enough.").data]

def stubThemes : List Str :=
  [("Clarity").data, ("Patience").data, ("Warmth").data, ("Alignment").data, ("Ease").data]

def stubColors : List Str :=
  [("Gold").data, ("Moonlit Indigo").data, ("Soft Lavender").data, ("Sea-glass Teal").data]

def stubSymbols : List Str := [("★").data, ("☾").data, ("✦").data]

def stubPhases : List Str :=
  [("First Quarter").data, ("Waxing Crescent").data, ("Full Moon").data, ("New Moon").data]

def stubMoonSigns : List Str :=
  [("Cancer").data, ("Libra").data, ("Scorpio").data, ("Taurus").data]

def stubSigns : List Str :=
  [("Aries").data, ("Gemini").data, ("Libra").data, ("Sagittarius").data]

def stubGentlys : List Str := [("Taurus").data, ("Scorpio").data, ("Capricorn").data]

/-- The variable slots of the stub payload, abstracted from the draw
chain so that shape lemmas need not carry the rng terms around. -/
structure StubArgs where
  name : Str
  dateISO : Str
  t : Str
  ll : Str
  sign : Str
  title : Str
  message : Str
  theme : Str
  color : Str
  symbol : Str
  moonPhase : Str
  moonSign : Str
  gently : Str
  bestFlow : List Str
  energyScore : Int
  love : Int
  work : Int
  money : Int
  health : Int
  luckyNumber : Int

/-- The `meta` block of the stub payload skeleton. -/
def stubMeta (a : StubArgs) : Json :=
  .obj (jf
    [(("dateISO").data, .str a.dateISO),
     (("localeDateLabel").data, .str a.ll),
     (("generatedAtISO").data, .str a.t),
     (("sign").data, .str a.sign),
     (("name").data, .str a.name)])

def stubTabs : Json := .obj (jf [(("activeDefault").data, .str (("today").data))])

/-- The `today` block of the stub payload skeleton. -/
def stubToday (a : StubArgs) : Json :=
  .obj (jf
    [(("headline").data, .str a.title),
     (("subhead").data, .str a.message),
     (("theme").data, .str a.theme),
     (("energyScore").data, .num a.energyScore),
     (("bestHours").data, .arr (jl
       [.obj (jf [(("label").data, .str (("Morning").data)),
                  (("start").data, .str (("9:00 AM").data)),
                  (("end").data, .str (("11:00 AM").data))]),
        .obj (jf [(("label").data, .str (("Evening").data)),
                  (("start").data, .str (("5:00 PM").data)),
                  (("end").data, .str (("7:00 PM").data))])])),
     (("ratings").data, .obj (jf
       [(("love").data, .num a.love), (("work").data, .num a.work),
        (("money").data, .num a.money), (("health").data, .num a.health)])),
     (("lucky").data, .obj (jf
       [(("color").data, .str a.color), (("number").data, .num a.luckyNumber),
        (("symbol").data, .str a.symbol)])),
     (("doDont").data, .obj (jf
       [(("do").data, .str (("Trust your instincts and keep plans simple.").data)),
        (("dont").data, .str (("Overshare or rush to fill quiet moments.").data))])),
     (("sections").data, .arr (jl
       [.obj (jf [(("title").data, .str (("Focus").data)),
                  (("body").data, .str (("Pick one clear priority and let the rest soften.").data))]),
        .obj (jf [(("title").data, .str (("Relationships").data)),
                  (("body").data, .str (("Lead with warmth and give others space to respond.").data))]),
        .obj (jf [(("title").data, .str (("Action").data)),
                  (("body").data, .str (("Take one grounded step that supports your long view.").data))]),
        .obj (jf [(("title").data, .str (("Reflection").data)),
                  (("body").data, .str (("Notice what feels steady and keep returning to it.").data))])]))])

/-- The `cosmicWeather` block of the stub payload skeleton. -/
def stubCosmic (a : StubArgs) : Json :=
  .obj (jf
    [(("moon").data, .obj (jf
       [(("phase").data, .str a.moonPhase), (("sign").data, .str a.moonSign)])),
     (("transits").data, .arr (jl
       [.obj (jf [(("title").data, .str (("Mercury review cycle").data)),
                  (("tone").data, .str (("neutral").data)),
                  (("meaning").data, .str (("Double-check details before committing.").data))]),
        .obj (jf [(("title").data, .str (("Venus harmony").data)),
                  (("tone").data, .str (("soft").data)),
                  (("meaning").data, .str (("Gentle conversations land with ease.").data))])])),
     (("affectsToday").data,
      .str (("Emotional tides rise and fall; choose calm responses.").data))])

/-- The `compatibility` block of the stub payload skeleton. -/
def stubCompat (a : StubArgs) : Json :=
  .obj (jf
    [(("bestFlowWith").data, .arr (jl (a.bestFlow.map Json.str))),
     (("handleGentlyWith").data, .arr (jl [.str a.gently])),
     (("tips").data, .obj (jf
       [(("conflict").data, .str (("Pause before replying to keep things kind.").data)),
        (("affection").data, .str (("Playful honesty keeps the mood light.").data))]))])

def stubJournal : Json :=
  .obj (jf
    [(("prompt").data, .str (("What feels most important to protect today?").data)),
     (("starters").data, .arr (jl
       [.str (("I feel…").data), .str (("I need…").data),
        .str (('I' :: apoChar :: ("m avoiding…").data))])),
     (("mantra").data, .str (("I move with grace and clear intention.").data)),
     (("ritual").data, .str (("Light a candle and name one priority out loud.").data)),
     (("bestDayForDecisions").data, .obj (jf
       [(("dayLabel").data, .str (("Thursday").data)),
        (("reason").data, .str (("Clarity peaks in the afternoon.").data))]))])

def stubWeek : Json :=
  .obj (jf
    [(("arc").data, .obj (jf
       [(("start").data, .str (("Settle into a calm, focused rhythm.").data)),
        (("midweek").data, .str (("Tune inward before making changes.").data)),
        (("weekend").data, .str (("Conversations flow and ease returns.").data))])),
     (("keyOpportunity").data, .str (("Strengthen a bond through simple honesty.").data)),
     (("keyCaution").data, .str (("Avoid overcommitting before you feel ready.").data)),
     (("bestDayFor").data, .obj (jf
       [(("decisions").data, .str (("Thursday").data)),
        (("conversations").data, .str (("Wednesday").data)),
        (("rest").data, .str (("Sunday").data))]))])

def stubMonth : Json :=
  .obj (jf
    [(("theme").data, .str (("Clarity through gentle structure.").data)),
     (("keyDates").data, .arr (jl
       [.obj (jf [(("dateLabel").data, .str (("Jan 9–10").data)),
                  (("title").data, .str (("New Moon").data)),
                  (("note").data, .str (("Set intentions around focus.").data))]),
        .obj (jf [(("dateLabel").data, .str (("Jan 17").data)),
                  (("title").data, .str (("Personal reset").data)),
                  (("note").data, .str (("Simplify a lingering task.").data))]),
        .obj (jf [(("dateLabel").data, .str (("Jan 25").data)),
                  (("title").data, .str (("Full Moon").data)),
                  (("note").data, .str (("Release what feels heavy.").data))])])),
     (("newMoon").data, .obj (jf
       [(("dateLabel").data, .str (("Jan 9–10").data)),
        (("intention").data, .str (("Commit to one steady practice.").data))])),
     (("fullMoon").data, .obj (jf
       [(("dateLabel").data, .str (("Jan 25").data)),
        (("release").data, .str (("Let go of scattered priorities.").data))])),
     (("oneThing").data,
      .str (("If you do one thing, choose the gentlest next step.").data))])

def stubYear : Json :=
  .obj (jf
    [(("headline").data,
      .str (("A year to trust your timing and refine your craft.").data)),
     (("quarters").data, .arr (jl
       [.obj (jf [(("label").data, .str (("Q1").data)),
                  (("focus").data, .str (("Grounded beginnings and clearing space.").data))]),
        .obj (jf [(("label").data, .str (("Q2").data)),
                  (("focus").data, .str (("Momentum builds through collaboration.").data))]),
        .obj (jf [(("label").data, .str (("Q3").data)),
                  (("focus").data, .str (("Visibility grows with steady effort.").data))]),
        .obj (jf [(("label").data, .str (("Q4").data)),
                  (("focus").data, .str (("Integration and graceful completion.").data))])])),
     (("powerMonths").data, .arr (jl [.str (("March").data), .str (("July").data)])),
     (("challengeMonth").data, .obj (jf
       [(("month").data, .str (("October").data)),
        (("guidance").data, .str (("Slow down and streamline.").data))]))])

/-- The stub payload skeleton over abstract slot values; `stubPayload`
instantiates it with the drawn values (see `stub_eq_mk`). -/
def stubMk (a : StubArgs) : Json :=
  .obj (jf
    [(("meta").data, stubMeta a),
     (("tabs").data, stubTabs),
     (("today").data, stubToday a),
     (("cosmicWeather").data, stubCosmic a),
     (("compatibility").data, stubCompat a),
     (("journalRitual").data, stubJournal),
     (("week").data, stubWeek),
     (("month").data, stubMonth),
     (("year").data, stubYear)])

/-- The serialized stub payload up to (and including) the opening quote
of the `meta.name` string value. -/
def stubSerPre (a : StubArgs) : Str :=
  '\x7b' :: '"' :: escapeStr (("meta").data) ++ '"' :: ':' :: '\x7b' ::
    (serializeFields (jf
      [(("dateISO").data, .str a.dateISO),
       (("localeDateLabel").data, .str a.ll),
       (("generatedAtISO").data, .str a.t),
       (("sign").data, .str a.sign)]) ++
     ',' :: '"' :: escapeStr (("name").data) ++ '"' :: ':' :: ['"'])

/-- The serialized stub payload from the character after the closing
quote of the `meta.name` string value. -/
def stubSerSuf (a : StubArgs) : Str :=
  '\x7d' :: ',' :: serializeFields (jf
    [(("tabs").data, stubTabs), (("today").data, stubToday a),
     (("cosmicWeather").data, stubCosmic a), (("compatibility").data, stubCompat a),
     (("journalRitual").data, stubJournal), (("week").data, stubWeek),
     (("month").data, stubMonth), (("year").data, stubYear)]) ++ ['\x7d']

/-- All variable string slots are plain text. -/
def StubArgs.Plain (a : StubArgs) : Prop :=
  plainStr a.name = true ∧ plainStr a.dateISO = true ∧ plainStr a.t = true ∧
  plainStr a.ll = true ∧ plainStr a.sign = true ∧ plainStr a.title = true ∧
  plainStr a.message = true ∧ plainStr a.theme = true ∧ plainStr a.color = true ∧
  plainStr a.symbol = true ∧ plainStr a.moonPhase = true ∧
  plainStr a.moonSign = true ∧ plainStr a.gently = true ∧
  (∀ x ∈ a.bestFlow, plainStr x = true)

/-- The numeric slots sit inside the validator ranges and the best-flow
list has exactly the two entries the generator draws. -/
def StubArgs.Bounded (a : StubArgs) : Prop :=
  0 ≤ a.energyScore ∧ a.energyScore ≤ 100 ∧
  0 ≤ a.love ∧ a.love ≤ 5 ∧ 0 ≤ a.work ∧ a.work ≤ 5 ∧
  0 ≤ a.money ∧ a.money ≤ 5 ∧ 0 ≤ a.health ∧ a.health ≤ 5 ∧
  0 ≤ a.luckyNumber ∧ a.luckyNumber ≤ 999 ∧ a.bestFlow.length = 2

/-- The argument pack `stubPayload` draws. -/
def stubArgsOf (p : ProfileDraft) (dateISO t ll sign : Str) : StubArgs :=
  { name := p.name, dateISO := dateISO, t := t, ll := ll, sign := sign,
    title := pickFrom (stubDraw p dateISO sign 0) stubTitles,
    message := jsTrim
      (pickFrom (stubDraw p dateISO sign 1) (stubOpenings (strToLower p.mood)) ++
        ' ' :: pickFrom (stubDraw p dateISO sign 2)
          (stubMiddles sign (strToLower p.personality)) ++
        ' ' :: pickFrom (stubDraw p dateISO sign 3) stubClosers),
    theme := pickFrom (stubDraw p dateISO sign 4) stubThemes,
    color := pickFrom (stubDraw p dateISO sign 10) stubColors,
    symbol := pickFrom (stubDraw p dateISO sign 12) stubSymbols,
    moonPhase := pickFrom (stubDraw p dateISO sign 13) stubPhases,
    moonSign := pickFrom (stubDraw p dateISO sign 14) stubMoonSigns,
    gently := pickFrom
      (seededNext (jsShuffle (stubSt p dateISO sign 15) stubSigns).1).2 stubGentlys,
    bestFlow := (jsShuffle (stubSt p dateISO sign 15) stubSigns).2.take 2,
    energyScore := ((stubDraw p dateISO sign 5 * 45 / 10000 : Nat) : Int) + 55,
    love := ((stubDraw p dateISO sign 6 * 3 / 10000 : Nat) : Int) + 3,
    work := ((stubDraw p dateISO sign 7 * 3 / 10000 : Nat) : Int) + 3,
    money := ((stubDraw p dateISO sign 8 * 3 / 10000 : Nat) : Int) + 2,
    health := ((stubDraw p dateISO sign 9 * 3 / 10000 : Nat) : Int) + 3,
    luckyNumber := ((stubDraw p dateISO sign 11 * 9 / 10000 : Nat) : Int) + 1 }

set_option maxRecDepth 40000

theorem runChecks_valid_all (raw : Json) : ∀ (l : List (Bool × Str)) (r : Json),
    runChecks raw l = .valid r → (∀ pr ∈ l, pr.1 = true) ∧ r = raw := by
  intro l
  induction l with
  | nil => intro r h; simp [runChecks] at h; simp [h]
  | cons hd tl ih =>
    intro r h
    simp only [runChecks] at h
    split at h
    · next hok =>
      rcases ih r h with ⟨h1, h2⟩
      refine ⟨?_, h2⟩
      intro pr hpr
      rcases List.mem_cons.mp hpr with h3 | h3
      · rw [h3]; exact hok
      · exact h1 pr h3
    · exact VResult.noConfusion h

theorem valid_imp_guards (raw r : Json) (h : validateDashboardPayload raw = .valid r) :
    vTabsOk raw = true ∧ vSectionsOk raw = true ∧ r = raw := by
  rcases runChecks_valid_all raw (vChecks raw) r h with ⟨hall, hr⟩
  refine ⟨?_, ?_, hr⟩
  · exact hall (vTabsOk raw, ("Payload tabs.activeDefault must be \"today\".").data)
      (by simp [vChecks])
  · exact hall (vSectionsOk raw, ("Payload today.sections is invalid.").data)
      (by simp [vChecks])

theorem hashSeedGo_eq_foldl (s : Str) : ∀ h : Nat,
    hashSeedGo h s = s.foldl (fun a c => ((a ^^^ c.val.toNat) * 16777619) % 4294967296) h := by
  induction s with
  | nil => intro h; rfl
  | cons c cs ih => intro h; simp only [hashSeedGo, List.foldl]; exact ih _

theorem hashSeed_eq_fnv1a32 (s : Str) : hashSeed s = fnv1a32 s :=
  hashSeedGo_eq_foldl s 2166136261

/-- C8: for every profile, date and app state, `buildSamplingParams`
derives the seed as the 32-bit FNV-1a hash of `dateISO|name|birthdate`
plus a salt counting the stored history readings for that date plus one
when the current reading is for that date, reduced modulo 2^32, and
every other sampling parameter equals the fixed defaults. -/
theorem c8_sampling_params_formula (p : ProfileDraft) (dateISO : Str) (state : AppState) :
    buildSamplingParams p dateISO state =
      { DEFAULT_SAMPLING_PARAMS with
          seed := some ((fnv1a32 (dateISO ++ '|' :: p.name ++ '|' :: p.birthdate) +
            ((state.reading.history.filter
              (fun r => r.get2 (("meta").data) (("dateISO").data) == some (.str dateISO))).length +
             (match state.reading.current with
              | some r =>
                if r.get2 (("meta").data) (("dateISO").data) == some (.str dateISO) then 1 else 0
              | none => 0))) % 4294967296) } := by
  simp only [buildSamplingParams, hashSeed_eq_fnv1a32, Nat.add_assoc]

/-- C2: sanitizing the two comma-separated root objects
`{"a":1},{"b":2}` drops the separating comma together with the inner
brace pair, yielding `{"a":1"b":2}`, which `JSON.parse` rejects — the
repaired text does not parse to an object holding both keys, although
`rootMergeApplied` is reported. -/
theorem c2_root_merge_drops_comma :
    (sanitizeDashboardPayload c2input).1 = c2output ∧
    (sanitizeDashboardPayload c2input).2.rootMergeApplied = true ∧
    jsonParse c2output = none := by
  refine ⟨by decide, by decide, by decide⟩

/-- C4 (counterexample): a candidate whose `today.sections` holds a
single entry titled `Action` — neither four entries nor the canonical
order — is accepted by the strict validator. -/
theorem c4_validator_accepts_single_section :
    (validateDashboardPayload weakSectionsCandidate).isValid = true ∧
    specSectionsExact weakSectionsCandidate = false := by
  exact ⟨by decide, by decide⟩

/-- C4 (amended): the validator's sections gate only requires a
nonempty array of `title`/`body` string records whose titles are drawn
from the canonical set \x7bFocus, Relationships, Action, Reflection\x7d;
count, order and duplication are left to the normalizer. -/
theorem c4_sections_weak_gate (raw r : Json)
    (h : validateDashboardPayload raw = .valid r) :
    vSectionsOk raw = true ∧ r = raw := by
  rcases valid_imp_guards raw r h with ⟨_, h2, h3⟩
  exact ⟨h2, h3⟩

theorem c4_sections_weak_gate_witness :
    validateDashboardPayload goodCandidate = .valid goodCandidate ∧
    vSectionsOk goodCandidate = true :=
  ⟨by decide, (c4_sections_weak_gate goodCandidate goodCandidate (by decide)).1⟩

/-- C5 (counterexample): with the model loaded, a backend `generate`
call that throws is caught by `HoroscopeRepository.generate` and
answered with the stub adapter's text — the concrete failing call below
is replaced by stub output instead of surfacing any error to the
caller. -/
theorem c5_backend_error_swallowed :
    repositoryGenerate (.loaded [] 0 0) (.error (("model crashed").data))
      (stubGenerate pAna (("2024-05-01").data) (("2024-05-01T10:00:00.000Z").data)
        (("May 1").data) (("Taurus").data)) =
    (stubGenerate pAna (("2024-05-01").data) (("2024-05-01T10:00:00.000Z").data)
        (("May 1").data) (("Taurus").data), 1) := by
  rfl

/-- C5 (amended): for every thrown backend call under a loaded model,
the repository consumes the failure and returns the stub adapter's
output; nothing resembling a BackendError reaches the caller (the
function's result channel carries only text). -/
theorem c5_backend_error_replaced_by_stub (e stubText : Str) (path : Str)
    (mb bytes : Int) :
    repositoryGenerate (.loaded path mb bytes) (.error e) stubText = (stubText, 1) := by
  rfl

/-- C10: the validator accepts only candidates whose root `tabs` object
carries `activeDefault = "today"`; a candidate conforming to every
other guard but lacking `tabs` is rejected with that error; the prompt
template and the stub generator both always emit the key. -/
theorem c10_tabs_requirement :
    (∀ raw r : Json, validateDashboardPayload raw = .valid r →
      raw.get2 (("tabs").data) (("activeDefault").data) = some (.str (("today").data))) ∧
    validateDashboardPayload noTabsCandidate =
      .invalid (("Payload tabs.activeDefault must be \"today\".").data) ∧
    (∀ name birthdate sign ll dateISO t : Str,
      (buildDashboardTemplate name birthdate sign ll dateISO t).get2
        (("tabs").data) (("activeDefault").data) = some (.str (("today").data))) ∧
    (∀ (p : ProfileDraft) (dateISO t ll sign : Str),
      (stubPayload p dateISO t ll sign).get2
        (("tabs").data) (("activeDefault").data) = some (.str (("today").data))) := by
  refine ⟨?_, by decide, fun _ _ _ _ _ _ => rfl, fun _ _ _ _ _ => rfl⟩
  intro raw r h
  have := (valid_imp_guards raw r h).1
  simp only [vTabsOk, Bool.and_eq_true, beq_iff_eq] at this
  exact this.2

theorem c10_tabs_requirement_witness :
    goodCandidate.get2 (("tabs").data) (("activeDefault").data) =
      some (.str (("today").data)) :=
  c10_tabs_requirement.1 goodCandidate goodCandidate (by decide)

/-- C9 (counterexample): the code-fence-stripping step applies its
regexp inside string literals too — on `{"a":"x(fence)y"}` it deletes
the backticks inside the quoted string, changing the string-literal
characters of the text; the sanitizer pipeline is therefore not
string-escape-aware in every step. -/
theorem c9_fence_step_alters_string_chars :
    stripCodeFences c9input = '\x7b' :: ("\"a\":\"xy\"").data ++ ['\x7d'] ∧
    stringChars false false (stripCodeFences c9input) ≠ stringChars false false c9input := by
  exact ⟨by decide, by decide⟩

/-- C3 (counterexample): the pipeline is not idempotent on every
string — `closeMissingFinalBrace` appends exactly one brace per run, so
an input missing two closing braces gains another brace on the second
run: `sanitize("{{") = "{{}"` but `sanitize(sanitize("{{")) = "{{}}"`. -/
theorem c3_not_idempotent_on_truncated :
    (sanitizeDashboardPayload ['\x7b', '\x7b']).1 = ['\x7b', '\x7b', '\x7d'] ∧
    (sanitizeDashboardPayload (sanitizeDashboardPayload ['\x7b', '\x7b']).1).1 =
      ['\x7b', '\x7b', '\x7d', '\x7d'] ∧
    (sanitizeDashboardPayload (sanitizeDashboardPayload ['\x7b', '\x7b']).1).1 ≠
      (sanitizeDashboardPayload ['\x7b', '\x7b']).1 := by
  exact ⟨by decide, by decide, by decide⟩

/-- C1 (counterexample): a backend whose raw output is the empty string
never passes validation, yet the pipeline does not fall back to the
deterministic generator: `ValidatePayloadStep` treats the empty
`payloadJson` as falsy and returns with `context.payload` unset, so
`runReadingPipeline` throws `Unable to generate dashboard payload.`
instead of returning the fallback payload. -/
theorem c1_empty_output_throws :
    (sanitizeAndParseDashboardPayload []).1 =
      .error (("Invalid JSON returned by model.").data) ∧
    runReadingPipeline pAna (("2024-05-01").data) freshLoadedState (.ok [])
        (("T1").data) (("T2").data) (("May 1").data) (("Taurus").data) =
      (.error (("Unable to generate dashboard payload.").data), 1) := by
  refine ⟨by decide, ?_⟩
  rfl

theorem charOfNat_val (k : Nat) (h : k < 55296) : (Char.ofNat k).val.toNat = k := by
  have hv : Nat.isValidChar k := Or.inl h
  unfold Char.ofNat
  rw [dif_pos hv]
  unfold Char.ofNatAux
  simp [UInt32.toNat, UInt32.ofNat', BitVec.toNat_ofNat]

theorem digit_char_bounds (k : Nat) (h : k < 10) :
    '0' ≤ Char.ofNat (48 + k) ∧ Char.ofNat (48 + k) ≤ '9' := by
  constructor
  · show (48 : Nat) ≤ (Char.ofNat (48 + k)).val.toNat
    rw [charOfNat_val _ (by omega)]
    omega
  · show (Char.ofNat (48 + k)).val.toNat ≤ (57 : Nat)
    rw [charOfNat_val _ (by omega)]
    omega

theorem natCharsF_mem : ∀ (fuel n : Nat) (c : Char), c ∈ natCharsF fuel n →
    '0' ≤ c ∧ c ≤ '9' := by
  intro fuel
  induction fuel with
  | zero => intro n c h; simp [natCharsF] at h
  | succ f ih =>
    intro n c h
    simp only [natCharsF] at h
    split at h
    · next hlt =>
      simp at h
      subst h
      exact digit_char_bounds n hlt
    · rcases List.mem_append.mp h with h1 | h1
      · exact ih _ c h1
      · simp at h1
        subst h1
        exact digit_char_bounds (n % 10) (Nat.mod_lt _ (by omega))

theorem natCharsF_ne_nil (fuel n : Nat) : natCharsF (fuel + 1) n ≠ [] := by
  simp only [natCharsF]
  split
  · simp
  · intro h
    rcases List.append_eq_nil.mp h with ⟨_, h2⟩
    exact List.cons_ne_nil _ _ h2

theorem natChars_mem (n : Nat) (c : Char) (h : c ∈ natChars n) : '0' ≤ c ∧ c ≤ '9' :=
  natCharsF_mem _ _ _ h

theorem intChars_mem (n : Int) (c : Char) (h : c ∈ intChars n) :
    c = '-' ∨ ('0' ≤ c ∧ c ≤ '9') := by
  simp only [intChars] at h
  split at h
  · rcases List.mem_cons.mp h with h1 | h1
    · exact Or.inl h1
    · exact Or.inr (natChars_mem _ _ h1)
  · exact Or.inr (natChars_mem _ _ h)

theorem digit_mem_list (c : Char) (h1 : '0' ≤ c) (h2 : c ≤ '9') :
    c ∈ (("0123456789").data) := by
  have v1 : 48 ≤ c.val.toNat := h1
  have v2 : c.val.toNat ≤ 57 := h2
  have hv : c.val.toNat = 48 ∨ c.val.toNat = 49 ∨ c.val.toNat = 50 ∨ c.val.toNat = 51 ∨
      c.val.toNat = 52 ∨ c.val.toNat = 53 ∨ c.val.toNat = 54 ∨ c.val.toNat = 55 ∨
      c.val.toNat = 56 ∨ c.val.toNat = 57 := by omega
  rcases hv with h | h | h | h | h | h | h | h | h | h
  · have hc : c = '0' := Char.ext (UInt32.ext (by simpa using h)); subst hc; decide
  · have hc : c = '1' := Char.ext (UInt32.ext (by simpa using h)); subst hc; decide
  · have hc : c = '2' := Char.ext (UInt32.ext (by simpa using h)); subst hc; decide
  · have hc : c = '3' := Char.ext (UInt32.ext (by simpa using h)); subst hc; decide
  · have hc : c = '4' := Char.ext (UInt32.ext (by simpa using h)); subst hc; decide
  · have hc : c = '5' := Char.ext (UInt32.ext (by simpa using h)); subst hc; decide
  · have hc : c = '6' := Char.ext (UInt32.ext (by simpa using h)); subst hc; decide
  · have hc : c = '7' := Char.ext (UInt32.ext (by simpa using h)); subst hc; decide
  · have hc : c = '8' := Char.ext (UInt32.ext (by simpa using h)); subst hc; decide
  · have hc : c = '9' := Char.ext (UInt32.ext (by simpa using h)); subst hc; decide

theorem digit_facts {c : Char} (h : '0' ≤ c ∧ c ≤ '9') :
    c ≠ '"' ∧ c ≠ '\\' ∧ c ≠ backtick ∧ c ≠ ',' ∧ c ≠ ':' ∧ c ≠ '\x7b' ∧ c ≠ '\x7d' ∧
    c ≠ '[' ∧ c ≠ ']' ∧ isJsWs c = false ∧ isJsonWs c = false ∧ isIdentStart c = false ∧
    plainChar c = true := by
  have hm := digit_mem_list c h.1 h.2
  fin_cases hm <;> decide

theorem plainChar_facts {c : Char} (h : plainChar c = true) :
    32 ≤ c.val.toNat ∧ c ≠ '"' ∧ c ≠ '\\' ∧ c ≠ backtick ∧ c ≠ '_' := by
  simp only [plainChar, Bool.and_eq_true, decide_eq_true_eq] at h
  exact ⟨h.1.1.1.1, h.1.1.1.2, h.1.1.2, h.1.2, h.2⟩

theorem plainChar_not_ctrl {c : Char} (h : plainChar c = true) :
    c ≠ '\t' ∧ c ≠ '\n' ∧ c ≠ '\r' ∧ c.val ≠ 8 ∧ c.val ≠ 12 ∧
    ¬(c.val < 32) := by
  have h32 := (plainChar_facts h).1
  refine ⟨?_, ?_, ?_, ?_, ?_, ?_⟩
  · intro hc; subst hc; revert h32; decide
  · intro hc; subst hc; revert h32; decide
  · intro hc; subst hc; revert h32; decide
  · intro hc
    have : c.val.toNat = 8 := by rw [hc]; rfl
    omega
  · intro hc
    have : c.val.toNat = 12 := by rw [hc]; rfl
    omega
  · intro hc
    have : c.val.toNat < 32 := hc
    omega

theorem escapeChar_plain {c : Char} (h : plainChar c = true) : escapeChar c = [c] := by
  obtain ⟨h32, hq, hb, _, _⟩ := plainChar_facts h
  obtain ⟨ht, hn, hr, h8, h12, hlt⟩ := plainChar_not_ctrl h
  rw [escapeChar]
  rw [if_neg hq, if_neg hb]
  rw [if_neg h8, if_neg ht, if_neg hn, if_neg h12, if_neg hr, if_neg hlt]

theorem escapeStr_plain {s : Str} (h : plainStr s = true) : escapeStr s = s := by
  induction s with
  | nil => rfl
  | cons c cs ih =>
    simp only [plainStr, List.all_cons, Bool.and_eq_true] at h
    simp only [escapeStr, escapeChar_plain h.1]
    rw [ih h.2]
    rfl

theorem natChars_head (n : Nat) :
    ∃ c cs, natChars n = c :: cs ∧ '0' ≤ c ∧ c ≤ '9' := by
  cases hn : natChars n with
  | nil => exact absurd hn (natCharsF_ne_nil n n)
  | cons c cs =>
    have hm : c ∈ natChars n := by rw [hn]; exact List.mem_cons_self c cs
    exact ⟨c, cs, rfl, natCharsF_mem _ _ _ hm⟩

theorem ser_head (J : Json) : ∃ c cs, serializeJson J = c :: cs ∧
    (c = '"' ∨ c = '\x7b' ∨ c = '[' ∨ c = 'n' ∨ c = 't' ∨ c = 'f' ∨ c = '-' ∨
     ('0' ≤ c ∧ c ≤ '9')) := by
  cases J with
  | nul => exact ⟨'n', _, rfl, by simp⟩
  | bool b => cases b
              · exact ⟨'f', _, rfl, by simp⟩
              · exact ⟨'t', _, rfl, by simp⟩
  | num n =>
    simp only [serializeJson, intChars]
    split
    · exact ⟨'-', _, rfl, by simp⟩
    · obtain ⟨c, cs, heq, hd⟩ := natChars_head n.natAbs
      exact ⟨c, cs, heq, by simp [hd]⟩
  | str s => exact ⟨'"', _, rfl, by simp⟩
  | arr xs => exact ⟨'[', _, rfl, by simp⟩
  | obj fs => exact ⟨'\x7b', _, rfl, by simp⟩

theorem ser_head_facts {c : Char}
    (h : c = '"' ∨ c = '\x7b' ∨ c = '[' ∨ c = 'n' ∨ c = 't' ∨ c = 'f' ∨ c = '-' ∨
      ('0' ≤ c ∧ c ≤ '9')) :
    isJsWs c = false ∧ isJsonWs c = false ∧ c ≠ '\x7d' ∧ c ≠ ']' ∧ c ≠ ',' ∧
    c ≠ ':' := by
  rcases h with h | h | h | h | h | h | h | h
  all_goals first
    | (subst h; decide)
    | (obtain ⟨d1, d2, d3, d4, d5, d6, d7, d8, d9, d10, d11, d12, d13⟩ := digit_facts h
       exact ⟨d10, d11, d7, d9, d4, d5⟩)

theorem plainL_cons {x : Json} {tl : JsonL} (h : plainL (.cons x tl) = true) :
    plainJson x = true ∧ plainL tl = true := by
  simp only [plainL, Bool.and_eq_true] at h
  exact h

theorem plainF_cons {k : Str} {v : Json} {tl : JsonF}
    (h : plainF (.cons k v tl) = true) :
    plainStr k = true ∧ tl.hasKey k = false ∧ plainJson v = true ∧ plainF tl = true := by
  simp only [plainF, Bool.and_eq_true, Bool.not_eq_true'] at h
  exact ⟨h.1.1.1, h.1.1.2, h.1.2, h.2⟩

theorem plainStr_mem {s : Str} (h : plainStr s = true) {c : Char} (hc : c ∈ s) :
    plainChar c = true := by
  simp only [plainStr, List.all_eq_true] at h
  exact h c hc

mutual
theorem ser_noBT_J (J : Json) (hp : plainJson J = true) :
    ∀ c ∈ serializeJson J, c ≠ backtick := by
  cases J with
  | nul =>
    intro c hc
    replace hc : c ∈ ['n', 'u', 'l', 'l'] := hc
    fin_cases hc <;> decide
  | bool b =>
    cases b
    · intro c hc
      replace hc : c ∈ ['f', 'a', 'l', 's', 'e'] := hc
      fin_cases hc <;> decide
    · intro c hc
      replace hc : c ∈ ['t', 'r', 'u', 'e'] := hc
      fin_cases hc <;> decide
  | num n =>
    intro c hc
    rcases intChars_mem n c hc with h | h
    · subst h; decide
    · exact (digit_facts h).2.2.1
  | str s =>
    intro c hc
    simp only [plainJson] at hp
    simp only [serializeJson, escapeStr_plain hp] at hc
    rcases List.mem_cons.mp hc with h | h
    · subst h; decide
    · rcases List.mem_append.mp h with h1 | h1
      · exact (plainChar_facts (plainStr_mem hp h1)).2.2.2.1
      · simp at h1; subst h1; decide
  | arr xs =>
    intro c hc
    simp only [serializeJson] at hc
    rcases List.mem_cons.mp hc with h | h
    · subst h; decide
    · rcases List.mem_append.mp h with h1 | h1
      · exact ser_noBT_L xs hp c h1
      · simp at h1; subst h1; decide
  | obj fs =>
    intro c hc
    simp only [serializeJson] at hc
    rcases List.mem_cons.mp hc with h | h
    · subst h; decide
    · rcases List.mem_append.mp h with h1 | h1
      · exact ser_noBT_F fs hp c h1
      · simp at h1; subst h1; decide
theorem ser_noBT_L (xs : JsonL) (hp : plainL xs = true) :
    ∀ c ∈ serializeItems xs, c ≠ backtick := by
  cases xs with
  | nil => intro c hc; simp [serializeItems] at hc
  | cons x tl =>
    cases tl with
    | nil =>
      simpa only [serializeItems] using ser_noBT_J x (plainL_cons hp).1
    | cons y ttl =>
      intro c hc
      simp only [serializeItems] at hc
      rcases List.mem_append.mp hc with h1 | h1
      · exact ser_noBT_J x (plainL_cons hp).1 c h1
      · rcases List.mem_cons.mp h1 with h2 | h2
        · subst h2; decide
        · exact ser_noBT_L (.cons y ttl) (plainL_cons hp).2 c h2
theorem ser_noBT_F (fs : JsonF) (hp : plainF fs = true) :
    ∀ c ∈ serializeFields fs, c ≠ backtick := by
  cases fs with
  | nil => intro c hc; simp [serializeFields] at hc
  | cons k v tl =>
    obtain ⟨hk, hnk, hv, htl⟩ := plainF_cons hp
    have hkey : ∀ c ∈ '"' :: escapeStr k ++ '"' :: ':' :: serializeJson v, c ≠ backtick := by
      intro c hc
      rw [escapeStr_plain hk] at hc
      rcases List.mem_cons.mp hc with h | h
      · subst h; decide
      · rcases List.mem_append.mp h with h1 | h1
        · exact (plainChar_facts (plainStr_mem hk h1)).2.2.2.1
        · rcases List.mem_cons.mp h1 with h2 | h2
          · subst h2; decide
          · rcases List.mem_cons.mp h2 with h3 | h3
            · subst h3; decide
            · exact ser_noBT_J v hv c h3
    cases tl with
    | nil => simpa only [serializeFields] using hkey
    | cons l w ttl =>
      intro c hc
      simp only [serializeFields] at hc
      rcases List.mem_append.mp hc with h1 | h1
      · rcases List.mem_cons.mp h1 with h2 | h2
        · subst h2; decide
        · rcases List.mem_append.mp h2 with h3 | h3
          · rw [escapeStr_plain hk] at h3
            exact (plainChar_facts (plainStr_mem hk h3)).2.2.2.1
          · rcases List.mem_cons.mp h3 with h4 | h4
            · subst h4; decide
            · rcases List.mem_cons.mp h4 with h5 | h5
              · subst h5; decide
              · exact ser_noBT_J v hv c h5
      · rcases List.mem_cons.mp h1 with h2 | h2
        · subst h2; decide
        · exact ser_noBT_F (.cons l w ttl) htl c h2
end

theorem fenceGo_chunk (allow : Bool) : ∀ (a b : Str), (∀ c ∈ a, c ≠ backtick) →
    fenceGo allow 0 (a ++ b) = a ++ fenceGo allow 0 b := by
  intro a
  induction a with
  | nil => intro b _; rfl
  | cons c a' ih =>
    intro b hbt
    have hc : c ≠ backtick := hbt c (List.mem_cons_self c a')
    simp only [List.cons_append, fenceGo]
    rw [if_neg (by simp), if_neg (by simp [hc])]
    exact congrArg (c :: ·) (ih b (fun d hd => hbt d (List.mem_cons_of_mem c hd)))

theorem fenceGo_id (allow : Bool) (s : Str) (h : ∀ c ∈ s, c ≠ backtick) :
    fenceGo allow 0 s = s := by
  have h1 := fenceGo_chunk allow s [] h
  rw [List.append_nil] at h1
  rw [h1]
  rw [show fenceGo allow 0 [] = [] from rfl, List.append_nil]

theorem jsTrim_id_pair (c1 c2 : Char) (mid : Str) (h1 : isJsWs c1 = false)
    (h2 : isJsWs c2 = false) : jsTrim (c1 :: mid ++ [c2]) = c1 :: mid ++ [c2] := by
  unfold jsTrim
  have e1 : List.dropWhile isJsWs (c1 :: (mid ++ [c2])) = c1 :: (mid ++ [c2]) :=
    List.dropWhile_cons_of_neg (by simp [h1])
  rw [show (c1 :: mid ++ [c2]) = c1 :: (mid ++ [c2]) from rfl, e1]
  have e2 : (c1 :: (mid ++ [c2])).reverse = c2 :: (mid.reverse ++ [c1]) := by simp
  rw [e2]
  rw [List.dropWhile_cons_of_neg (by simp [h2])]
  simp

theorem jsTrim_id_head_last (s : Str) (hne : s ≠ [])
    (hh : isJsWs (s.headD ' ') = false) (hl : isJsWs (s.getLastD ' ') = false) :
    jsTrim s = s := by
  rcases s with _ | ⟨c, rest⟩
  · exact absurd rfl hne
  · rcases hlast : rest.reverse with _ | ⟨c2, mid⟩
    · have hrnil : rest = [] := by
        have := congrArg List.reverse hlast
        simpa using this
      subst hrnil
      simp only [List.headD] at hh
      unfold jsTrim
      rw [List.dropWhile_cons_of_neg (by simp [hh])]
      simp only [List.dropWhile_nil, List.reverse_cons, List.reverse_nil, List.nil_append]
      rw [List.dropWhile_cons_of_neg (by simp [hh])]
      simp
    · have hrest : rest = mid.reverse ++ [c2] := by
        have := congrArg List.reverse hlast
        simpa using this
      subst hrest
      have hsplit : c :: (mid.reverse ++ [c2]) = (c :: mid.reverse) ++ [c2] := by simp
      have hlval : (c :: (mid.reverse ++ [c2])).getLastD ' ' = c2 := by
        rw [List.getLastD_eq_getLast?, hsplit, List.getLast?_concat]
        rfl
      rw [hlval] at hl
      simp only [List.headD] at hh
      have := jsTrim_id_pair c c2 mid.reverse hh hl
      simpa using this

theorem extract_id (mid : Str) :
    extractJsonSlice ('\x7b' :: mid ++ ['\x7d']) = (some ('\x7b' :: mid ++ ['\x7d']), false) := by
  have hidx : indexOfChar ('\x7b' :: mid ++ ['\x7d']) '\x7b' = some 0 := by
    simp [indexOfChar, List.findIdx?_cons]
  have hrev : ('\x7b' :: mid ++ ['\x7d']).reverse = '\x7d' :: ('\x7b' :: mid).reverse := by
    simp
  have hlast : lastIndexOfChar ('\x7b' :: mid ++ ['\x7d']) '\x7d' =
      some (mid.length + 1) := by
    simp only [lastIndexOfChar, hrev]
    rw [List.findIdx?_cons]
    simp
  simp only [extractJsonSlice, hidx, hlast]
  rw [if_neg (by omega)]
  simp only [List.drop_zero]
  have harith : mid.length + 1 + 1 - 0 = mid.length + 2 := by omega
  rw [harith]
  have e : List.take (mid.length + 2) ('\x7b' :: mid ++ ['\x7d']) = '\x7b' :: mid ++ ['\x7d'] :=
    List.take_of_length_le (by simp)
  simp only [e]
  simp

theorem rtc_step_inert (esc : Bool) (c : Char) (rest : Str) (h1 : c ≠ '"') (h2 : c ≠ ',') :
    rtcGo false esc (c :: rest) =
      (c :: (rtcGo false esc rest).1, (rtcGo false esc rest).2) := by
  simp only [rtcGo]
  rw [if_neg (by simp), if_neg (by simp [h1]), if_neg (by simp [h2])]

theorem rtc_step_quote (esc : Bool) (rest : Str) :
    rtcGo false esc ('"' :: rest) =
      ('"' :: (rtcGo true esc rest).1, (rtcGo true esc rest).2) := by
  simp only [rtcGo]
  rw [if_neg (by simp), if_pos trivial]

theorem rtc_step_comma_keep (esc : Bool) (c0 : Char) (rest' : Str)
    (hw : isJsWs c0 = false) (h1 : c0 ≠ '\x7d') (h2 : c0 ≠ ']') :
    rtcGo false esc (',' :: c0 :: rest') =
      (',' :: (rtcGo false esc (c0 :: rest')).1, (rtcGo false esc (c0 :: rest')).2) := by
  simp only [rtcGo]
  rw [if_neg (by simp), if_neg (by simp), if_pos trivial]
  rw [List.takeWhile_cons_of_neg (by simp [hw])]
  simp only [List.length_nil, List.drop_zero]
  split
  · next heq => rw [List.cons.injEq] at heq; exact absurd heq.1 h1
  · next heq => rw [List.cons.injEq] at heq; exact absurd heq.1 h2
  · rfl

theorem rtc_str (s : Str) (hp : plainStr s = true) : ∀ rest : Str,
    rtcGo true false (s ++ '"' :: rest) =
      (s ++ '"' :: (rtcGo false false rest).1, (rtcGo false false rest).2) := by
  induction s with
  | nil =>
    intro rest
    simp [rtcGo]
  | cons c s' ih =>
    intro rest
    simp only [plainStr, List.all_cons, Bool.and_eq_true] at hp
    have hq : c ≠ '"' := (plainChar_facts hp.1).2.1
    have hb : c ≠ '\\' := (plainChar_facts hp.1).2.2.1
    have step : rtcGo true false (c :: (s' ++ '"' :: rest)) =
        (c :: (rtcGo true false (s' ++ '"' :: rest)).1,
         (rtcGo true false (s' ++ '"' :: rest)).2) := by
      simp [rtcGo, hq, hb]
    have hih := ih hp.2 rest
    simp only [List.cons_append, step, hih]

theorem rtcInert_nil : RtcInert [] := by
  intro rest
  simp

theorem rtcInert_append {a b : Str} (ha : RtcInert a) (hb : RtcInert b) :
    RtcInert (a ++ b) := by
  intro rest
  rw [List.append_assoc, ha (b ++ rest), hb rest, List.append_assoc]

theorem rtcInert_single {c : Char} (h1 : c ≠ '"') (h2 : c ≠ ',') :
    RtcInert [c] := by
  intro rest
  simpa using rtc_step_inert false c rest h1 h2

theorem rtcInert_of_all {s : Str} (h : ∀ c ∈ s, c ≠ '"' ∧ c ≠ ',') :
    RtcInert s := by
  induction s with
  | nil => exact rtcInert_nil
  | cons c cs ih =>
    intro rest
    have h1 := (h c (List.mem_cons_self c cs)).1
    have h2 := (h c (List.mem_cons_self c cs)).2
    have hstep := rtc_step_inert false c (cs ++ rest) h1 h2
    have htl := ih (fun d hd => h d (List.mem_cons_of_mem c hd)) rest
    simp only [List.cons_append, hstep, htl]

theorem rtcInert_strlit {s : Str} (hp : plainStr s = true) :
    RtcInert ('"' :: s ++ ['"']) := by
  intro rest
  have e : ('"' :: s ++ ['"']) ++ rest = '"' :: (s ++ '"' :: rest) := by simp
  rw [e, rtc_step_quote false (s ++ '"' :: rest), rtc_str s hp rest]
  simp

theorem rtcInert_comma {c0 : Char} {t : Str}
    (hw : isJsWs c0 = false) (h1 : c0 ≠ '\x7d') (h2 : c0 ≠ ']')
    (ht : RtcInert (c0 :: t)) : RtcInert (',' :: c0 :: t) := by
  intro rest
  have e : (',' :: c0 :: t) ++ rest = ',' :: c0 :: (t ++ rest) := by simp
  rw [e, rtc_step_comma_keep false c0 (t ++ rest) hw h1 h2]
  have := ht rest
  simp only [List.cons_append] at this
  rw [this]
  simp

theorem serItems_decomp (y : Json) (tl : JsonL) :
    ∃ t, serializeItems (.cons y tl) = serializeJson y ++ t := by
  cases tl with
  | nil => exact ⟨[], (List.append_nil _).symm⟩
  | cons a b => exact ⟨_, rfl⟩

theorem serFields_decomp (k : Str) (v : Json) (tl : JsonF) :
    ∃ t, serializeFields (.cons k v tl) = '"' :: t := by
  cases tl with
  | nil => exact ⟨_, rfl⟩
  | cons l w b => exact ⟨_, rfl⟩

theorem rtcInert_key {k : Str} (hk : plainStr k = true) {J : Json}
    (hJ : RtcInert (serializeJson J)) :
    RtcInert ('"' :: escapeStr k ++ '"' :: ':' :: serializeJson J) := by
  have e : '"' :: escapeStr k ++ '"' :: ':' :: serializeJson J =
      ('"' :: k ++ ['"']) ++ ([':'] ++ serializeJson J) := by
    rw [escapeStr_plain hk]; simp
  rw [e]
  exact rtcInert_append (rtcInert_strlit hk)
    (rtcInert_append (rtcInert_single (by decide) (by decide)) hJ)

mutual
theorem rtc_chunk_J (J : Json) (hp : plainJson J = true) :
    RtcInert (serializeJson J) := by
  cases J with
  | nul => exact rtcInert_of_all (by decide)
  | bool b => cases b
              · exact rtcInert_of_all (by decide)
              · exact rtcInert_of_all (by decide)
  | num n =>
    refine rtcInert_of_all (fun c hc => ?h)
    rcases intChars_mem n c hc with h | h
    · subst h; exact ⟨by decide, by decide⟩
    · obtain ⟨d1, d2, d3, d4, -⟩ := digit_facts h
      exact ⟨d1, d4⟩
  | str s =>
    simp only [plainJson] at hp
    show RtcInert ('"' :: escapeStr s ++ ['"'])
    rw [escapeStr_plain hp]
    exact rtcInert_strlit hp
  | arr xs =>
    show RtcInert (['['] ++ (serializeItems xs ++ [']']))
    exact rtcInert_append (rtcInert_single (by decide) (by decide))
      (rtcInert_append (rtc_chunk_L xs hp) (rtcInert_single (by decide) (by decide)))
  | obj fs =>
    show RtcInert (['\x7b'] ++ (serializeFields fs ++ ['\x7d']))
    exact rtcInert_append (rtcInert_single (by decide) (by decide))
      (rtcInert_append (rtc_chunk_F fs hp) (rtcInert_single (by decide) (by decide)))
theorem rtc_chunk_L (xs : JsonL) (hp : plainL xs = true) :
    RtcInert (serializeItems xs) := by
  cases xs with
  | nil => exact rtcInert_nil
  | cons x tl =>
    cases tl with
    | nil => exact rtc_chunk_J x (plainL_cons hp).1
    | cons y ttl =>
      have hx := rtc_chunk_J x (plainL_cons hp).1
      have htl := rtc_chunk_L (.cons y ttl) (plainL_cons hp).2
      obtain ⟨t, ht⟩ := serItems_decomp y ttl
      obtain ⟨c0, cs, hy, hh⟩ := ser_head y
      obtain ⟨hw, -, h7, h9, -, -⟩ := ser_head_facts hh
      have e : serializeItems (.cons y ttl) = c0 :: (cs ++ t) := by
        rw [ht, hy]; rfl
      rw [e] at htl
      have hc := rtcInert_comma hw h7 h9 htl
      rw [← e] at hc
      exact rtcInert_append hx hc
theorem rtc_chunk_F (fs : JsonF) (hp : plainF fs = true) :
    RtcInert (serializeFields fs) := by
  cases fs with
  | nil => exact rtcInert_nil
  | cons k v tl =>
    obtain ⟨hk, hnk, hv, htlp⟩ := plainF_cons hp
    have hkey := rtcInert_key hk (rtc_chunk_J v hv)
    cases tl with
    | nil => exact hkey
    | cons l w ttl =>
      have htl := rtc_chunk_F (.cons l w ttl) htlp
      obtain ⟨t, ht⟩ := serFields_decomp l w ttl
      rw [ht] at htl
      have hc := rtcInert_comma (by decide) (by decide) (by decide) htl
      rw [← ht] at hc
      have e : serializeFields (.cons k v (.cons l w ttl)) =
          ('"' :: escapeStr k ++ '"' :: ':' :: serializeJson v) ++
            (',' :: serializeFields (.cons l w ttl)) := by
        simp [serializeFields]
      rw [e]
      exact rtcInert_append hkey hc
end

theorem close_step_inert {c : Char} (h1 : c ≠ '"') (h2 : c ≠ '\x7b') (h3 : c ≠ '\x7d')
    (d : Int) (cs : Str) : closeScan false false d (c :: cs) = closeScan false false d cs := by
  simp only [closeScan]
  rw [if_neg (by simp), if_neg (by simp [h1])]
  simp [h2, h3]

theorem close_str {s : Str} (hp : plainStr s = true) : ∀ (d : Int) (rest : Str),
    closeScan true false d (s ++ '"' :: rest) = closeScan false false d rest := by
  induction s with
  | nil =>
    intro d rest
    simp [closeScan]
  | cons c s' ih =>
    intro d rest
    simp only [plainStr, List.all_cons, Bool.and_eq_true] at hp
    have hq : c ≠ '"' := (plainChar_facts hp.1).2.1
    have hb : c ≠ '\\' := (plainChar_facts hp.1).2.2.1
    have step : closeScan true false d (c :: (s' ++ '"' :: rest)) =
        closeScan true false d (s' ++ '"' :: rest) := by
      simp [closeScan, hq, hb]
    rw [List.cons_append, step, ih hp.2 d rest]

theorem closeInert_nil : CloseInert [] := by
  intro d rest
  simp

theorem closeInert_append {a b : Str} (ha : CloseInert a) (hb : CloseInert b) :
    CloseInert (a ++ b) := by
  intro d rest
  rw [List.append_assoc, ha d (b ++ rest), hb d rest]

theorem closeInert_of_all {s : Str}
    (h : ∀ c ∈ s, c ≠ '"' ∧ c ≠ '\x7b' ∧ c ≠ '\x7d') : CloseInert s := by
  induction s with
  | nil => exact closeInert_nil
  | cons c cs ih =>
    intro d rest
    obtain ⟨h1, h2, h3⟩ := h c (List.mem_cons_self c cs)
    rw [List.cons_append, close_step_inert h1 h2 h3,
      ih (fun x hx => h x (List.mem_cons_of_mem c hx)) d rest]

theorem closeInert_strlit {s : Str} (hp : plainStr s = true) :
    CloseInert ('"' :: s ++ ['"']) := by
  intro d rest
  have e : ('"' :: s ++ ['"']) ++ rest = '"' :: (s ++ '"' :: rest) := by simp
  rw [e]
  have step : closeScan false false d ('"' :: (s ++ '"' :: rest)) =
      closeScan true false d (s ++ '"' :: rest) := by
    simp [closeScan]
  rw [step, close_str hp d rest]

theorem closeInert_braces {body : Str} (hb : CloseInert body) :
    CloseInert ('\x7b' :: body ++ ['\x7d']) := by
  intro d rest
  have e : ('\x7b' :: body ++ ['\x7d']) ++ rest = '\x7b' :: (body ++ '\x7d' :: rest) := by simp
  rw [e]
  have s1 : closeScan false false d ('\x7b' :: (body ++ '\x7d' :: rest)) =
      closeScan false false (d + 1) (body ++ '\x7d' :: rest) := by
    simp [closeScan]
  have s2 : closeScan false false (d + 1) ('\x7d' :: rest) =
      closeScan false false d rest := by
    simp only [closeScan]
    rw [if_neg (by simp), if_neg (by simp), if_pos trivial, if_neg (by decide)]
    norm_num
  rw [s1, hb (d + 1) ('\x7d' :: rest), s2]

mutual
theorem close_chunk_J (J : Json) (hp : plainJson J = true) :
    CloseInert (serializeJson J) := by
  cases J with
  | nul => exact closeInert_of_all (by decide)
  | bool b => cases b
              · exact closeInert_of_all (by decide)
              · exact closeInert_of_all (by decide)
  | num n =>
    refine closeInert_of_all (fun c hc => ?h)
    rcases intChars_mem n c hc with h | h
    · subst h; exact ⟨by decide, by decide, by decide⟩
    · obtain ⟨d1, -, -, -, -, d6, d7, -⟩ := digit_facts h
      exact ⟨d1, d6, d7⟩
  | str s =>
    simp only [plainJson] at hp
    show CloseInert ('"' :: escapeStr s ++ ['"'])
    rw [escapeStr_plain hp]
    exact closeInert_strlit hp
  | arr xs =>
    show CloseInert (['['] ++ (serializeItems xs ++ [']']))
    exact closeInert_append (closeInert_of_all (by decide))
      (closeInert_append (close_chunk_L xs hp) (closeInert_of_all (by decide)))
  | obj fs =>
    exact closeInert_braces (close_chunk_F fs hp)
theorem close_chunk_L (xs : JsonL) (hp : plainL xs = true) :
    CloseInert (serializeItems xs) := by
  cases xs with
  | nil => exact closeInert_nil
  | cons x tl =>
    cases tl with
    | nil => exact close_chunk_J x (plainL_cons hp).1
    | cons y ttl =>
      show CloseInert (serializeJson x ++ ([','] ++ serializeItems (.cons y ttl)))
      exact closeInert_append (close_chunk_J x (plainL_cons hp).1)
        (closeInert_append (closeInert_of_all (by decide))
          (close_chunk_L (.cons y ttl) (plainL_cons hp).2))
theorem close_chunk_F (fs : JsonF) (hp : plainF fs = true) :
    CloseInert (serializeFields fs) := by
  cases fs with
  | nil => exact closeInert_nil
  | cons k v tl =>
    obtain ⟨hk, hnk, hv, htlp⟩ := plainF_cons hp
    have hkey : CloseInert ('"' :: escapeStr k ++ '"' :: ':' :: serializeJson v) := by
      have e : '"' :: escapeStr k ++ '"' :: ':' :: serializeJson v =
          ('"' :: k ++ ['"']) ++ ([':'] ++ serializeJson v) := by
        rw [escapeStr_plain hk]; simp
      rw [e]
      exact closeInert_append (closeInert_strlit hk)
        (closeInert_append (closeInert_of_all (by decide)) (close_chunk_J v hv))
    cases tl with
    | nil => exact hkey
    | cons l w ttl =>
      have e : serializeFields (.cons k v (.cons l w ttl)) =
          ('"' :: escapeStr k ++ '"' :: ':' :: serializeJson v) ++
            ([','] ++ serializeFields (.cons l w ttl)) := by
        simp [serializeFields]
      rw [e]
      exact closeInert_append hkey
        (closeInert_append (closeInert_of_all (by decide))
          (close_chunk_F (.cons l w ttl) htlp))
end

theorem mrg_step_inert {c : Char} (h1 : c ≠ '"') (h2 : c ≠ '\x7b') (h3 : c ≠ '\x7d')
    (h4 : c ≠ '[') (h5 : c ≠ ']') (d : Int) (cs : Str) :
    mrgGo ⟨false, false, d, 0⟩ (c :: cs) =
      (c :: (mrgGo ⟨false, false, d, 0⟩ cs).1, (mrgGo ⟨false, false, d, 0⟩ cs).2) := by
  simp only [mrgGo]
  rw [if_neg (by simp), if_neg (by simp), if_neg (by simp [h1]), if_neg (by simp [h2]),
    if_neg (by simp [h3]), if_neg (by simp [h4]), if_neg (by simp [h5])]

theorem mrg_step_quote (d : Int) (cs : Str) :
    mrgGo ⟨false, false, d, 0⟩ ('"' :: cs) =
      ('"' :: (mrgGo ⟨true, false, d, 0⟩ cs).1, (mrgGo ⟨true, false, d, 0⟩ cs).2) := by
  simp only [mrgGo]
  rw [if_neg (by simp), if_neg (by simp), if_pos trivial]

theorem mrg_str {s : Str} (hp : plainStr s = true) : ∀ (d : Int) (rest : Str),
    mrgGo ⟨true, false, d, 0⟩ (s ++ '"' :: rest) =
      (s ++ '"' :: (mrgGo ⟨false, false, d, 0⟩ rest).1,
       (mrgGo ⟨false, false, d, 0⟩ rest).2) := by
  induction s with
  | nil =>
    intro d rest
    simp [mrgGo]
  | cons c s' ih =>
    intro d rest
    simp only [plainStr, List.all_cons, Bool.and_eq_true] at hp
    have hq : c ≠ '"' := (plainChar_facts hp.1).2.1
    have hb : c ≠ '\\' := (plainChar_facts hp.1).2.2.1
    have step : mrgGo ⟨true, false, d, 0⟩ (c :: (s' ++ '"' :: rest)) =
        (c :: (mrgGo ⟨true, false, d, 0⟩ (s' ++ '"' :: rest)).1,
         (mrgGo ⟨true, false, d, 0⟩ (s' ++ '"' :: rest)).2) := by
      simp [mrgGo, hq, hb]
    have hih := ih hp.2 d rest
    simp only [List.cons_append, step, hih]

theorem mrg_step_open (d : Int) (cs : Str) :
    mrgGo ⟨false, false, d, 0⟩ ('\x7b' :: cs) =
      ('\x7b' :: (mrgGo ⟨false, false, d + 1, 0⟩ cs).1,
       (mrgGo ⟨false, false, d + 1, 0⟩ cs).2) := by
  simp only [mrgGo]
  rw [if_neg (by simp), if_neg (by simp), if_neg (by simp), if_pos trivial]

theorem mrg_step_close_deep {d : Int} (hd : d ≠ 1) (cs : Str) :
    mrgGo ⟨false, false, d, 0⟩ ('\x7d' :: cs) =
      ('\x7d' :: (mrgGo ⟨false, false, d - 1, 0⟩ cs).1,
       (mrgGo ⟨false, false, d - 1, 0⟩ cs).2) := by
  simp only [mrgGo]
  rw [if_neg (by simp), if_neg (by simp), if_neg (by simp), if_neg (by simp),
    if_pos trivial, if_neg (by simpa using hd)]

theorem mrg_step_lbrk (d : Int) (cs : Str) :
    mrgGo ⟨false, false, d, 0⟩ ('[' :: cs) =
      ('[' :: (mrgGo ⟨false, false, d + 1, 0⟩ cs).1,
       (mrgGo ⟨false, false, d + 1, 0⟩ cs).2) := by
  simp only [mrgGo]
  rw [if_neg (by simp), if_neg (by simp), if_neg (by simp), if_neg (by simp),
    if_neg (by simp), if_pos trivial]

theorem mrg_step_rbrk (d : Int) (cs : Str) :
    mrgGo ⟨false, false, d, 0⟩ (']' :: cs) =
      (']' :: (mrgGo ⟨false, false, d - 1, 0⟩ cs).1,
       (mrgGo ⟨false, false, d - 1, 0⟩ cs).2) := by
  simp only [mrgGo]
  rw [if_neg (by simp), if_neg (by simp), if_neg (by simp), if_neg (by simp),
    if_neg (by simp), if_neg (by simp), if_pos trivial]

theorem mrgInert_nil : MrgInert [] := by
  intro d hd rest
  simp

theorem mrgInert_append {a b : Str} (ha : MrgInert a) (hb : MrgInert b) :
    MrgInert (a ++ b) := by
  intro d hd rest
  rw [List.append_assoc, ha d hd (b ++ rest), hb d hd rest, List.append_assoc]

theorem mrgInert_of_all {s : Str}
    (h : ∀ c ∈ s, c ≠ '"' ∧ c ≠ '\x7b' ∧ c ≠ '\x7d' ∧ c ≠ '[' ∧ c ≠ ']') :
    MrgInert s := by
  induction s with
  | nil => exact mrgInert_nil
  | cons c cs ih =>
    intro d hd rest
    obtain ⟨h1, h2, h3, h4, h5⟩ := h c (List.mem_cons_self c cs)
    rw [List.cons_append, mrg_step_inert h1 h2 h3 h4 h5 d (cs ++ rest),
      ih (fun x hx => h x (List.mem_cons_of_mem c hx)) d hd rest]
    simp

theorem mrgInert_strlit {s : Str} (hp : plainStr s = true) :
    MrgInert ('"' :: s ++ ['"']) := by
  intro d hd rest
  have e : ('"' :: s ++ ['"']) ++ rest = '"' :: (s ++ '"' :: rest) := by simp
  rw [e, mrg_step_quote d (s ++ '"' :: rest), mrg_str hp d rest]
  simp

theorem mrgInert_braces {body : Str} (hb : MrgInert body) :
    MrgInert ('\x7b' :: body ++ ['\x7d']) := by
  intro d hd rest
  have e : ('\x7b' :: body ++ ['\x7d']) ++ rest = '\x7b' :: (body ++ '\x7d' :: rest) := by simp
  rw [e, mrg_step_open d (body ++ '\x7d' :: rest),
    hb (d + 1) (by omega) ('\x7d' :: rest),
    mrg_step_close_deep (show d + 1 ≠ 1 by omega) rest]
  have e2 : d + 1 - 1 = d := by omega
  rw [e2]
  simp

theorem mrgInert_brackets {body : Str} (hb : MrgInert body) :
    MrgInert ('[' :: body ++ [']']) := by
  intro d hd rest
  have e : ('[' :: body ++ [']']) ++ rest = '[' :: (body ++ ']' :: rest) := by simp
  rw [e, mrg_step_lbrk d (body ++ ']' :: rest),
    hb (d + 1) (by omega) (']' :: rest), mrg_step_rbrk (d + 1) rest]
  have e2 : d + 1 - 1 = d := by omega
  rw [e2]
  simp

mutual
theorem mrg_chunk_J (J : Json) (hp : plainJson J = true) :
    MrgInert (serializeJson J) := by
  cases J with
  | nul => exact mrgInert_of_all (by decide)
  | bool b => cases b
              · exact mrgInert_of_all (by decide)
              · exact mrgInert_of_all (by decide)
  | num n =>
    refine mrgInert_of_all (fun c hc => ?h)
    rcases intChars_mem n c hc with h | h
    · subst h; exact ⟨by decide, by decide, by decide, by decide, by decide⟩
    · obtain ⟨d1, -, -, -, -, d6, d7, d8, d9, -⟩ := digit_facts h
      exact ⟨d1, d6, d7, d8, d9⟩
  | str s =>
    simp only [plainJson] at hp
    show MrgInert ('"' :: escapeStr s ++ ['"'])
    rw [escapeStr_plain hp]
    exact mrgInert_strlit hp
  | arr xs =>
    exact mrgInert_brackets (mrg_chunk_L xs hp)
  | obj fs =>
    exact mrgInert_braces (mrg_chunk_F fs hp)
theorem mrg_chunk_L (xs : JsonL) (hp : plainL xs = true) :
    MrgInert (serializeItems xs) := by
  cases xs with
  | nil => exact mrgInert_nil
  | cons x tl =>
    cases tl with
    | nil => exact mrg_chunk_J x (plainL_cons hp).1
    | cons y ttl =>
      show MrgInert (serializeJson x ++ ([','] ++ serializeItems (.cons y ttl)))
      exact mrgInert_append (mrg_chunk_J x (plainL_cons hp).1)
        (mrgInert_append (mrgInert_of_all (by decide))
          (mrg_chunk_L (.cons y ttl) (plainL_cons hp).2))
theorem mrg_chunk_F (fs : JsonF) (hp : plainF fs = true) :
    MrgInert (serializeFields fs) := by
  cases fs with
  | nil => exact mrgInert_nil
  | cons k v tl =>
    obtain ⟨hk, hnk, hv, htlp⟩ := plainF_cons hp
    have hkey : MrgInert ('"' :: escapeStr k ++ '"' :: ':' :: serializeJson v) := by
      have e : '"' :: escapeStr k ++ '"' :: ':' :: serializeJson v =
          ('"' :: k ++ ['"']) ++ ([':'] ++ serializeJson v) := by
        rw [escapeStr_plain hk]; simp
      rw [e]
      exact mrgInert_append (mrgInert_strlit hk)
        (mrgInert_append (mrgInert_of_all (by decide)) (mrg_chunk_J v hv))
    cases tl with
    | nil => exact hkey
    | cons l w ttl =>
      have e : serializeFields (.cons k v (.cons l w ttl)) =
          ('"' :: escapeStr k ++ '"' :: ':' :: serializeJson v) ++
            ([','] ++ serializeFields (.cons l w ttl)) := by
        simp [serializeFields]
      rw [e]
      exact mrgInert_append hkey
        (mrgInert_append (mrgInert_of_all (by decide))
          (mrg_chunk_F (.cons l w ttl) htlp))
end

theorem unw_step_inert {c : Char}
    (h1 : c ≠ '"') (h2 : c ≠ ',') (h3 : c ≠ '\x7b') (h4 : c ≠ '\x7d')
    (h5 : c ≠ '[') (h6 : c ≠ ']') (d : Int) (cs : Str) :
    unwGo ⟨false, false, d, none, false, 0⟩ (c :: cs) =
      (c :: (unwGo ⟨false, false, d, none, false, 0⟩ cs).1,
       (unwGo ⟨false, false, d, none, false, 0⟩ cs).2) := by
  simp only [unwGo]
  rw [if_neg (by simp), if_neg (by simp [h1]), if_neg (by simp [h2]),
    if_neg (by simp [h3]), if_neg (by simp [h3]), if_neg (by simp [h4]),
    if_neg (by simp [h5]), if_neg (by simp [h6])]
  rfl

theorem unw_step_quote (d : Int) (cs : Str) :
    unwGo ⟨false, false, d, none, false, 0⟩ ('"' :: cs) =
      ('"' :: (unwGo ⟨true, false, d, none, false, 0⟩ cs).1,
       (unwGo ⟨true, false, d, none, false, 0⟩ cs).2) := by
  simp only [unwGo]
  rw [if_neg (by simp), if_pos trivial]
  rfl

theorem unw_str {s : Str} (hp : plainStr s = true) : ∀ (d : Int) (rest : Str),
    unwGo ⟨true, false, d, none, false, 0⟩ (s ++ '"' :: rest) =
      (s ++ '"' :: (unwGo ⟨false, false, d, none, false, 0⟩ rest).1,
       (unwGo ⟨false, false, d, none, false, 0⟩ rest).2) := by
  induction s with
  | nil =>
    intro d rest
    simp [unwGo, unwTick]
  | cons c s' ih =>
    intro d rest
    simp only [plainStr, List.all_cons, Bool.and_eq_true] at hp
    have hq : c ≠ '"' := (plainChar_facts hp.1).2.1
    have hb : c ≠ '\\' := (plainChar_facts hp.1).2.2.1
    have step : unwGo ⟨true, false, d, none, false, 0⟩ (c :: (s' ++ '"' :: rest)) =
        (c :: (unwGo ⟨true, false, d, none, false, 0⟩ (s' ++ '"' :: rest)).1,
         (unwGo ⟨true, false, d, none, false, 0⟩ (s' ++ '"' :: rest)).2) := by
      simp [unwGo, hq, hb, unwTick]
    have hih := ih hp.2 d rest
    simp only [List.cons_append, step, hih]

theorem unw_step_open (d : Int) (cs : Str) :
    unwGo ⟨false, false, d, none, false, 0⟩ ('\x7b' :: cs) =
      ('\x7b' :: (unwGo ⟨false, false, d + 1, none, false, 0⟩ cs).1,
       (unwGo ⟨false, false, d + 1, none, false, 0⟩ cs).2) := by
  simp only [unwGo]
  rw [if_neg (by simp), if_neg (by simp), if_neg (by simp), if_neg (by simp),
    if_pos trivial]
  rfl

theorem unw_step_close (d : Int) (cs : Str) :
    unwGo ⟨false, false, d, none, false, 0⟩ ('\x7d' :: cs) =
      ('\x7d' :: (unwGo ⟨false, false, d - 1, none, false, 0⟩ cs).1,
       (unwGo ⟨false, false, d - 1, none, false, 0⟩ cs).2) := by
  simp only [unwGo]
  rw [if_neg (by simp), if_neg (by simp), if_neg (by simp), if_neg (by simp),
    if_neg (by simp), if_pos trivial, if_neg (by simp)]
  rfl

theorem unw_step_lbrk (d : Int) (cs : Str) :
    unwGo ⟨false, false, d, none, false, 0⟩ ('[' :: cs) =
      ('[' :: (unwGo ⟨false, false, d + 1, none, false, 0⟩ cs).1,
       (unwGo ⟨false, false, d + 1, none, false, 0⟩ cs).2) := by
  simp only [unwGo]
  rw [if_neg (by simp), if_neg (by simp), if_neg (by simp), if_neg (by simp),
    if_neg (by simp), if_neg (by simp), if_pos trivial]
  rfl

theorem unw_step_rbrk (d : Int) (cs : Str) :
    unwGo ⟨false, false, d, none, false, 0⟩ (']' :: cs) =
      (']' :: (unwGo ⟨false, false, d - 1, none, false, 0⟩ cs).1,
       (unwGo ⟨false, false, d - 1, none, false, 0⟩ cs).2) := by
  simp only [unwGo]
  rw [if_neg (by simp), if_neg (by simp), if_neg (by simp), if_neg (by simp),
    if_neg (by simp), if_neg (by simp), if_neg (by simp), if_pos trivial]
  rfl

theorem unw_step_comma_deep {d : Int} (hd : d ≠ 1) (cs : Str) :
    unwGo ⟨false, false, d, none, false, 0⟩ (',' :: cs) =
      (',' :: (unwGo ⟨false, false, d, none, false, 0⟩ cs).1,
       (unwGo ⟨false, false, d, none, false, 0⟩ cs).2) := by
  simp only [unwGo]
  rw [if_neg (by simp), if_neg (by simp), if_neg (by simp [hd]), if_neg (by simp),
    if_neg (by simp), if_neg (by simp), if_neg (by simp), if_neg (by simp)]
  rfl

theorem unw_step_comma_look {c0 : Char} (hw : isJsWs c0 = false) (hb : c0 ≠ '\x7b')
    (d : Int) (rest' : Str) :
    unwGo ⟨false, false, d, none, false, 0⟩ (',' :: c0 :: rest') =
      (',' :: (unwGo ⟨false, false, d, none, false, 0⟩ (c0 :: rest')).1,
       (unwGo ⟨false, false, d, none, false, 0⟩ (c0 :: rest')).2) := by
  by_cases hd : d = 1
  · subst hd
    simp only [unwGo]
    rw [if_neg (by simp), if_neg (by simp), if_pos (by simp)]
    rw [List.takeWhile_cons_of_neg (by simp [hw])]
    simp only [List.length_nil, List.drop_zero]
    split
    · next heq => rw [List.cons.injEq] at heq; exact absurd heq.1 hb
    · rfl
  · exact unw_step_comma_deep hd (c0 :: rest')

theorem unwInert_nil (lo : Int) : UnwInertFrom lo [] := by
  intro d hd rest
  simp

theorem unwInert_append {lo : Int} {a b : Str}
    (ha : UnwInertFrom lo a) (hb : UnwInertFrom lo b) : UnwInertFrom lo (a ++ b) := by
  intro d hd rest
  rw [List.append_assoc, ha d hd (b ++ rest), hb d hd rest, List.append_assoc]

theorem unwInert_weaken {lo lo' : Int} (h : lo ≤ lo') {s : Str}
    (hs : UnwInertFrom lo s) : UnwInertFrom lo' s := by
  intro d hd rest
  exact hs d (le_trans h hd) rest

theorem unwInert_of_all (lo : Int) {s : Str}
    (h : ∀ c ∈ s, c ≠ '"' ∧ c ≠ ',' ∧ c ≠ '\x7b' ∧ c ≠ '\x7d' ∧ c ≠ '[' ∧ c ≠ ']') :
    UnwInertFrom lo s := by
  induction s with
  | nil => exact unwInert_nil lo
  | cons c cs ih =>
    intro d hd rest
    obtain ⟨h1, h2, h3, h4, h5, h6⟩ := h c (List.mem_cons_self c cs)
    rw [List.cons_append, unw_step_inert h1 h2 h3 h4 h5 h6 d (cs ++ rest),
      ih (fun x hx => h x (List.mem_cons_of_mem c hx)) d hd rest]
    simp

theorem unwInert_strlit (lo : Int) {s : Str} (hp : plainStr s = true) :
    UnwInertFrom lo ('"' :: s ++ ['"']) := by
  intro d hd rest
  have e : ('"' :: s ++ ['"']) ++ rest = '"' :: (s ++ '"' :: rest) := by simp
  rw [e, unw_step_quote d (s ++ '"' :: rest), unw_str hp d rest]
  simp

theorem unwInert_braces {lo : Int} {body : Str} (hb : UnwInertFrom (lo + 1) body) :
    UnwInertFrom lo ('\x7b' :: body ++ ['\x7d']) := by
  intro d hd rest
  have e : ('\x7b' :: body ++ ['\x7d']) ++ rest = '\x7b' :: (body ++ '\x7d' :: rest) := by simp
  rw [e, unw_step_open d (body ++ '\x7d' :: rest),
    hb (d + 1) (by omega) ('\x7d' :: rest), unw_step_close (d + 1) rest]
  have e2 : d + 1 - 1 = d := by omega
  rw [e2]
  simp

theorem unwInert_brackets {lo : Int} {body : Str} (hb : UnwInertFrom (lo + 1) body) :
    UnwInertFrom lo ('[' :: body ++ [']']) := by
  intro d hd rest
  have e : ('[' :: body ++ [']']) ++ rest = '[' :: (body ++ ']' :: rest) := by simp
  rw [e, unw_step_lbrk d (body ++ ']' :: rest),
    hb (d + 1) (by omega) (']' :: rest), unw_step_rbrk (d + 1) rest]
  have e2 : d + 1 - 1 = d := by omega
  rw [e2]
  simp

theorem unwInert_comma_look {lo : Int} {c0 : Char} {t : Str}
    (hw : isJsWs c0 = false) (hb : c0 ≠ '\x7b')
    (ht : UnwInertFrom lo (c0 :: t)) : UnwInertFrom lo (',' :: c0 :: t) := by
  intro d hd rest
  have e : (',' :: c0 :: t) ++ rest = ',' :: c0 :: (t ++ rest) := by simp
  rw [e, unw_step_comma_look hw hb d (t ++ rest)]
  have := ht d hd rest
  simp only [List.cons_append] at this
  rw [this]
  simp

theorem unwInert_comma_deep {lo : Int} (h2 : (2 : Int) ≤ lo) {t : Str}
    (ht : UnwInertFrom lo t) : UnwInertFrom lo (',' :: t) := by
  intro d hd rest
  have e : (',' :: t) ++ rest = ',' :: (t ++ rest) := by simp
  rw [e, unw_step_comma_deep (show d ≠ 1 by omega) (t ++ rest), ht d hd rest]
  simp

mutual
theorem unw_chunk_J (J : Json) (hp : plainJson J = true) :
    UnwInertFrom 1 (serializeJson J) := by
  cases J with
  | nul => exact unwInert_of_all 1 (by decide)
  | bool b => cases b
              · exact unwInert_of_all 1 (by decide)
              · exact unwInert_of_all 1 (by decide)
  | num n =>
    refine unwInert_of_all 1 (fun c hc => ?h)
    rcases intChars_mem n c hc with h | h
    · subst h; exact ⟨by decide, by decide, by decide, by decide, by decide, by decide⟩
    · obtain ⟨d1, -, -, d4, -, d6, d7, d8, d9, -⟩ := digit_facts h
      exact ⟨d1, d4, d6, d7, d8, d9⟩
  | str s =>
    simp only [plainJson] at hp
    show UnwInertFrom 1 ('"' :: escapeStr s ++ ['"'])
    rw [escapeStr_plain hp]
    exact unwInert_strlit 1 hp
  | arr xs =>
    exact unwInert_brackets (unw_chunk_L xs hp)
  | obj fs =>
    exact unwInert_braces (unwInert_weaken (by omega) (unw_chunk_F fs hp))
theorem unw_chunk_L (xs : JsonL) (hp : plainL xs = true) :
    UnwInertFrom 2 (serializeItems xs) := by
  cases xs with
  | nil => exact unwInert_nil 2
  | cons x tl =>
    cases tl with
    | nil => exact unwInert_weaken (by omega) (unw_chunk_J x (plainL_cons hp).1)
    | cons y ttl =>
      show UnwInertFrom 2 (serializeJson x ++ (',' :: serializeItems (.cons y ttl)))
      exact unwInert_append (unwInert_weaken (by omega) (unw_chunk_J x (plainL_cons hp).1))
        (unwInert_comma_deep (by omega) (unw_chunk_L (.cons y ttl) (plainL_cons hp).2))
theorem unw_chunk_F (fs : JsonF) (hp : plainF fs = true) :
    UnwInertFrom 1 (serializeFields fs) := by
  cases fs with
  | nil => exact unwInert_nil 1
  | cons k v tl =>
    obtain ⟨hk, hnk, hv, htlp⟩ := plainF_cons hp
    have hkey : UnwInertFrom 1 ('"' :: escapeStr k ++ '"' :: ':' :: serializeJson v) := by
      have e : '"' :: escapeStr k ++ '"' :: ':' :: serializeJson v =
          ('"' :: k ++ ['"']) ++ ([':'] ++ serializeJson v) := by
        rw [escapeStr_plain hk]; simp
      rw [e]
      exact unwInert_append (unwInert_strlit 1 hk)
        (unwInert_append (unwInert_of_all 1 (by decide)) (unw_chunk_J v hv))
    cases tl with
    | nil => exact hkey
    | cons l w ttl =>
      have htl := unw_chunk_F (.cons l w ttl) htlp
      obtain ⟨t, ht⟩ := serFields_decomp l w ttl
      rw [ht] at htl
      have hc := unwInert_comma_look (by decide) (by decide) htl
      rw [← ht] at hc
      have e : serializeFields (.cons k v (.cons l w ttl)) =
          ('"' :: escapeStr k ++ '"' :: ':' :: serializeJson v) ++
            (',' :: serializeFields (.cons l w ttl)) := by
        simp [serializeFields]
      rw [e]
      exact unwInert_append hkey hc
end

theorem quk_step_quote (S : List Bool) (e : Bool) (cs : Str) :
    qukGo ⟨S, false, false, e, 0⟩ ('"' :: cs) =
      '"' :: qukGo ⟨S, true, false, e, 0⟩ cs := by
  simp only [qukGo]
  rw [if_neg (by simp), if_neg (by simp), if_pos trivial]

theorem quk_str {s : Str} (hp : plainStr s = true) :
    ∀ (S : List Bool) (e : Bool) (rest : Str),
    qukGo ⟨S, true, false, e, 0⟩ (s ++ '"' :: rest) =
      s ++ '"' :: qukGo ⟨S, false, false, e, 0⟩ rest := by
  induction s with
  | nil =>
    intro S e rest
    simp [qukGo]
  | cons c s' ih =>
    intro S e rest
    simp only [plainStr, List.all_cons, Bool.and_eq_true] at hp
    have hq : c ≠ '"' := (plainChar_facts hp.1).2.1
    have hb : c ≠ '\\' := (plainChar_facts hp.1).2.2.1
    have step : qukGo ⟨S, true, false, e, 0⟩ (c :: (s' ++ '"' :: rest)) =
        c :: qukGo ⟨S, true, false, e, 0⟩ (s' ++ '"' :: rest) := by
      simp [qukGo, hq, hb]
    rw [List.cons_append, step, ih hp.2 S e rest]
    rfl

theorem quk_step_open (S : List Bool) (e : Bool) (cs : Str) :
    qukGo ⟨S, false, false, e, 0⟩ ('\x7b' :: cs) =
      '\x7b' :: qukGo ⟨true :: S, false, false, true, 0⟩ cs := by
  simp only [qukGo]
  rw [if_neg (by simp), if_neg (by simp), if_neg (by simp), if_pos trivial]

theorem quk_step_lbrk (S : List Bool) (e : Bool) (cs : Str) :
    qukGo ⟨S, false, false, e, 0⟩ ('[' :: cs) =
      '[' :: qukGo ⟨false :: S, false, false, false, 0⟩ cs := by
  simp only [qukGo]
  rw [if_neg (by simp), if_neg (by simp), if_neg (by simp), if_neg (by simp),
    if_pos trivial]

theorem quk_step_close (S : List Bool) (e : Bool) (cs : Str) :
    qukGo ⟨S, false, false, e, 0⟩ ('\x7d' :: cs) =
      '\x7d' :: qukGo ⟨S.tail, false, false, S.tail.headD false, 0⟩ cs := by
  simp only [qukGo]
  rw [if_neg (by simp), if_neg (by simp), if_neg (by simp), if_neg (by simp),
    if_neg (by simp), if_pos (by simp)]

theorem quk_step_rbrk (S : List Bool) (e : Bool) (cs : Str) :
    qukGo ⟨S, false, false, e, 0⟩ (']' :: cs) =
      ']' :: qukGo ⟨S.tail, false, false, S.tail.headD false, 0⟩ cs := by
  simp only [qukGo]
  rw [if_neg (by simp), if_neg (by simp), if_neg (by simp), if_neg (by simp),
    if_neg (by simp), if_pos (by simp)]

theorem quk_step_comma (S : List Bool) (e : Bool) (cs : Str) :
    qukGo ⟨S, false, false, e, 0⟩ (',' :: cs) =
      ',' :: qukGo ⟨S, false, false, S.headD false, 0⟩ cs := by
  simp only [qukGo]
  rw [if_neg (by simp), if_neg (by simp), if_neg (by simp), if_neg (by simp),
    if_neg (by simp), if_neg (by simp), if_pos trivial]

theorem quk_step_colon (S : List Bool) (e : Bool) (cs : Str) :
    qukGo ⟨S, false, false, e, 0⟩ (':' :: cs) =
      ':' :: qukGo ⟨S, false, false, false, 0⟩ cs := by
  simp only [qukGo]
  rw [if_neg (by simp), if_neg (by simp), if_neg (by simp), if_neg (by simp),
    if_neg (by simp), if_neg (by simp), if_neg (by simp), if_pos trivial]

theorem quk_step_inert {c : Char} (h1 : c ≠ '"') (h2 : c ≠ '\x7b') (h3 : c ≠ '[')
    (h4 : c ≠ '\x7d') (h5 : c ≠ ']') (h6 : c ≠ ',') (h7 : c ≠ ':')
    (S : List Bool) (cs : Str) :
    qukGo ⟨S, false, false, false, 0⟩ (c :: cs) =
      c :: qukGo ⟨S, false, false, false, 0⟩ cs := by
  simp only [qukGo]
  rw [if_neg (by simp), if_neg (by simp), if_neg (by simp [h1]), if_neg (by simp [h2]),
    if_neg (by simp [h3]), if_neg (by simp [h4, h5]), if_neg (by simp [h6]),
    if_neg (by simp [h7]), if_neg (by simp)]

theorem quk_inert_all {s : Str}
    (h : ∀ c ∈ s, c ≠ '"' ∧ c ≠ '\x7b' ∧ c ≠ '[' ∧ c ≠ '\x7d' ∧ c ≠ ']' ∧
      c ≠ ',' ∧ c ≠ ':') :
    ∀ (S : List Bool) (rest : Str),
    qukGo ⟨S, false, false, false, 0⟩ (s ++ rest) =
      s ++ qukGo ⟨S, false, false, false, 0⟩ rest := by
  induction s with
  | nil => intro S rest; simp
  | cons c cs ih =>
    intro S rest
    obtain ⟨h1, h2, h3, h4, h5, h6, h7⟩ := h c (List.mem_cons_self c cs)
    rw [List.cons_append, quk_step_inert h1 h2 h3 h4 h5 h6 h7 S (cs ++ rest),
      ih (fun x hx => h x (List.mem_cons_of_mem c hx)) S rest]
    rfl

mutual
theorem quk_chunk_J (J : Json) (hp : plainJson J = true) :
    ∀ (S : List Bool) (rest : Str), ∃ e : Bool,
      qukGo ⟨S, false, false, false, 0⟩ (serializeJson J ++ rest) =
        serializeJson J ++ qukGo ⟨S, false, false, e, 0⟩ rest := by
  cases J with
  | nul => exact fun S rest => ⟨false, quk_inert_all (by decide) S rest⟩
  | bool b =>
    cases b
    · exact fun S rest => ⟨false, quk_inert_all (by decide) S rest⟩
    · exact fun S rest => ⟨false, quk_inert_all (by decide) S rest⟩
  | num n =>
    intro S rest
    have hall : ∀ c ∈ intChars n, c ≠ '"' ∧ c ≠ '\x7b' ∧ c ≠ '[' ∧ c ≠ '\x7d' ∧
        c ≠ ']' ∧ c ≠ ',' ∧ c ≠ ':' := by
      intro c hc
      rcases intChars_mem n c hc with h | h
      · subst h
        exact ⟨by decide, by decide, by decide, by decide, by decide, by decide, by decide⟩
      · obtain ⟨d1, -, -, d4, d5, d6, d7, d8, d9, -⟩ := digit_facts h
        exact ⟨d1, d6, d8, d7, d9, d4, d5⟩
    exact ⟨false, quk_inert_all hall S rest⟩
  | str s =>
    intro S rest
    simp only [plainJson] at hp
    refine ⟨false, ?hq1⟩
    have hser : serializeJson (.str s) = '"' :: s ++ ['"'] := by
      simp only [serializeJson, escapeStr_plain hp]
    rw [hser]
    have e1 : ('"' :: s ++ ['"']) ++ rest = '"' :: (s ++ '"' :: rest) := by simp
    rw [e1, quk_step_quote S false (s ++ '"' :: rest), quk_str hp S false rest]
    simp
  | arr xs =>
    intro S rest
    obtain ⟨e1, h1⟩ := quk_chunk_L xs hp (false :: S) rfl (']' :: rest)
    refine ⟨S.headD false, ?hq2⟩
    have hser : serializeJson (.arr xs) = '[' :: serializeItems xs ++ [']'] := rfl
    rw [hser]
    have e2 : ('[' :: serializeItems xs ++ [']']) ++ rest =
        '[' :: (serializeItems xs ++ ']' :: rest) := by simp
    rw [e2, quk_step_lbrk S false (serializeItems xs ++ ']' :: rest), h1,
      quk_step_rbrk (false :: S) e1 rest]
    simp
  | obj fs =>
    intro S rest
    obtain ⟨e1, h1⟩ := quk_chunk_F fs hp (true :: S) rfl ('\x7d' :: rest)
    refine ⟨S.headD false, ?hq3⟩
    have hser : serializeJson (.obj fs) = '\x7b' :: serializeFields fs ++ ['\x7d'] := rfl
    rw [hser]
    have e2 : ('\x7b' :: serializeFields fs ++ ['\x7d']) ++ rest =
        '\x7b' :: (serializeFields fs ++ '\x7d' :: rest) := by simp
    rw [e2, quk_step_open S false (serializeFields fs ++ '\x7d' :: rest), h1,
      quk_step_close (true :: S) e1 rest]
    simp
theorem quk_chunk_L (xs : JsonL) (hp : plainL xs = true) :
    ∀ (S : List Bool), S.headD false = false → ∀ (rest : Str), ∃ e : Bool,
      qukGo ⟨S, false, false, false, 0⟩ (serializeItems xs ++ rest) =
        serializeItems xs ++ qukGo ⟨S, false, false, e, 0⟩ rest := by
  cases xs with
  | nil => exact fun S _ rest => ⟨false, rfl⟩
  | cons x tl =>
    cases tl with
    | nil => exact fun S _ rest => quk_chunk_J x (plainL_cons hp).1 S rest
    | cons y ttl =>
      intro S hS rest
      obtain ⟨e2, h2⟩ := quk_chunk_L (.cons y ttl) (plainL_cons hp).2 S hS rest
      obtain ⟨e1, h1⟩ := quk_chunk_J x (plainL_cons hp).1 S
        (',' :: (serializeItems (.cons y ttl) ++ rest))
      refine ⟨e2, ?hq4⟩
      have hser : serializeItems (.cons x (.cons y ttl)) =
          serializeJson x ++ ',' :: serializeItems (.cons y ttl) := rfl
      rw [hser]
      have e3 : (serializeJson x ++ ',' :: serializeItems (.cons y ttl)) ++ rest =
          serializeJson x ++ (',' :: (serializeItems (.cons y ttl) ++ rest)) := by simp
      rw [e3, h1, quk_step_comma S e1 (serializeItems (.cons y ttl) ++ rest), hS, h2]
      simp
theorem quk_chunk_F (fs : JsonF) (hp : plainF fs = true) :
    ∀ (S : List Bool), S.headD false = true → ∀ (rest : Str), ∃ e : Bool,
      qukGo ⟨S, false, false, true, 0⟩ (serializeFields fs ++ rest) =
        serializeFields fs ++ qukGo ⟨S, false, false, e, 0⟩ rest := by
  cases fs with
  | nil => exact fun S _ rest => ⟨true, rfl⟩
  | cons k v tl =>
    cases tl with
    | nil =>
      intro S hS rest
      obtain ⟨hk, hnk, hv, htlp⟩ := plainF_cons hp
      obtain ⟨ev, hvch⟩ := quk_chunk_J v hv S rest
      refine ⟨ev, ?hq5⟩
      have hser : serializeFields (.cons k v .nil) =
          '"' :: k ++ '"' :: ':' :: serializeJson v := by
        simp only [serializeFields, escapeStr_plain hk]
      rw [hser]
      have e1 : ('"' :: k ++ '"' :: ':' :: serializeJson v) ++ rest =
          '"' :: (k ++ '"' :: (':' :: (serializeJson v ++ rest))) := by simp
      rw [e1, quk_step_quote S true (k ++ '"' :: (':' :: (serializeJson v ++ rest))),
        quk_str hk S true (':' :: (serializeJson v ++ rest)),
        quk_step_colon S true (serializeJson v ++ rest), hvch]
      simp
    | cons l w ttl =>
      intro S hS rest
      obtain ⟨hk, hnk, hv, htlp⟩ := plainF_cons hp
      obtain ⟨e2, h2⟩ := quk_chunk_F (.cons l w ttl) htlp S hS rest
      obtain ⟨ev, hvch⟩ := quk_chunk_J v hv S
        (',' :: (serializeFields (.cons l w ttl) ++ rest))
      refine ⟨e2, ?hq6⟩
      have hser : serializeFields (.cons k v (.cons l w ttl)) =
          '"' :: k ++ '"' :: ':' :: serializeJson v ++
            ',' :: serializeFields (.cons l w ttl) := by
        simp only [serializeFields, escapeStr_plain hk]
      rw [hser]
      have e1 : ('"' :: k ++ '"' :: ':' :: serializeJson v ++
          ',' :: serializeFields (.cons l w ttl)) ++ rest =
          '"' :: (k ++ '"' :: (':' :: (serializeJson v ++
            (',' :: (serializeFields (.cons l w ttl) ++ rest))))) := by simp
      rw [e1, quk_step_quote S true _, quk_str hk S true _, quk_step_colon S true _,
        hvch, quk_step_comma S ev (serializeFields (.cons l w ttl) ++ rest), hS, h2]
      simp
end

theorem rtc_id (J : Json) (hp : plainJson J = true) :
    removeTrailingCommas (serializeJson J) = (serializeJson J, false) := by
  have h := rtc_chunk_J J hp []
  rw [List.append_nil] at h
  show rtcGo false false (serializeJson J) = _
  rw [h]
  simp [rtcGo]

theorem quk_id (J : Json) (hp : plainJson J = true) :
    quoteUnquotedKeys (serializeJson J) = serializeJson J := by
  obtain ⟨e, h⟩ := quk_chunk_J J hp [] []
  rw [List.append_nil] at h
  show qukGo ⟨[], false, false, false, 0⟩ (serializeJson J) = serializeJson J
  rw [h]
  simp [qukGo]

theorem mrg_id_obj (fs : JsonF) (hp : plainF fs = true) :
    mergeRootObjects (serializeJson (.obj fs)) = (serializeJson (.obj fs), false) := by
  show mrgGo ⟨false, false, 0, 0⟩ (serializeJson (.obj fs)) = _
  have hser : serializeJson (.obj fs) = '\x7b' :: serializeFields fs ++ ['\x7d'] := rfl
  rw [hser]
  have e : '\x7b' :: serializeFields fs ++ ['\x7d'] =
      '\x7b' :: (serializeFields fs ++ '\x7d' :: ([] : Str)) := by simp
  rw [e, mrg_step_open 0 (serializeFields fs ++ '\x7d' :: [])]
  have hF := mrg_chunk_F fs hp (0 + 1) (by norm_num) ('\x7d' :: [])
  rw [hF]
  have hlast : mrgGo ⟨false, false, 0 + 1, 0⟩ ('\x7d' :: []) = (['\x7d'], false) := by decide
  rw [hlast]

theorem unw_id_obj (fs : JsonF) (hp : plainF fs = true) :
    unwrapAnonymousRootObjects (serializeJson (.obj fs)) =
      (serializeJson (.obj fs), false) := by
  show unwGo ⟨false, false, 0, none, false, 0⟩ (serializeJson (.obj fs)) = _
  have hser : serializeJson (.obj fs) = '\x7b' :: serializeFields fs ++ ['\x7d'] := rfl
  rw [hser]
  have e : '\x7b' :: serializeFields fs ++ ['\x7d'] =
      '\x7b' :: (serializeFields fs ++ '\x7d' :: ([] : Str)) := by simp
  rw [e, unw_step_open 0 (serializeFields fs ++ '\x7d' :: [])]
  have hF := unw_chunk_F fs hp (0 + 1) (by norm_num) ('\x7d' :: [])
  rw [hF, unw_step_close (0 + 1) []]
  have hnil : unwGo ⟨false, false, 0 + 1 - 1, none, false, 0⟩ [] = ([], false) := rfl
  rw [hnil]

theorem close_id (J : Json) (hp : plainJson J = true) :
    closeMissingFinalBrace (serializeJson J) = (serializeJson J, false) := by
  have h := close_chunk_J J hp 0 []
  rw [List.append_nil] at h
  simp only [closeMissingFinalBrace, h]
  norm_num [closeScan]

theorem strip_id_obj (fs : JsonF) (hp : plainF fs = true) :
    stripCodeFences (serializeJson (.obj fs)) = serializeJson (.obj fs) := by
  have hbt := ser_noBT_J (.obj fs) hp
  simp only [stripCodeFences]
  rw [fenceGo_id true _ hbt, fenceGo_id false _ hbt]
  have hser : serializeJson (.obj fs) = '\x7b' :: serializeFields fs ++ ['\x7d'] := rfl
  rw [hser]
  exact jsTrim_id_pair '\x7b' '\x7d' (serializeFields fs) (by decide) (by decide)

theorem trim_id_obj (fs : JsonF) :
    jsTrim (serializeJson (.obj fs)) = serializeJson (.obj fs) := by
  have hser : serializeJson (.obj fs) = '\x7b' :: serializeFields fs ++ ['\x7d'] := rfl
  rw [hser]
  exact jsTrim_id_pair '\x7b' '\x7d' (serializeFields fs) (by decide) (by decide)

theorem extract_id_obj (fs : JsonF) :
    extractJsonSlice (serializeJson (.obj fs)) = (some (serializeJson (.obj fs)), false) := by
  have hser : serializeJson (.obj fs) = '\x7b' :: serializeFields fs ++ ['\x7d'] := rfl
  rw [hser]
  exact extract_id (serializeFields fs)

theorem sanitize_id_obj (fs : JsonF) (hp : plainF fs = true) :
    sanitizeDashboardPayload (serializeJson (.obj fs)) =
      (serializeJson (.obj fs),
       ⟨false, false, false, false, false, false, false, false⟩) := by
  simp only [sanitizeDashboardPayload, trim_id_obj fs, strip_id_obj fs hp,
    extract_id_obj fs, Option.getD_some, rtc_id (.obj fs) hp, quk_id (.obj fs) hp,
    mrg_id_obj fs hp, unw_id_obj fs hp, close_id (.obj fs) hp, bne_self_eq_false]

theorem strStarts_prefix : ∀ (p r : Str), strStarts (p ++ r) p = true := by
  intro p
  induction p with
  | nil => intro r; cases r <;> rfl
  | cons c cs ih =>
    intro r
    simp [strStarts, ih r]

theorem strStarts_false_head {c p : Char} (h : c ≠ p) (cs ps : Str) :
    strStarts (c :: cs) (p :: ps) = false := by
  simp [strStarts, h]

theorem skipJsonWs_cons {c : Char} (h : isJsonWs c = false) (cs : Str) :
    skipJsonWs (c :: cs) = c :: cs := by
  simp only [skipJsonWs]
  exact List.dropWhile_cons_of_neg (by simp [h])

theorem digit_more {c : Char} (h : '0' ≤ c ∧ c ≤ '9') :
    c ≠ '-' ∧ c ≠ '.' ∧ c ≠ 'e' ∧ c ≠ 'E' ∧ Char.isDigit c = true := by
  have hm := digit_mem_list c h.1 h.2
  fin_cases hm <;> decide

theorem sepRest_facts {rest : Str} (hs : SepRest rest) :
    rest.takeWhile Char.isDigit = [] ∧
    (∀ t, rest ≠ '.' :: t) ∧ (∀ t, rest ≠ 'e' :: t) ∧ (∀ t, rest ≠ 'E' :: t) := by
  cases rest with
  | nil => exact ⟨rfl, by simp, by simp, by simp⟩
  | cons c t =>
    rcases hs with h | h | h <;> subst h
    · exact ⟨List.takeWhile_cons_of_neg (by decide), by simp, by simp, by simp⟩
    · exact ⟨List.takeWhile_cons_of_neg (by decide), by simp, by simp, by simp⟩
    · exact ⟨List.takeWhile_cons_of_neg (by decide), by simp, by simp, by simp⟩

theorem takeWhile_app_all {p : Char → Bool} {a b : Str}
    (h : ∀ c ∈ a, p c = true) (hb : b.takeWhile p = []) :
    (a ++ b).takeWhile p = a := by
  induction a with
  | nil => simpa using hb
  | cons c cs ih =>
    rw [List.cons_append, List.takeWhile_cons_of_pos (h c (List.mem_cons_self c cs)),
      ih (fun x hx => h x (List.mem_cons_of_mem c hx))]

theorem digitsToNat_snoc (ds : Str) (c : Char) :
    digitsToNat (ds ++ [c]) = digitsToNat ds * 10 + (c.val.toNat - 48) := by
  simp [digitsToNat, List.foldl_append]

theorem natCharsF_toNat : ∀ (fuel n : Nat), n < fuel →
    digitsToNat (natCharsF fuel n) = n := by
  intro fuel
  induction fuel with
  | zero => intro n h; omega
  | succ f ih =>
    intro n h
    rw [natCharsF]
    split
    · next h10 =>
      simp only [digitsToNat, List.foldl_cons, List.foldl_nil]
      rw [charOfNat_val (48 + n) (by omega)]
      omega
    · next h10 =>
      rw [digitsToNat_snoc, ih (n / 10) (by omega), charOfNat_val (48 + n % 10) (by omega)]
      omega

theorem natChars_toNat (n : Nat) : digitsToNat (natChars n) = n :=
  natCharsF_toNat (n + 1) n (by omega)

theorem natCharsF_head_ne_zero : ∀ (fuel n : Nat), n < fuel → 0 < n →
    (natCharsF fuel n).headD '0' ≠ '0' := by
  intro fuel
  induction fuel with
  | zero => intro n h; omega
  | succ f ih =>
    intro n h hn
    rw [natCharsF]
    split
    · next h10 =>
      simp only [List.headD]
      intro hc
      have := congrArg (fun c => Char.val c |>.toNat) hc
      simp only at this
      rw [charOfNat_val (48 + n) (by omega)] at this
      have h0 : ('0' : Char).val.toNat = 48 := by decide
      omega
    · next h10 =>
      have hrec := ih (n / 10) (by omega) (by omega)
      obtain ⟨c, cs, heq⟩ : ∃ c cs, natCharsF f (n / 10) = c :: cs := by
        cases hx : natCharsF f (n / 10) with
        | nil =>
          exfalso
          have := natCharsF_toNat f (n / 10) (by omega)
          rw [hx] at this
          simp [digitsToNat] at this
          omega
        | cons c cs => exact ⟨c, cs, rfl⟩
      rw [heq]
      rw [heq] at hrec
      simpa using hrec

theorem natChars_len1_of_lt10 {n : Nat} (h : n < 10) : (natChars n).length = 1 := by
  rw [natChars, natCharsF, if_pos h]
  rfl

theorem parseNum_natChars (m : Nat) {rest : Str} (hs : SepRest rest) :
    parseNum (natChars m ++ rest) = some (.num (m : Int), rest) := by
  obtain ⟨c, cs, heq, hd⟩ := natChars_head m
  obtain ⟨hm1, hm2, hm3, hm4, -⟩ := digit_more hd
  obtain ⟨hr1, hr2, hr3, hr4⟩ := sepRest_facts hs
  have hneg : (natChars m ++ rest).headD ' ' = c := by rw [heq]; rfl
  have hds : (natChars m ++ rest).takeWhile Char.isDigit = natChars m :=
    takeWhile_app_all (fun x hx => (digit_more (natChars_mem m x hx)).2.2.2.2) hr1
  simp only [parseNum, hneg, if_neg hm1, hds]
  rw [List.drop_left]
  rw [if_neg (by simp [heq])]
  have hlead : (decide (1 < (natChars m).length) &&
      decide ((natChars m).headD '0' = '0')) = false := by
    by_cases h10 : m < 10
    · simp [natChars_len1_of_lt10 h10]
    · have hhd : (natChars m).headD '0' ≠ '0' :=
        natCharsF_head_ne_zero (m + 1) m (by omega) (by omega)
      rw [decide_eq_false hhd, Bool.and_false]
  rw [if_neg (by simp only [hlead]; exact Bool.false_ne_true)]
  cases rest with
  | nil => simp [natChars_toNat]
  | cons r t =>
    rcases hs with h | h | h <;> subst h <;> simp [natChars_toNat]

theorem parseNum_negChars (m : Nat) {rest : Str} (hs : SepRest rest) :
    parseNum ('-' :: natChars m ++ rest) = some (.num (-(m : Int)), rest) := by
  obtain ⟨c, cs, heq, hd⟩ := natChars_head m
  obtain ⟨hr1, -, -, -⟩ := sepRest_facts hs
  have hds : (natChars m ++ rest).takeWhile Char.isDigit = natChars m :=
    takeWhile_app_all (fun x hx => (digit_more (natChars_mem m x hx)).2.2.2.2) hr1
  simp only [parseNum, List.cons_append, List.headD_cons, if_pos rfl, List.tail_cons,
    if_true, hds]
  rw [List.drop_left]
  rw [if_neg (by simp [heq])]
  have hlead : (decide (1 < (natChars m).length) &&
      decide ((natChars m).headD '0' = '0')) = false := by
    by_cases h10 : m < 10
    · simp [natChars_len1_of_lt10 h10]
    · have hhd : (natChars m).headD '0' ≠ '0' :=
        natCharsF_head_ne_zero (m + 1) m (by omega) (by omega)
      rw [decide_eq_false hhd, Bool.and_false]
  rw [if_neg (by simp only [hlead]; exact Bool.false_ne_true)]
  cases rest with
  | nil => simp [natChars_toNat]
  | cons r t =>
    rcases hs with h | h | h <;> subst h <;> simp [natChars_toNat]

theorem parseNum_intChars (n : Int) {rest : Str} (hs : SepRest rest) :
    parseNum (intChars n ++ rest) = some (.num n, rest) := by
  by_cases hn : n < 0
  · have e : intChars n = '-' :: natChars n.natAbs := by rw [intChars, if_pos hn]
    rw [e]
    have h := parseNum_negChars n.natAbs hs
    have e2 : -(n.natAbs : Int) = n := by omega
    rw [e2] at h
    exact h
  · have e : intChars n = natChars n.natAbs := by rw [intChars, if_neg hn]
    rw [e]
    have h := parseNum_natChars n.natAbs hs
    have e2 : ((n.natAbs : Nat) : Int) = n := by omega
    rw [e2] at h
    exact h

theorem parseStrBody_plain {s : Str} (hp : plainStr s = true) : ∀ rest : Str,
    parseStrBody (s ++ '"' :: rest) = some (s, rest) := by
  induction s with
  | nil => intro rest; rfl
  | cons c cs ih =>
    intro rest
    simp only [plainStr, List.all_cons, Bool.and_eq_true] at hp
    obtain ⟨h32, hq, hb, -, -⟩ := plainChar_facts hp.1
    rw [List.cons_append]
    rw [parseStrBody.eq_def]
    split
    · next heq => exact absurd heq (by simp)
    · next heq => rw [List.cons.injEq] at heq; exact absurd heq.1 hq
    · next heq => rw [List.cons.injEq] at heq; exact absurd heq.1 hb
    · next heq => rw [List.cons.injEq] at heq; exact absurd heq.1 hb
    · next x rest' heq =>
      rw [List.cons.injEq] at heq
      obtain ⟨hx, hrest⟩ := heq
      subst hx
      subst hrest
      rw [if_neg (show ¬(c.val < 32) from (plainChar_not_ctrl hp.1).2.2.2.2.2)]
      rw [ih hp.2 rest]
      rfl

theorem hasKey_catF : ∀ (a b : JsonF) (key : Str),
    (a.catF b).hasKey key = (a.hasKey key || b.hasKey key)
  | .nil, b, key => by simp [JsonF.catF, JsonF.hasKey]
  | .cons k v fs, b, key => by
    simp only [JsonF.catF, JsonF.hasKey, hasKey_catF fs b key, Bool.or_assoc]

theorem set_fresh : ∀ (acc : JsonF) (k : Str) (v : Json),
    acc.hasKey k = false → acc.set k v = acc.catF (.cons k v .nil)
  | .nil, k, v, _ => rfl
  | .cons k' w fs, k, v, h => by
    simp only [JsonF.hasKey, Bool.or_eq_false_iff, decide_eq_false_iff_not] at h
    simp only [JsonF.set, if_neg h.1, JsonF.catF, set_fresh fs k v h.2]

theorem catF_assoc : ∀ (a b c : JsonF), (a.catF b).catF c = a.catF (b.catF c)
  | .nil, _, _ => rfl
  | .cons k v fs, b, c => by
    simp only [JsonF.catF, catF_assoc fs b c]

theorem appendL_assoc : ∀ (a b c : JsonL), (a.append b).append c = a.append (b.append c)
  | .nil, _, _ => rfl
  | .cons x xs, b, c => by
    simp only [JsonL.append, appendL_assoc xs b c]


theorem parseVal_null (f : Nat) (rest : Str) :
    parseVal (f + 1) ('n' :: 'u' :: 'l' :: 'l' :: rest) = some (.nul, rest) := by
  rw [parseVal, skipJsonWs_cons (by decide)]
  simp [strStarts]

theorem parseVal_true (f : Nat) (rest : Str) :
    parseVal (f + 1) ('t' :: 'r' :: 'u' :: 'e' :: rest) = some (.bool true, rest) := by
  rw [parseVal, skipJsonWs_cons (by decide)]
  simp [strStarts]

theorem parseVal_false (f : Nat) (rest : Str) :
    parseVal (f + 1) ('f' :: 'a' :: 'l' :: 's' :: 'e' :: rest) =
      some (.bool false, rest) := by
  rw [parseVal, skipJsonWs_cons (by decide)]
  simp [strStarts]

theorem parseVal_objNil (f : Nat) (rest : Str) :
    parseVal (f + 1) ('\x7b' :: '\x7d' :: rest) = some (.obj .nil, rest) := by
  rw [parseVal, skipJsonWs_cons (by decide)]
  simp [strStarts, skipJsonWs_cons (show isJsonWs '\x7d' = false by decide)]

theorem parseVal_arrNil (f : Nat) (rest : Str) :
    parseVal (f + 1) ('[' :: ']' :: rest) = some (.arr .nil, rest) := by
  rw [parseVal, skipJsonWs_cons (by decide)]
  simp [strStarts, skipJsonWs_cons (show isJsonWs ']' = false by decide)]

theorem parseVal_strLit (f : Nat) {s : Str} (hp : plainStr s = true) (rest : Str) :
    parseVal (f + 1) ('"' :: (s ++ '"' :: rest)) = some (.str s, rest) := by
  rw [parseVal, skipJsonWs_cons (by decide)]
  simp only [strStarts]
  rw [if_neg (by simp), if_neg (by simp), if_neg (by simp)]
  simp [parseStrBody_plain hp rest]

theorem parseVal_num_shape (f : Nat) (c : Char) (cs : Str)
    (h1 : c ≠ '"') (h2 : c ≠ '\x7b') (h3 : c ≠ '[')
    (h4 : c ≠ 'n') (h5 : c ≠ 't') (h6 : c ≠ 'f') (hw : isJsonWs c = false) :
    parseVal (f + 1) (c :: cs) = parseNum (c :: cs) := by
  rw [parseVal, skipJsonWs_cons hw]
  rw [if_neg (by cases cs <;> simp [strStarts, h4]),
    if_neg (by cases cs <;> simp [strStarts, h5]),
    if_neg (by cases cs <;> simp [strStarts, h6])]
  split
  · next heq => rw [List.cons.injEq] at heq; exact absurd heq.1 h1
  · next heq => rw [List.cons.injEq] at heq; exact absurd heq.1 h2
  · next heq => rw [List.cons.injEq] at heq; exact absurd heq.1 h3
  · rfl

theorem parseVal_obj_shape (f : Nat) (c0 : Char) (t : Str)
    (hw : isJsonWs c0 = false) (hne : c0 ≠ '\x7d') :
    parseVal (f + 1) ('\x7b' :: (c0 :: t)) = parseObjMembers f (c0 :: t) .nil := by
  rw [parseVal, skipJsonWs_cons (by decide)]
  rw [if_neg (by simp [strStarts]), if_neg (by simp [strStarts]),
    if_neg (by simp [strStarts])]
  have hmid : skipJsonWs (c0 :: t) = c0 :: t := skipJsonWs_cons hw t
  simp only [hmid]
  split
  · next heq => rw [List.cons.injEq] at heq; exact absurd heq.1 hne
  · rfl

theorem parseVal_arr_shape (f : Nat) (c0 : Char) (t : Str)
    (hw : isJsonWs c0 = false) (hne : c0 ≠ ']') :
    parseVal (f + 1) ('[' :: (c0 :: t)) = parseArrItems f (c0 :: t) .nil := by
  rw [parseVal, skipJsonWs_cons (by decide)]
  rw [if_neg (by simp [strStarts]), if_neg (by simp [strStarts]),
    if_neg (by simp [strStarts])]
  have hmid : skipJsonWs (c0 :: t) = c0 :: t := skipJsonWs_cons hw t
  simp only [hmid]
  split
  · next heq => rw [List.cons.injEq] at heq; exact absurd heq.1 hne
  · rfl

mutual
theorem parse_ser_J (J : Json) (hp : plainJson J = true) :
    ∀ (fuel : Nat), serFuel J ≤ fuel → ∀ rest : Str, SepRest rest →
      parseVal fuel (serializeJson J ++ rest) = some (J, rest) := by
  cases J with
  | nul =>
    intro fuel hf rest hsep
    cases fuel with
    | zero => exact absurd hf (by simp [serFuel])
    | succ f =>
      rw [show serializeJson .nul ++ rest = 'n' :: 'u' :: 'l' :: 'l' :: rest from rfl]
      exact parseVal_null f rest
  | bool b =>
    intro fuel hf rest hsep
    cases fuel with
    | zero => exact absurd hf (by simp [serFuel])
    | succ f =>
      cases b
      · rw [show serializeJson (.bool false) ++ rest =
          'f' :: 'a' :: 'l' :: 's' :: 'e' :: rest from rfl]
        exact parseVal_false f rest
      · rw [show serializeJson (.bool true) ++ rest =
          't' :: 'r' :: 'u' :: 'e' :: rest from rfl]
        exact parseVal_true f rest
  | num n =>
    intro fuel hf rest hsep
    cases fuel with
    | zero => exact absurd hf (by simp [serFuel])
    | succ f =>
      obtain ⟨c, cs, heq, hh⟩ := ser_head (.num n)
      have hji : isJsonWs c = false ∧ c ≠ 'n' ∧ c ≠ 't' ∧ c ≠ 'f' ∧ c ≠ '"' ∧
          c ≠ '\x7b' ∧ c ≠ '[' := by
        simp only [serializeJson] at heq
        rcases intChars_mem n c (by rw [heq]; exact List.mem_cons_self c cs) with h | h
        · subst h; exact ⟨by decide, by decide, by decide, by decide, by decide,
            by decide, by decide⟩
        · have hm := digit_mem_list c h.1 h.2
          fin_cases hm <;>
            exact ⟨by decide, by decide, by decide, by decide, by decide,
              by decide, by decide⟩
      have heq2 : serializeJson (.num n) ++ rest = c :: (cs ++ rest) := by
        rw [heq]; rfl
      rw [heq2, parseVal_num_shape f c (cs ++ rest) hji.2.2.2.2.1 hji.2.2.2.2.2.1
        hji.2.2.2.2.2.2 hji.2.1 hji.2.2.1 hji.2.2.2.1 hji.1]
      rw [← heq2]
      rw [show serializeJson (.num n) = intChars n from rfl]
      exact parseNum_intChars n hsep
  | str s =>
    intro fuel hf rest hsep
    cases fuel with
    | zero => exact absurd hf (by simp [serFuel])
    | succ f =>
      simp only [plainJson] at hp
      have heq : serializeJson (.str s) ++ rest = '"' :: (s ++ '"' :: rest) := by
        simp [serializeJson, escapeStr_plain hp]
      rw [heq]
      exact parseVal_strLit f hp rest
  | arr xs =>
    intro fuel hf rest hsep
    cases fuel with
    | zero => exact absurd hf (by simp [serFuel])
    | succ f =>
      cases xs with
      | nil =>
        rw [show serializeJson (.arr .nil) ++ rest = '[' :: ']' :: rest from rfl]
        exact parseVal_arrNil f rest
      | cons x tl =>
        have hfL : serFuelL (.cons x tl) ≤ f := by
          simp only [serFuel] at hf; omega
        obtain ⟨c, cs, hih, hhd⟩ := ser_head x
        obtain ⟨t, ht⟩ := serItems_decomp x tl
        obtain ⟨hw, hjw, h7, h9, h4, h5⟩ := ser_head_facts hhd
        have hitems : serializeItems (.cons x tl) ++ ']' :: rest =
            c :: (cs ++ (t ++ ']' :: rest)) := by
          rw [ht, hih]; simp
        have heq : serializeJson (.arr (.cons x tl)) ++ rest =
            '[' :: (c :: (cs ++ (t ++ ']' :: rest))) := by
          rw [← hitems]; simp [serializeJson]
        have hne9 : c ≠ ']' := h9
        rw [heq, parseVal_arr_shape f c (cs ++ (t ++ ']' :: rest)) hjw hne9,
          ← hitems]
        exact parse_ser_L (.cons x tl) hp (fun h => JsonL.noConfusion h) f hfL .nil rest
  | obj fs =>
    intro fuel hf rest hsep
    cases fuel with
    | zero => exact absurd hf (by simp [serFuel])
    | succ f =>
      cases fs with
      | nil =>
        rw [show serializeJson (.obj .nil) ++ rest = '\x7b' :: '\x7d' :: rest from rfl]
        exact parseVal_objNil f rest
      | cons k v tl =>
        have hfF : serFuelF (.cons k v tl) ≤ f := by
          simp only [serFuel] at hf; omega
        obtain ⟨t, ht⟩ := serFields_decomp k v tl
        have hflds : serializeFields (.cons k v tl) ++ '\x7d' :: rest =
            '"' :: (t ++ '\x7d' :: rest) := by rw [ht]; rfl
        have heq : serializeJson (.obj (.cons k v tl)) ++ rest =
            '\x7b' :: ('"' :: (t ++ '\x7d' :: rest)) := by
          rw [← hflds]; simp [serializeJson]
        rw [heq, parseVal_obj_shape f '"' (t ++ '\x7d' :: rest) (by decide) (by decide),
          ← hflds]
        exact parse_ser_F (.cons k v tl) hp (fun h => JsonF.noConfusion h) f hfF .nil rest
          (fun key _ => rfl)
theorem parse_ser_F (fs : JsonF) (hp : plainF fs = true) (hne : fs ≠ .nil) :
    ∀ (fuel : Nat), serFuelF fs ≤ fuel →
    ∀ (acc : JsonF) (rest : Str),
      (∀ key, fs.hasKey key = true → acc.hasKey key = false) →
      parseObjMembers fuel (serializeFields fs ++ '\x7d' :: rest) acc =
        some (.obj (acc.catF fs), rest) := by
  cases fs with
  | nil => exact absurd rfl hne
  | cons k v tl =>
    intro fuel hfuel acc rest hdisj
    obtain ⟨hk, hnk, hv, htlp⟩ := plainF_cons hp
    cases fuel with
    | zero => exact absurd hfuel (by simp [serFuelF])
    | succ f =>
      have hbounds := Nat.max_le.mp (show max (serFuel v) (serFuelF tl) ≤ f by
        simp only [serFuelF] at hfuel; omega)
      have hacck : acc.hasKey k = false := hdisj k (by simp [JsonF.hasKey])
      cases tl with
      | nil =>
        have heq : serializeFields (.cons k v .nil) ++ '\x7d' :: rest =
            '"' :: (k ++ '"' :: (':' :: (serializeJson v ++ '\x7d' :: rest))) := by
          simp [serializeFields, escapeStr_plain hk]
        rw [heq, parseObjMembers]
        simp only [parseStrBody_plain hk, Option.bind_eq_bind, Option.some_bind,
          skipJsonWs_cons (show isJsonWs ':' = false by decide)]
        rw [parse_ser_J v hv f hbounds.1 ('\x7d' :: rest) (Or.inr (Or.inl rfl))]
        simp only [Option.some_bind,
          skipJsonWs_cons (show isJsonWs '\x7d' = false by decide)]
        rw [set_fresh acc k v hacck]
      | cons k2 v2 tl2 =>
        have heq : serializeFields (.cons k v (.cons k2 v2 tl2)) ++ '\x7d' :: rest =
            '"' :: (k ++ '"' :: (':' :: (serializeJson v ++
              ',' :: (serializeFields (.cons k2 v2 tl2) ++ '\x7d' :: rest)))) := by
          simp [serializeFields, escapeStr_plain hk]
        rw [heq, parseObjMembers]
        simp only [parseStrBody_plain hk, Option.bind_eq_bind, Option.some_bind,
          skipJsonWs_cons (show isJsonWs ':' = false by decide)]
        rw [parse_ser_J v hv f hbounds.1
          (',' :: (serializeFields (.cons k2 v2 tl2) ++ '\x7d' :: rest)) (Or.inl rfl)]
        obtain ⟨t2, ht2⟩ := serFields_decomp k2 v2 tl2
        have hskip2 : skipJsonWs (serializeFields (.cons k2 v2 tl2) ++ '\x7d' :: rest) =
            serializeFields (.cons k2 v2 tl2) ++ '\x7d' :: rest := by
          rw [ht2]
          exact skipJsonWs_cons (by decide) _
        simp only [Option.some_bind,
          skipJsonWs_cons (show isJsonWs ',' = false by decide)]
        rw [hskip2, set_fresh acc k v hacck]
        have hdisj2 : ∀ key, (JsonF.cons k2 v2 tl2).hasKey key = true →
            (acc.catF (.cons k v .nil)).hasKey key = false := by
          intro key hkey
          rw [hasKey_catF]
          have h1 : acc.hasKey key = false := hdisj key (by
            simp only [JsonF.hasKey] at hkey ⊢
            rw [hkey, Bool.or_true])
          have h2 : k ≠ key := by
            intro hkk
            subst hkk
            rw [hkey] at hnk
            exact Bool.noConfusion hnk
          simp [JsonF.hasKey, h1, h2]
        rw [parse_ser_F (.cons k2 v2 tl2) htlp (fun h => JsonF.noConfusion h) f hbounds.2
          (acc.catF (.cons k v .nil)) rest hdisj2, catF_assoc]
        rfl
theorem parse_ser_L (xs : JsonL) (hp : plainL xs = true) (hne : xs ≠ .nil) :
    ∀ (fuel : Nat), serFuelL xs ≤ fuel →
    ∀ (acc : JsonL) (rest : Str),
      parseArrItems fuel (serializeItems xs ++ ']' :: rest) acc =
        some (.arr (acc.append xs), rest) := by
  cases xs with
  | nil => exact absurd rfl hne
  | cons x tl =>
    intro fuel hfuel acc rest
    obtain ⟨hx, htlp⟩ := plainL_cons hp
    cases fuel with
    | zero => exact absurd hfuel (by simp [serFuelL])
    | succ f =>
      have hbounds := Nat.max_le.mp (show max (serFuel x) (serFuelL tl) ≤ f by
        simp only [serFuelL] at hfuel; omega)
      cases tl with
      | nil =>
        have heq : serializeItems (.cons x .nil) ++ ']' :: rest =
            serializeJson x ++ ']' :: rest := rfl
        rw [heq, parseArrItems]
        simp only [Option.bind_eq_bind]
        rw [parse_ser_J x hx f hbounds.1 (']' :: rest) (Or.inr (Or.inr rfl))]
        simp only [Option.some_bind,
          skipJsonWs_cons (show isJsonWs ']' = false by decide)]
      | cons y tl2 =>
        have heq : serializeItems (.cons x (.cons y tl2)) ++ ']' :: rest =
            serializeJson x ++
              (',' :: (serializeItems (.cons y tl2) ++ ']' :: rest)) := by
          simp [serializeItems]
        rw [heq, parseArrItems]
        simp only [Option.bind_eq_bind]
        rw [parse_ser_J x hx f hbounds.1
          (',' :: (serializeItems (.cons y tl2) ++ ']' :: rest)) (Or.inl rfl)]
        simp only [Option.some_bind,
          skipJsonWs_cons (show isJsonWs ',' = false by decide)]
        rw [parse_ser_L (.cons y tl2) htlp (fun h => JsonL.noConfusion h) f hbounds.2
          (acc.append (.cons x .nil)) rest, appendL_assoc]
        rfl
end

theorem plain_append {a b : Str} (ha : plainStr a = true) (hb : plainStr b = true) :
    plainStr (a ++ b) = true := by
  simp only [plainStr, List.all_append, Bool.and_eq_true]
  exact ⟨ha, hb⟩

theorem plain_cons {c : Char} (hc : plainChar c = true) {s : Str}
    (hs : plainStr s = true) : plainStr (c :: s) = true := by
  simp only [plainStr, List.all_cons, Bool.and_eq_true]
  exact ⟨hc, hs⟩

theorem plain_toLower {s : Str} (h : plainStr s = true) :
    plainStr (strToLower s) = true := by
  simp only [plainStr, strToLower, List.all_map, List.all_eq_true] at h ⊢
  intro c hc
  have hpc := h c hc
  simp only [Function.comp]
  simp only [jsToLower]
  split
  · next hAZ =>
    simp only [Bool.and_eq_true, decide_eq_true_eq] at hAZ
    have h1 : ('A' : Char).val.toNat = 65 := by decide
    have h2 : ('Z' : Char).val.toNat = 90 := by decide
    have hA : 65 ≤ c.val.toNat := by
      have h3 : ('A' : Char).val ≤ c.val := hAZ.1
      have h4 : ('A' : Char).val.toNat ≤ c.val.toNat := h3
      omega
    have hZ : c.val.toNat ≤ 90 := by
      have h3 : c.val ≤ ('Z' : Char).val := hAZ.2
      have h4 : c.val.toNat ≤ ('Z' : Char).val.toNat := h3
      omega
    simp only [plainChar, Bool.and_eq_true, decide_eq_true_eq]
    have hv : (Char.ofNat (c.val.toNat + 32)).val.toNat = c.val.toNat + 32 :=
      charOfNat_val _ (by omega)
    refine ⟨⟨⟨⟨?g1, ?g2⟩, ?g3⟩, ?g4⟩, ?g5⟩
    · show (32 : UInt32) ≤ (Char.ofNat (c.val.toNat + 32)).val
      have h32 : ((32 : UInt32)).toNat = 32 := by decide
      have h5 : ((32 : UInt32)).toNat ≤ (Char.ofNat (c.val.toNat + 32)).val.toNat := by
        rw [hv, h32]
        omega
      exact h5
    · intro hcq
      have h6 := congrArg (fun x => (Char.val x).toNat) hcq
      simp only [hv] at h6
      have h7 : ('"' : Char).val.toNat = 34 := by decide
      omega
    · intro hcq
      have h3 := congrArg (fun x => (Char.val x).toNat) hcq
      simp only [hv] at h3
      have : ('\\' : Char).val.toNat = 92 := by decide
      omega
    · intro hcq
      have h3 := congrArg (fun x => (Char.val x).toNat) hcq
      simp only [hv] at h3
      have : backtick.val.toNat = 96 := by decide
      omega
    · intro hcq
      have h3 := congrArg (fun x => (Char.val x).toNat) hcq
      simp only [hv] at h3
      have : ('_' : Char).val.toNat = 95 := by decide
      omega
  · exact hpc

theorem plain_of_mem_subset {s t : Str} (hsub : ∀ c ∈ t, c ∈ s)
    (h : plainStr s = true) : plainStr t = true := by
  simp only [plainStr, List.all_eq_true] at h ⊢
  exact fun c hc => h c (hsub c hc)

theorem plain_jsTrim {s : Str} (h : plainStr s = true) :
    plainStr (jsTrim s) = true := by
  refine plain_of_mem_subset (fun c hc => ?sub) h
  simp only [jsTrim, List.mem_reverse] at hc
  have h1 : c ∈ (List.dropWhile isJsWs s).reverse :=
    (List.dropWhile_sublist _).subset hc
  rw [List.mem_reverse] at h1
  exact (List.dropWhile_sublist _).subset h1

theorem getD_mem_or (l : List Str) (j : Nat) :
    l.getD j [] ∈ l ∨ l.getD j [] = [] := by
  by_cases hlt : j < l.length
  · left
    rw [List.getD_eq_getElem l [] hlt]
    exact List.getElem_mem hlt
  · right
    exact List.getD_eq_default l [] (by omega)

theorem pickFrom_plain {values : List Str} (h : ∀ v ∈ values, plainStr v = true)
    (m : Nat) : plainStr (pickFrom m values) = true := by
  simp only [pickFrom]
  rcases getD_mem_or values ((m * values.length / 10000) % values.length) with hx | hx
  · exact h _ hx
  · rw [hx]; rfl

theorem seededNext_lt (st : Nat) : (seededNext st).2 < 10000 := by
  simp only [seededNext]
  exact Nat.mod_lt _ (by norm_num)

theorem swapAt_length (l : List Str) (i j : Nat) :
    (swapAt l i j).length = l.length := by
  simp [swapAt]

theorem swapAt_mem {l : List Str} {i j : Nat} {x : Str} (hx : x ∈ swapAt l i j) :
    x ∈ l ∨ x = [] := by
  simp only [swapAt] at hx
  rcases List.mem_or_eq_of_mem_set hx with h1 | h1
  · rcases List.mem_or_eq_of_mem_set h1 with h2 | h2
    · exact Or.inl h2
    · rcases getD_mem_or l j with h3 | h3
      · exact Or.inl (h2 ▸ h3)
      · exact Or.inr (h2.trans h3)
  · rcases getD_mem_or l i with h3 | h3
    · exact Or.inl (h1 ▸ h3)
    · exact Or.inr (h1.trans h3)

theorem shuffleGo_length : ∀ (n st : Nat) (l : List Str),
    ((shuffleGo st l n).2).length = l.length := by
  intro n
  induction n with
  | zero => intro st l; rfl
  | succ i ih =>
    intro st l
    rw [shuffleGo]
    rw [ih]
    exact swapAt_length l (i + 1) _

theorem shuffleGo_mem : ∀ (n st : Nat) (l : List Str) (x : Str),
    x ∈ (shuffleGo st l n).2 → x ∈ l ∨ x = [] := by
  intro n
  induction n with
  | zero => intro st l x hx; exact Or.inl hx
  | succ i ih =>
    intro st l x hx
    rw [shuffleGo] at hx
    rcases ih (seededNext st).1 (swapAt l (i + 1) ((seededNext st).2 * (i + 2) / 10000))
      x hx with h1 | h1
    · exact swapAt_mem h1
    · exact Or.inr h1

theorem plain_no_fill {s : Str} (h : plainStr s = true) :
    strIncludes s placeholderToken = false := by
  induction s with
  | nil => rfl
  | cons c cs ih =>
    simp only [plainStr, List.all_cons, Bool.and_eq_true] at h
    have hu : c ≠ '_' := (plainChar_facts h.1).2.2.2.2
    have h1 : strStarts (c :: cs) placeholderToken = false := by
      rw [show placeholderToken = '_' :: ("_FILL").data from rfl]
      exact strStarts_false_head hu _ _
    simp [strIncludes, h1, ih h.2]

mutual
theorem plain_noCup_J (J : Json) (hp : plainJson J = true) :
    containsUnresolvedPlaceholders J = false := by
  cases J with
  | nul => rfl
  | bool b => rfl
  | num n => rfl
  | str s => exact plain_no_fill hp
  | arr xs => exact plain_noCup_L xs hp
  | obj fs => exact plain_noCup_F fs hp
theorem plain_noCup_L (xs : JsonL) (hp : plainL xs = true) : cupL xs = false := by
  cases xs with
  | nil => rfl
  | cons x tl =>
    simp only [cupL, plain_noCup_J x (plainL_cons hp).1,
      plain_noCup_L tl (plainL_cons hp).2, Bool.or_self]
theorem plain_noCup_F (fs : JsonF) (hp : plainF fs = true) : cupF fs = false := by
  cases fs with
  | nil => rfl
  | cons k v tl =>
    obtain ⟨-, -, hv, htl⟩ := plainF_cons hp
    simp only [cupF, plain_noCup_J v hv, plain_noCup_F tl htl, Bool.or_self]
end

theorem stub_eq_mk (p : ProfileDraft) (dateISO t ll sign : Str) :
    stubPayload p dateISO t ll sign = stubMk (stubArgsOf p dateISO t ll sign) := rfl

theorem plainL_jl_map {l : List Str} (h : ∀ x ∈ l, plainStr x = true) :
    plainL (jl (l.map Json.str)) = true := by
  induction l with
  | nil => rfl
  | cons x xs ih =>
    simp only [List.map_cons, jl, plainL, plainJson, Bool.and_eq_true]
    exact ⟨h x (List.mem_cons_self x xs),
      ih (fun y hy => h y (List.mem_cons_of_mem x hy))⟩

theorem mk_plain (a : StubArgs) (h : a.Plain) : plainJson (stubMk a) = true := by
  obtain ⟨h1, h2, h3, h4, h5, h6, h7, h8, h9, h10, h11, h12, h13, h14⟩ := h
  simp +decide [stubMk, stubMeta, stubTabs, stubToday, stubCosmic, stubCompat,
    stubJournal, stubWeek, stubMonth, stubYear, plainJson, plainF, plainL, jf, jl,
    JsonF.hasKey,
    h1, h2, h3, h4, h5, h6, h7, h8, h9, h10, h11, h12, h13, plainL_jl_map h14]

theorem runChecks_all_true (raw : Json) : ∀ l : List (Bool × Str),
    (∀ c ∈ l, c.1 = true) → runChecks raw l = .valid raw := by
  intro l
  induction l with
  | nil => intro h; rfl
  | cons c rest ih =>
    intro h
    obtain ⟨ok, msg⟩ := c
    have hok : ok = true := h (ok, msg) (List.mem_cons_self _ _)
    subst hok
    rw [runChecks, if_pos rfl]
    exact ih (fun x hx => h x (List.mem_cons_of_mem _ hx))

theorem jlAll_isString_map (l : List Str) :
    (jl (l.map Json.str)).all isString = true := by
  induction l with
  | nil => rfl
  | cons x xs ih => simp [jl, JsonL.all, isString, ih]

theorem jlLength_map (l : List Str) : (jl (l.map Json.str)).length = l.length := by
  induction l with
  | nil => rfl
  | cons x xs ih => simp [jl, JsonL.length, ih]

theorem mk_valid (a : StubArgs) (hP : a.Plain) (hB : a.Bounded) :
    validateDashboardPayload (stubMk a) = .valid (stubMk a) := by
  have hplain := mk_plain a hP
  obtain ⟨e1, e2, l1, l2, w1, w2, m1, m2, hh1, hh2, n1, n2, hlen⟩ := hB
  show runChecks (stubMk a) (vChecks (stubMk a)) = .valid (stubMk a)
  apply runChecks_all_true
  intro c hc
  simp only [vChecks, List.mem_cons, List.not_mem_nil, or_false] at hc
  rcases hc with rfl|rfl|rfl|rfl|rfl|rfl|rfl|rfl|rfl|rfl|rfl|rfl|rfl|rfl|rfl|rfl|rfl|rfl|
    rfl|rfl|rfl|rfl|rfl|rfl|rfl|rfl|rfl|rfl|rfl|rfl|rfl
  · rfl
  · show (!containsUnresolvedPlaceholders (stubMk a)) = true
    rw [plain_noCup_J _ hplain]
    rfl
  · rfl
  · rfl
  · rfl
  · show vTodayFieldsOk (stubMk a) = true
    simp only [vTodayFieldsOk, numInRangeO]
    have : (decide (0 ≤ a.energyScore) && decide (a.energyScore ≤ 100)) = true := by
      simp [e1, e2]
    simp [Json.get2, stubMk, stubToday, jf, Json.get, JsonF.get, isStringO, this, e1, e2]
  · rfl
  · show vRatingsOk (stubMk a) = true
    simp [vRatingsOk, numInRangeO, Json.get2, stubMk, stubToday, jf, Json.get,
      JsonF.get, isRecordO, isRecord, l1, l2, w1, w2, m1, m2, hh1, hh2]
  · rfl
  · rfl
  · rfl
  · rfl
  · rfl
  · rfl
  · rfl
  · rfl
  · show vCompatSignsOk (stubMk a) = true
    simp [vCompatSignsOk, Json.get2, stubMk, stubCompat, jf, Json.get, JsonF.get,
      jlAll_isString_map, jlLength_map, hlen]
    exact ⟨rfl, rfl⟩
  · rfl
  · rfl
  · rfl
  · rfl
  · rfl
  · rfl
  · rfl
  · rfl
  · rfl
  · rfl
  · rfl
  · rfl
  · rfl
  · rfl

theorem set_same : ∀ (fs : JsonF) (k : Str) (v : Json),
    fs.get k = some v → fs.set k v = fs
  | .nil, k, v, h => by simp [JsonF.get] at h
  | .cons k1 v1 rest, k, v, h => by
    by_cases hk : k1 = k
    · subst hk
      simp only [JsonF.get, if_pos trivial, Option.some.injEq] at h
      subst h
      simp [JsonF.set]
    · simp only [JsonF.get, if_neg hk] at h
      simp only [JsonF.set, if_neg hk]
      rw [set_same rest k v h]

theorem objSet_same : ∀ {o : Json} {k : Str} {v : Json},
    o.get k = some v → objSet o k v = o := by
  intro o k v h
  cases o with
  | obj fs => simp only [objSet]; rw [set_same fs k v h]
  | nul => simp [Json.get] at h
  | bool b => simp [Json.get] at h
  | num n => simp [Json.get] at h
  | str s => simp [Json.get] at h
  | arr xs => simp [Json.get] at h

set_option maxHeartbeats 3200000 in
theorem mk_norm (a : StubArgs) (hB : a.Bounded) :
    normalizeDashboard (stubMk a) = stubMk a := by
  obtain ⟨e1, e2, l1, l2, w1, w2, m1, m2, hh1, hh2, n1, n2, hlen⟩ := hB
  obtain ⟨b1, b2, hbf⟩ : ∃ b1 b2, a.bestFlow = [b1, b2] := by
    rcases hx : a.bestFlow with _ | ⟨x, _ | ⟨y, _ | ⟨z, zs⟩⟩⟩
    · rw [hx] at hlen; simp at hlen
    · rw [hx] at hlen; simp at hlen
    · exact ⟨x, y, rfl⟩
    · rw [hx] at hlen; simp at hlen
  have he : min 100 (max 0 a.energyScore) = a.energyScore := by omega
  have hlo : min 5 (max 0 a.love) = a.love := by omega
  have hwo : min 5 (max 0 a.work) = a.work := by omega
  have hmo : min 5 (max 0 a.money) = a.money := by omega
  have hho : min 5 (max 0 a.health) = a.health := by omega
  have hlu : min 999 (max 0 a.luckyNumber) = a.luckyNumber := by omega
  simp [normalizeDashboard, normTodaySlot, normCosmicSlot, normCompatSlot,
    normJournalSlot, normMonthSlot, normYearSlot, normalizeToday, normalizeRatings,
    normBestHour, normTransit, normKeyDate, normalizeTransitToneO, normalizeTransitTone,
    normalizeTitle, sectionsByTitle, quartersByLabel, mapGet, mapSet, jmapGet, jmapSet,
    clampIntO, coerceNumberO, strOrEmpty, strOrEmptyJ, objSet, Json.get, Json.get2,
    JsonF.get, JsonF.set, isRecord, isRecordO, jf, jl, JsonL.take, JsonL.map,
    JsonL.append, JsonL.length, jlReplicate, fallbackBestHour, fallbackKeyDate,
    strToLower, jsToLower, jsTrim, isJsWs, strIncludes, strStarts,
    stubMk, stubMeta, stubTabs, stubToday, stubCosmic, stubCompat, stubJournal,
    stubWeek, stubMonth, stubYear, hbf, he, hlo, hwo, hmo, hho, hlu]

theorem jsShuffle_stubSigns (st : Nat) :
    jsShuffle st stubSigns = shuffleGo st stubSigns 3 := rfl

theorem stubArgs_plain (p : ProfileDraft) (d t ll sign : Str)
    (hn : plainStr p.name = true) (hm : plainStr p.mood = true)
    (hp : plainStr p.personality = true) (hd : plainStr d = true)
    (ht : plainStr t = true) (hl : plainStr ll = true) (hs : plainStr sign = true) :
    (stubArgsOf p d t ll sign).Plain := by
  have hopen : ∀ v ∈ stubOpenings (strToLower p.mood), plainStr v = true := by
    intro v hv
    simp only [stubOpenings, List.mem_cons, List.not_mem_nil, or_false] at hv
    rcases hv with rfl | rfl | rfl
    · exact plain_append (plain_append (by decide) (plain_toLower hm)) (by decide)
    · exact plain_append (plain_append (by decide) (plain_toLower hm)) (by decide)
    · exact plain_append (plain_append (by decide) (plain_toLower hm)) (by decide)
  have hmid : ∀ v ∈ stubMiddles sign (strToLower p.personality), plainStr v = true := by
    intro v hv
    simp only [stubMiddles, List.mem_cons, List.not_mem_nil, or_false] at hv
    rcases hv with rfl | rfl | rfl
    · exact plain_append (plain_append (plain_append (plain_append (by decide) hs)
        (by decide)) (plain_toLower hp)) (by decide)
    · exact plain_append (plain_append (by decide) (plain_toLower hp)) (by decide)
    · exact plain_append (plain_append (by decide) (plain_toLower hp)) (by decide)
  refine ⟨hn, hd, ht, hl, hs, pickFrom_plain (by decide) _, ?msg,
    pickFrom_plain (by decide) _, pickFrom_plain (by decide) _,
    pickFrom_plain (by decide) _, pickFrom_plain (by decide) _,
    pickFrom_plain (by decide) _, pickFrom_plain (by decide) _, ?bf⟩
  · apply plain_jsTrim
    exact plain_append (plain_append (pickFrom_plain hopen _)
      (plain_cons (by decide) (pickFrom_plain hmid _)))
      (plain_cons (by decide) (pickFrom_plain (by decide) _))
  · intro x hx
    simp only [stubArgsOf] at hx
    have hx2 : x ∈ (jsShuffle (stubSt p d sign 15) stubSigns).2 :=
      List.mem_of_mem_take hx
    rw [jsShuffle_stubSigns] at hx2
    rcases shuffleGo_mem 3 (stubSt p d sign 15) stubSigns x hx2 with h1 | h1
    · simp only [stubSigns, List.mem_cons, List.not_mem_nil, or_false] at h1
      rcases h1 with rfl | rfl | rfl | rfl <;> decide
    · rw [h1]; rfl

theorem stubArgs_bounded (p : ProfileDraft) (d t ll sign : Str) :
    (stubArgsOf p d t ll sign).Bounded := by
  have hb : ∀ n : Nat, stubDraw p d sign n < 10000 := fun n => seededNext_lt _
  have h5 := hb 5
  have h6 := hb 6
  have h7 := hb 7
  have h8 := hb 8
  have h9 := hb 9
  have h11 := hb 11
  refine ⟨?e1, ?e2, ?l1, ?l2, ?w1, ?w2, ?m1, ?m2, ?h1, ?h2, ?n1, ?n2, ?len⟩
  · simp only [stubArgsOf]; omega
  · simp only [stubArgsOf]
    have : stubDraw p d sign 5 * 45 / 10000 ≤ 44 := by omega
    omega
  · simp only [stubArgsOf]; omega
  · simp only [stubArgsOf]
    have : stubDraw p d sign 6 * 3 / 10000 ≤ 2 := by omega
    omega
  · simp only [stubArgsOf]; omega
  · simp only [stubArgsOf]
    have : stubDraw p d sign 7 * 3 / 10000 ≤ 2 := by omega
    omega
  · simp only [stubArgsOf]; omega
  · simp only [stubArgsOf]
    have : stubDraw p d sign 8 * 3 / 10000 ≤ 2 := by omega
    omega
  · simp only [stubArgsOf]; omega
  · simp only [stubArgsOf]
    have : stubDraw p d sign 9 * 3 / 10000 ≤ 2 := by omega
    omega
  · simp only [stubArgsOf]; omega
  · simp only [stubArgsOf]
    have : stubDraw p d sign 11 * 9 / 10000 ≤ 8 := by omega
    omega
  · simp only [stubArgsOf]
    rw [List.length_take, jsShuffle_stubSigns, shuffleGo_length]
    rfl

theorem stub_plainJson (p : ProfileDraft) (d t ll sign : Str)
    (hn : plainStr p.name = true) (hm : plainStr p.mood = true)
    (hp : plainStr p.personality = true) (hd : plainStr d = true)
    (ht : plainStr t = true) (hl : plainStr ll = true) (hs : plainStr sign = true) :
    plainJson (stubPayload p d t ll sign) = true := by
  rw [stub_eq_mk]
  exact mk_plain _ (stubArgs_plain p d t ll sign hn hm hp hd ht hl hs)

theorem stub_normalize_id (p : ProfileDraft) (d t ll sign : Str) :
    normalizeDashboard (stubPayload p d t ll sign) = stubPayload p d t ll sign := by
  rw [stub_eq_mk]
  exact mk_norm _ (stubArgs_bounded p d t ll sign)

theorem stub_validate (p : ProfileDraft) (d t ll sign : Str)
    (hn : plainStr p.name = true) (hm : plainStr p.mood = true)
    (hp : plainStr p.personality = true) (hd : plainStr d = true)
    (ht : plainStr t = true) (hl : plainStr ll = true) (hs : plainStr sign = true) :
    validateDashboardPayload (stubPayload p d t ll sign) =
      .valid (stubPayload p d t ll sign) := by
  rw [stub_eq_mk]
  exact mk_valid _ (stubArgs_plain p d t ll sign hn hm hp hd ht hl hs)
    (stubArgs_bounded p d t ll sign)

theorem ser_nonempty (J : Json) : 1 ≤ (serializeJson J).length := by
  obtain ⟨c, cs, heq, -⟩ := ser_head J
  rw [heq]
  simp

mutual
theorem serFuel_le_J (J : Json) : serFuel J ≤ (serializeJson J).length := by
  cases J with
  | nul => exact ser_nonempty .nul
  | bool b => exact ser_nonempty (.bool b)
  | num n => exact ser_nonempty (.num n)
  | str s => exact ser_nonempty (.str s)
  | arr xs =>
    have h := serFuel_le_L xs
    have hlen : (serializeJson (.arr xs)).length = (serializeItems xs).length + 2 := by
      simp [serializeJson]
    rw [show serFuel (.arr xs) = 1 + serFuelL xs from rfl, hlen]
    omega
  | obj fs =>
    have h := serFuel_le_F fs
    have hlen : (serializeJson (.obj fs)).length = (serializeFields fs).length + 2 := by
      simp [serializeJson]
    rw [show serFuel (.obj fs) = 1 + serFuelF fs from rfl, hlen]
    omega
theorem serFuel_le_L (xs : JsonL) : serFuelL xs ≤ (serializeItems xs).length + 1 := by
  cases xs with
  | nil => simp [serFuelL]
  | cons x tl =>
    have hx := serFuel_le_J x
    have htl := serFuel_le_L tl
    cases tl with
    | nil =>
      have hser : serializeItems (.cons x .nil) = serializeJson x := rfl
      rw [show serFuelL (.cons x .nil) = 1 + max (serFuel x) (serFuelL .nil) from rfl,
        hser]
      have h0 : serFuelL .nil = 0 := rfl
      have hm : max (serFuel x) (serFuelL (.nil : JsonL)) ≤ (serializeJson x).length :=
        Nat.max_le.mpr ⟨hx, by rw [h0]; omega⟩
      omega
    | cons y tl2 =>
      have hl : (serializeItems (.cons x (.cons y tl2))).length =
          (serializeJson x).length + 1 + (serializeItems (.cons y tl2)).length := by
        simp [serializeItems]
        omega
      have hm : max (serFuel x) (serFuelL (.cons y tl2)) ≤
          (serializeJson x).length + (serializeItems (.cons y tl2)).length + 1 :=
        Nat.max_le.mpr ⟨by omega, by omega⟩
      rw [show serFuelL (.cons x (.cons y tl2)) =
        1 + max (serFuel x) (serFuelL (.cons y tl2)) from rfl, hl]
      omega
theorem serFuel_le_F (fs : JsonF) : serFuelF fs ≤ (serializeFields fs).length + 1 := by
  cases fs with
  | nil => simp [serFuelF]
  | cons k v tl =>
    have hv := serFuel_le_J v
    have htl := serFuel_le_F tl
    cases tl with
    | nil =>
      have hl : (serializeFields (.cons k v .nil)).length =
          (escapeStr k).length + 3 + (serializeJson v).length := by
        simp [serializeFields]
        omega
      have h0 : serFuelF .nil = 0 := rfl
      have hm : max (serFuel v) (serFuelF (.nil : JsonF)) ≤ (serializeJson v).length :=
        Nat.max_le.mpr ⟨hv, by rw [h0]; omega⟩
      rw [show serFuelF (.cons k v .nil) = 1 + max (serFuel v) (serFuelF .nil) from rfl,
        hl]
      omega
    | cons l w tl2 =>
      have hl : (serializeFields (.cons k v (.cons l w tl2))).length =
          (escapeStr k).length + 4 + (serializeJson v).length +
            (serializeFields (.cons l w tl2)).length := by
        simp [serializeFields]
        omega
      have hm : max (serFuel v) (serFuelF (.cons l w tl2)) ≤
          (serializeJson v).length + (serializeFields (.cons l w tl2)).length + 1 :=
        Nat.max_le.mpr ⟨by omega, by omega⟩
      rw [show serFuelF (.cons k v (.cons l w tl2)) =
        1 + max (serFuel v) (serFuelF (.cons l w tl2)) from rfl, hl]
      omega
end

theorem jsonParse_ser (J : Json) (hp : plainJson J = true) :
    jsonParse (serializeJson J) = some J := by
  have hfu : serFuel J ≤ (serializeJson J).length + 1 :=
    le_trans (serFuel_le_J J) (by omega)
  have h := parse_ser_J J hp ((serializeJson J).length + 1) hfu [] trivial
  rw [List.append_nil] at h
  simp only [jsonParse, h]
  rfl

theorem sanitize_id_rec (J : Json) (hp : plainJson J = true) (fs : JsonF)
    (hobj : J = .obj fs) :
    sanitizeDashboardPayload (serializeJson J) =
      (serializeJson J, ⟨false, false, false, false, false, false, false, false⟩) := by
  subst hobj
  exact sanitize_id_obj fs hp

theorem stub_isRecord (p : ProfileDraft) (d t ll sign : Str) :
    isRecord (stubPayload p d t ll sign) = true := rfl

theorem stub_roundtrip (p : ProfileDraft) (d t ll sign : Str)
    (hn : plainStr p.name = true) (hm : plainStr p.mood = true)
    (hp : plainStr p.personality = true) (hd : plainStr d = true)
    (ht : plainStr t = true) (hl : plainStr ll = true) (hs : plainStr sign = true) :
    sanitizeAndParseDashboardPayload (stubGenerate p d t ll sign) =
      (.ok (stubPayload p d t ll sign),
       ⟨false, false, false, false, false, false, false, false⟩) := by
  have hplain := stub_plainJson p d t ll sign hn hm hp hd ht hl hs
  have hsan := sanitize_id_rec _ hplain _ (stub_eq_mk p d t ll sign)
  have hparse := jsonParse_ser _ hplain
  rw [show stubGenerate p d t ll sign = serializeJson (stubPayload p d t ll sign)
    from rfl]
  simp only [sanitizeAndParseDashboardPayload, hsan, hparse,
    stub_normalize_id p d t ll sign, stub_isRecord, Bool.not_true,
    stub_validate p d t ll sign hn hm hp hd ht hl hs]
  rfl

/-- C3 (amended): on the output class the sanitizer is written for —
serialized well-formed JSON objects whose strings are plain text — every
pipeline step is the identity, so running the full pipeline twice on its
own output equals running it once.  (On arbitrary inputs idempotence
fails: see the counterexample.) -/
theorem c3_sanitize_idempotent_on_serialized (fs : JsonF) (hp : plainF fs = true) :
    sanitizeDashboardPayload
        ((sanitizeDashboardPayload (serializeJson (.obj fs))).1) =
      sanitizeDashboardPayload (serializeJson (.obj fs)) := by
  have h := sanitize_id_obj fs hp
  rw [h]
  exact h

theorem c3_sanitize_idempotent_on_serialized_witness :
    plainF (jf [(("a").data, .num 1)]) = true ∧
    sanitizeDashboardPayload
        ((sanitizeDashboardPayload (serializeJson (.obj (jf [(("a").data, .num 1)])))).1) =
      sanitizeDashboardPayload (serializeJson (.obj (jf [(("a").data, .num 1)]))) :=
  ⟨by decide, c3_sanitize_idempotent_on_serialized (jf [(("a").data, .num 1)]) (by decide)⟩

/-- C9 (amended): the five structural repair steps — trailing-comma
removal, key quoting, root-object merging, anonymous-wrapper removal and
brace closing — are string-literal-aware scanners: on any serialized
plain JSON object each leaves the text (and so every character inside
its quoted string literals) unchanged and reports no repair.  The claim
fails for the code-fence stripping step, which is a raw regular
expression replacement and deletes backtick runs that lie inside string
literals (see the counterexample). -/
theorem c9_structural_steps_identity (fs : JsonF) (hp : plainF fs = true) :
    removeTrailingCommas (serializeJson (.obj fs)) = (serializeJson (.obj fs), false) ∧
    quoteUnquotedKeys (serializeJson (.obj fs)) = serializeJson (.obj fs) ∧
    mergeRootObjects (serializeJson (.obj fs)) = (serializeJson (.obj fs), false) ∧
    unwrapAnonymousRootObjects (serializeJson (.obj fs)) =
      (serializeJson (.obj fs), false) ∧
    closeMissingFinalBrace (serializeJson (.obj fs)) = (serializeJson (.obj fs), false) :=
  ⟨rtc_id _ hp, quk_id _ hp, mrg_id_obj fs hp, unw_id_obj fs hp, close_id _ hp⟩

theorem c9_structural_steps_identity_witness :
    plainF (jf [(("a").data, .num 1)]) = true ∧
    (removeTrailingCommas (serializeJson (.obj (jf [(("a").data, .num 1)]))) =
      (serializeJson (.obj (jf [(("a").data, .num 1)])), false) ∧
    quoteUnquotedKeys (serializeJson (.obj (jf [(("a").data, .num 1)]))) =
      serializeJson (.obj (jf [(("a").data, .num 1)])) ∧
    mergeRootObjects (serializeJson (.obj (jf [(("a").data, .num 1)]))) =
      (serializeJson (.obj (jf [(("a").data, .num 1)])), false) ∧
    unwrapAnonymousRootObjects (serializeJson (.obj (jf [(("a").data, .num 1)]))) =
      (serializeJson (.obj (jf [(("a").data, .num 1)])), false) ∧
    closeMissingFinalBrace (serializeJson (.obj (jf [(("a").data, .num 1)]))) =
      (serializeJson (.obj (jf [(("a").data, .num 1)])), false)) :=
  ⟨by decide, c9_structural_steps_identity (jf [(("a").data, .num 1)]) (by decide)⟩

/-- C6 (amended): the stub generator is a pure function of the profile,
the date and the clock: two invocations with the same profile and date
produce output that is byte-identical except for `meta.generatedAtISO`,
which carries the invocation's `new Date().toISOString()` reading; with
equal clock readings the outputs are byte-identical. -/
theorem c6_deterministic_up_to_timestamp (p : ProfileDraft) (d t1 t2 ll sign : Str) :
    stubGenerate p d t1 ll sign =
      serializeJson (withMetaGeneratedAt (stubPayload p d t2 ll sign) t1) := rfl

/-- C6 (counterexample): the source timestamps its output with
`new Date().toISOString()`, a hidden clock input, so two invocations
with the same profile and date but different clock readings produce
different output text — the spec's unconditional byte-identity claim
does not hold. -/
theorem c6_two_calls_differ :
    stubGenerate pAna (("2024-05-01").data) (("T1").data)
        (("May 1, 2024").data) (("Taurus").data) ≠
      stubGenerate pAna (("2024-05-01").data) (("T2").data)
        (("May 1, 2024").data) (("Taurus").data) := by
  intro h
  have hp1 : plainJson (stubPayload pAna (("2024-05-01").data) (("T1").data)
      (("May 1, 2024").data) (("Taurus").data)) = true :=
    stub_plainJson _ _ _ _ _ (by decide) (by decide) (by decide) (by decide)
      (by decide) (by decide) (by decide)
  have hp2 : plainJson (stubPayload pAna (("2024-05-01").data) (("T2").data)
      (("May 1, 2024").data) (("Taurus").data)) = true :=
    stub_plainJson _ _ _ _ _ (by decide) (by decide) (by decide) (by decide)
      (by decide) (by decide) (by decide)
  have h2 := congrArg jsonParse h
  rw [show stubGenerate pAna (("2024-05-01").data) (("T1").data)
      (("May 1, 2024").data) (("Taurus").data) =
      serializeJson (stubPayload pAna (("2024-05-01").data) (("T1").data)
        (("May 1, 2024").data) (("Taurus").data)) from rfl,
    show stubGenerate pAna (("2024-05-01").data) (("T2").data)
      (("May 1, 2024").data) (("Taurus").data) =
      serializeJson (stubPayload pAna (("2024-05-01").data) (("T2").data)
        (("May 1, 2024").data) (("Taurus").data)) from rfl,
    jsonParse_ser _ hp1, jsonParse_ser _ hp2] at h2
  rw [Option.some.injEq] at h2
  have h3 := congrArg
    (fun J => Json.get2 J (("meta").data) (("generatedAtISO").data)) h2
  have e1 : Json.get2 (stubPayload pAna (("2024-05-01").data) (("T1").data)
      (("May 1, 2024").data) (("Taurus").data)) (("meta").data)
      (("generatedAtISO").data) = some (.str (("T1").data)) := rfl
  have e2 : Json.get2 (stubPayload pAna (("2024-05-01").data) (("T2").data)
      (("May 1, 2024").data) (("Taurus").data)) (("meta").data)
      (("generatedAtISO").data) = some (.str (("T2").data)) := rfl
  simp only [e1, e2] at h3
  exact absurd h3 (by decide)

/-- C7 (amended): for every profile and ambient inputs whose fields are
plain text (no quotes, backslashes, backticks, underscores or control
characters), the stub generator's serialized output fed through
sanitize → parse → normalize → validate is accepted unchanged: the
sanitizer reports no repair and the accepted payload equals the payload
the generator serialized.  (For fields carrying backtick fences the
round trip corrupts the payload: see the counterexample.) -/
theorem c7_stub_roundtrip_plain (p : ProfileDraft) (d t ll sign : Str)
    (hn : plainStr p.name = true) (hm : plainStr p.mood = true)
    (hp : plainStr p.personality = true) (hd : plainStr d = true)
    (ht : plainStr t = true) (hl : plainStr ll = true) (hs : plainStr sign = true) :
    sanitizeAndParseDashboardPayload (stubGenerate p d t ll sign) =
      (.ok (stubPayload p d t ll sign),
       ⟨false, false, false, false, false, false, false, false⟩) :=
  stub_roundtrip p d t ll sign hn hm hp hd ht hl hs

theorem c7_stub_roundtrip_plain_witness :
    plainStr pAna.name = true ∧
    sanitizeAndParseDashboardPayload
        (stubGenerate pAna (("2024-05-01").data) (("T1").data)
          (("May 1, 2024").data) (("Taurus").data)) =
      (.ok (stubPayload pAna (("2024-05-01").data) (("T1").data)
          (("May 1, 2024").data) (("Taurus").data)),
       ⟨false, false, false, false, false, false, false, false⟩) :=
  ⟨by decide, c7_stub_roundtrip_plain pAna (("2024-05-01").data) (("T1").data)
    (("May 1, 2024").data) (("Taurus").data) (by decide) (by decide) (by decide)
    (by decide) (by decide) (by decide) (by decide)⟩

/-- C1 (amended): with a loaded model whose raw output is non-empty
unsanitizable garbage, the pipeline makes exactly one backend
invocation (there is no retry loop), `ValidatePayloadStep` falls back to
the stub adapter, and the caller receives the stub's payload — which
itself passes the strict validator.  (When the backend returns an EMPTY
string the pipeline instead throws: see the counterexample.) -/
theorem c1_single_call_stub_fallback (p : ProfileDraft) (d tR tV ll sign : Str)
    (state : AppState) (mp : Str) (mmb msb : Int)
    (hmodel : state.model = .loaded mp mmb msb)
    (garbage : Str) (hne : garbage.isEmpty = false)
    (e : Str) (hbad : (sanitizeAndParseDashboardPayload garbage).1 = .error e)
    (hn : plainStr p.name = true) (hm : plainStr p.mood = true)
    (hp : plainStr p.personality = true) (hd : plainStr d = true)
    (ht : plainStr tV = true) (hl : plainStr ll = true) (hs : plainStr sign = true) :
    runReadingPipeline p d state (.ok garbage) tR tV ll sign =
      (.ok (stubPayload p d tV ll sign), 1) ∧
    validateDashboardPayload (stubPayload p d tV ll sign) =
      .valid (stubPayload p d tV ll sign) := by
  constructor
  · have hstub := stub_roundtrip p d tV ll sign hn hm hp hd ht hl hs
    have hinv : repositoryGenerate state.model (.ok garbage)
        (stubGenerate p d tR ll sign) = (garbage, 1) := by
      rw [hmodel]
      rfl
    have hok : (sanitizeAndParseDashboardPayload (stubGenerate p d tV ll sign)).1 =
        .ok (stubPayload p d tV ll sign) := by rw [hstub]
    have hval : validatePayloadStep garbage (stubGenerate p d tV ll sign) =
        .ok (some (stubPayload p d tV ll sign)) := by
      rw [validatePayloadStep, if_neg (by simp [hne]), hbad, hok]
    simp only [runReadingPipeline, hinv, hval]
  · exact stub_validate p d tV ll sign hn hm hp hd ht hl hs

theorem c1_single_call_stub_fallback_witness :
    (sanitizeAndParseDashboardPayload (("@@@").data)).1 =
      .error (("Invalid JSON returned by model.").data) ∧
    runReadingPipeline pAna (("2024-05-01").data) freshLoadedState
        (.ok (("@@@").data)) (("T0").data) (("T1").data)
        (("May 1, 2024").data) (("Taurus").data) =
      (.ok (stubPayload pAna (("2024-05-01").data) (("T1").data)
        (("May 1, 2024").data) (("Taurus").data)), 1) := by
  have h := c1_single_call_stub_fallback pAna (("2024-05-01").data) (("T0").data)
    (("T1").data) (("May 1, 2024").data) (("Taurus").data) freshLoadedState
    [] 0 0 rfl (("@@@").data) (by decide)
    (("Invalid JSON returned by model.").data) (by decide)
    (by decide) (by decide) (by decide) (by decide) (by decide) (by decide) (by decide)
  exact ⟨by decide, h.1⟩

set_option maxHeartbeats 3200000 in
theorem ser_stub_name (a : StubArgs) (n : Str) :
    serializeJson (stubMk { a with name := n }) =
      stubSerPre a ++ (escapeStr n ++ '"' :: stubSerSuf a) := by
  simp [stubMk, stubMeta, stubTabs, stubToday, stubCosmic, stubCompat, stubJournal,
    stubWeek, stubMonth, stubYear, stubSerPre, stubSerSuf, serializeJson, serializeFields,
    serializeItems, jf, jl]

theorem bounded_upd (a : StubArgs) (n : Str) (h : a.Bounded) :
    StubArgs.Bounded { a with name := n } := h

theorem fenceGo_xy (rest : Str) :
    fenceGo true 0 (backtick :: backtick :: backtick :: ' ' :: 'y' :: rest) =
      'y' :: fenceGo true 0 rest := by
  simp +decide [fenceGo, strStarts, strStartsCI, jsToLower, isJsWs, List.takeWhile_cons]

theorem stubArgs_plain_upd (p : ProfileDraft) (d t ll sign n : Str)
    (hn : plainStr n = true) (hm : plainStr p.mood = true)
    (hp : plainStr p.personality = true) (hd : plainStr d = true)
    (ht : plainStr t = true) (hl : plainStr ll = true) (hs : plainStr sign = true) :
    StubArgs.Plain { stubArgsOf p d t ll sign with name := n } := by
  have hopen : ∀ v ∈ stubOpenings (strToLower p.mood), plainStr v = true := by
    intro v hv
    simp only [stubOpenings, List.mem_cons, List.not_mem_nil, or_false] at hv
    rcases hv with rfl | rfl | rfl
    · exact plain_append (plain_append (by decide) (plain_toLower hm)) (by decide)
    · exact plain_append (plain_append (by decide) (plain_toLower hm)) (by decide)
    · exact plain_append (plain_append (by decide) (plain_toLower hm)) (by decide)
  have hmid : ∀ v ∈ stubMiddles sign (strToLower p.personality), plainStr v = true := by
    intro v hv
    simp only [stubMiddles, List.mem_cons, List.not_mem_nil, or_false] at hv
    rcases hv with rfl | rfl | rfl
    · exact plain_append (plain_append (plain_append (plain_append (by decide) hs)
        (by decide)) (plain_toLower hp)) (by decide)
    · exact plain_append (plain_append (by decide) (plain_toLower hp)) (by decide)
    · exact plain_append (plain_append (by decide) (plain_toLower hp)) (by decide)
  simp only [StubArgs.Plain, stubArgsOf]
  refine ⟨hn, hd, ht, hl, hs, pickFrom_plain (by decide) _, ?msg,
    pickFrom_plain (by decide) _, pickFrom_plain (by decide) _,
    pickFrom_plain (by decide) _, pickFrom_plain (by decide) _,
    pickFrom_plain (by decide) _, pickFrom_plain (by decide) _, ?bf⟩
  · apply plain_jsTrim
    exact plain_append (plain_append (pickFrom_plain hopen _)
      (plain_cons (by decide) (pickFrom_plain hmid _)))
      (plain_cons (by decide) (pickFrom_plain (by decide) _))
  · intro x hx
    have hx2 : x ∈ (jsShuffle (stubSt p d sign 15) stubSigns).2 :=
      List.mem_of_mem_take hx
    rw [jsShuffle_stubSigns] at hx2
    rcases shuffleGo_mem 3 (stubSt p d sign 15) stubSigns x hx2 with h1 | h1
    · simp only [stubSigns, List.mem_cons, List.not_mem_nil, or_false] at h1
      rcases h1 with rfl | rfl | rfl | rfl <;> decide
    · rw [h1]; rfl

theorem fence_roundtrip_corrupts (p : ProfileDraft) (d t ll sign : Str)
    (hname : p.name = 'x' :: backtick :: backtick :: backtick :: ' ' :: 'y' :: [])
    (hm : plainStr p.mood = true) (hp : plainStr p.personality = true)
    (hd : plainStr d = true) (ht : plainStr t = true)
    (hl : plainStr ll = true) (hs : plainStr sign = true) :
    (sanitizeAndParseDashboardPayload (stubGenerate p d t ll sign)).1 =
      .ok (stubMk { stubArgsOf p d t ll sign with name := ['x', 'y'] }) := by
  have ha2 : StubArgs.Plain { stubArgsOf p d t ll sign with name := ['x', 'y'] } :=
    stubArgs_plain_upd p d t ll sign _ (by decide) hm hp hd ht hl hs
  have hplain2 : plainJson
      (stubMk { stubArgsOf p d t ll sign with name := ['x', 'y'] }) = true :=
    mk_plain _ ha2
  have hbt2 : ∀ c ∈ serializeJson
      (stubMk { stubArgsOf p d t ll sign with name := ['x', 'y'] }), c ≠ backtick :=
    ser_noBT_J _ hplain2
  have hser2 : serializeJson
      (stubMk { stubArgsOf p d t ll sign with name := ['x', 'y'] }) =
      stubSerPre (stubArgsOf p d t ll sign) ++
        ('x' :: 'y' :: '"' :: stubSerSuf (stubArgsOf p d t ll sign)) := by
    rw [ser_stub_name]
    rfl
  have heta : { stubArgsOf p d t ll sign with name := p.name } =
      stubArgsOf p d t ll sign := rfl
  have hser1 : serializeJson (stubMk (stubArgsOf p d t ll sign)) =
      (stubSerPre (stubArgsOf p d t ll sign) ++ ['x']) ++
        (backtick :: backtick :: backtick :: ' ' :: 'y' ::
          ('"' :: stubSerSuf (stubArgsOf p d t ll sign))) := by
    have h0 := ser_stub_name (stubArgsOf p d t ll sign) p.name
    rw [heta, hname] at h0
    have hesc : escapeStr ['x', backtick, backtick, backtick, ' ', 'y'] =
        ['x', backtick, backtick, backtick, ' ', 'y'] := rfl
    rw [hesc] at h0
    rw [h0]
    simp [List.append_assoc]
  have hbtall : ∀ c ∈ stubSerPre (stubArgsOf p d t ll sign) ++
      ('x' :: 'y' :: '"' :: stubSerSuf (stubArgsOf p d t ll sign)), c ≠ backtick := by
    rw [← hser2]; exact hbt2
  have hbtPre : ∀ c ∈ stubSerPre (stubArgsOf p d t ll sign) ++ ['x'], c ≠ backtick := by
    intro c hc
    rcases List.mem_append.mp hc with h | h
    · exact hbtall c (List.mem_append.mpr (Or.inl h))
    · rw [List.mem_singleton.mp h]; decide
  have hbtSuf : ∀ c ∈ '"' :: stubSerSuf (stubArgsOf p d t ll sign), c ≠ backtick := by
    intro c hc
    rcases List.mem_cons.mp hc with rfl | h
    · decide
    · refine hbtall c (List.mem_append.mpr (Or.inr ?_))
      exact List.mem_cons_of_mem _ (List.mem_cons_of_mem _ (List.mem_cons_of_mem _ h))
  have hf1 : fenceGo true 0 (serializeJson (stubMk (stubArgsOf p d t ll sign))) =
      serializeJson (stubMk { stubArgsOf p d t ll sign with name := ['x', 'y'] }) := by
    rw [hser1, fenceGo_chunk true _ _ hbtPre, fenceGo_xy, fenceGo_id true _ hbtSuf, hser2]
    simp [List.append_assoc]
  obtain ⟨fs1, hfs1⟩ : ∃ fs, stubMk (stubArgsOf p d t ll sign) = Json.obj fs := ⟨_, rfl⟩
  obtain ⟨fs2, hfs2⟩ : ∃ fs,
      stubMk { stubArgsOf p d t ll sign with name := ['x', 'y'] } = Json.obj fs := ⟨_, rfl⟩
  have htrim1 : jsTrim (serializeJson (stubMk (stubArgsOf p d t ll sign))) =
      serializeJson (stubMk (stubArgsOf p d t ll sign)) := by
    rw [hfs1]; exact trim_id_obj fs1
  have hplainJ2 : plainJson (Json.obj fs2) = true := by rw [← hfs2]; exact hplain2
  have hplainF2 : plainF fs2 = true := hplainJ2
  have hstrip : stripCodeFences (serializeJson (stubMk (stubArgsOf p d t ll sign))) =
      serializeJson (stubMk { stubArgsOf p d t ll sign with name := ['x', 'y'] }) := by
    rw [stripCodeFences, hf1, fenceGo_id false _ hbt2, hfs2]
    exact trim_id_obj fs2
  have hs1 : (sanitizeDashboardPayload
      (serializeJson (stubMk (stubArgsOf p d t ll sign)))).1 =
      serializeJson (stubMk { stubArgsOf p d t ll sign with name := ['x', 'y'] }) := by
    simp only [sanitizeDashboardPayload, htrim1, hstrip, hfs2, extract_id_obj fs2,
      Option.getD_some, rtc_id (Json.obj fs2) hplainJ2, quk_id (Json.obj fs2) hplainJ2,
      mrg_id_obj fs2 hplainF2, unw_id_obj fs2 hplainF2, close_id (Json.obj fs2) hplainJ2]
  have hparse : jsonParse (serializeJson
      (stubMk { stubArgsOf p d t ll sign with name := ['x', 'y'] })) =
      some (stubMk { stubArgsOf p d t ll sign with name := ['x', 'y'] }) :=
    jsonParse_ser _ hplain2
  have hnorm : normalizeDashboard
      (stubMk { stubArgsOf p d t ll sign with name := ['x', 'y'] }) =
      stubMk { stubArgsOf p d t ll sign with name := ['x', 'y'] } :=
    mk_norm _ (bounded_upd _ _ (stubArgs_bounded p d t ll sign))
  have hvalid : validateDashboardPayload
      (stubMk { stubArgsOf p d t ll sign with name := ['x', 'y'] }) =
      .valid (stubMk { stubArgsOf p d t ll sign with name := ['x', 'y'] }) :=
    mk_valid _ ha2 (bounded_upd _ _ (stubArgs_bounded p d t ll sign))
  have hrec : isRecord (stubMk { stubArgsOf p d t ll sign with name := ['x', 'y'] }) =
      true := by rw [hfs2]; rfl
  rw [show stubGenerate p d t ll sign =
    serializeJson (stubMk (stubArgsOf p d t ll sign)) from rfl]
  simp only [sanitizeAndParseDashboardPayload, hs1, hparse, hnorm, hrec, Bool.not_true,
    Bool.not_false, hvalid]
  simp

/-- C7 (counterexample): for a profile whose name carries a backtick code
fence, the sanitizer's fence-stripping regular expression deletes the
backtick run and the following whitespace from inside the `meta.name`
string literal of the stub generator's serialized output, so the round
trip is accepted but yields a payload that does not deep-equal the one
the generator serialized — the spec's universal round-trip claim fails. -/
theorem c7_fence_corrupts_roundtrip :
    (sanitizeAndParseDashboardPayload
        (stubGenerate pFence (("2024-05-01").data) (("T1").data)
          (("May 1, 2024").data) (("Taurus").data))).1 ≠
      .ok (stubPayload pFence (("2024-05-01").data) (("T1").data)
        (("May 1, 2024").data) (("Taurus").data)) := by
  intro h
  rw [fence_roundtrip_corrupts pFence (("2024-05-01").data) (("T1").data)
      (("May 1, 2024").data) (("Taurus").data) rfl (by decide) (by decide) (by decide)
      (by decide) (by decide) (by decide)] at h
  have h2 := Except.ok.inj h
  have h3 := congrArg (fun J => Json.get2 J (("meta").data) (("name").data)) h2
  have e1 : Json.get2 (stubMk { stubArgsOf pFence (("2024-05-01").data) (("T1").data)
      (("May 1, 2024").data) (("Taurus").data) with name := ['x', 'y'] })
      (("meta").data) (("name").data) = some (.str ['x', 'y']) := rfl
  have e2 : Json.get2 (stubPayload pFence (("2024-05-01").data) (("T1").data)
      (("May 1, 2024").data) (("Taurus").data)) (("meta").data) (("name").data) =
      some (.str pFence.name) := rfl
  simp only [e1, e2] at h3
  exact absurd h3 (by decide)
